import Mathlib

/-!
# StarGate server: wire codec, packet registry, frame protocol, connection

A shallow embedding of `util/io.go`, `protocol/*.go`, of `server/conn.go`
(`ReadPacket`, `onTick`, `sendPing`, `handlePacket`, `DisconnectAndClose`,
`closeConn`) and of `Listener.Close` and `removeConnection` in `server/server.go`.

Conventions of the embedding.

* A Go `byte` is a `Fin 256`; a Go `string` and a `[]byte` are `List Byte`
  (`[]byte(s)` and `string(data)` copy the bytes unchanged).
* `int32`, `int64` values are `Int`; `uint`, `uint32`, `uint64` values are `Nat`.
  Every Go conversion that can wrap is written out with an explicit modulus.
* An `io.Reader` is the list of bytes it still holds; end of the list is end
  of stream. A read returns a `Result`: a value and the bytes left, an error and
  the bytes left, or a run-time panic.
* Every `io.Writer` the program passes to a `Write` function is a
  `*bytes.Buffer`, whose writes never return an error; a write is modelled as
  the buffer extended by the bytes written.
* Logging is omitted.
* The functions of a connection are sequential state passing: each takes the
  connection (and the listener it may deregister from) and returns them. What
  the environment decides is an argument: the readings of the clock, whether a
  socket write fails. A goroutine started by a function is recorded, not run.
* `disconnect.go`, `ping.go`, `pong.go` import package `util` under the module
  path `go-stargate-client`, the same path under which `main.go` imports the
  packages `config`, `protocol` and `server` of this repository; it is the
  package of `util/io.go`.
-/

namespace StarGate

/-! ## Bytes, errors, results -/

/-- A Go `byte`. -/
abbrev Byte := Fin 256

/-- The Go conversion `byte(v)` of an unsigned integer: the low eight bits. -/
def byte (v : Nat) : Byte := ⟨v % 256, Nat.mod_lt v (by decide)⟩

/-- Errors of the codec and of `ReadPacket`. The wrapping constructors stand for
the `fmt.Errorf("...: %w", err)` calls of `ReadPacket`, one per call site. -/
inductive Err where
  /-- Go `io.EOF` -/
  | EOF
  /-- Go `io.ErrUnexpectedEOF` -/
  | ErrUnexpectedEOF
  /-- Error "failed to read magic: %w" -/
  | readMagic (cause : Err)
  /-- Error "invalid magic: expected 0x%04x, got 0x%04x" -/
  | invalidMagic (got : Nat)
  /-- Error "failed to read length: %w" -/
  | readLength (cause : Err)
  /-- Error "invalid payload length: %d" -/
  | invalidLength (length : Nat)
  /-- Error "failed to read payload: %w" -/
  | readPayload (cause : Err)
  /-- Error "failed to read packet ID: %w" -/
  | readPacketID (cause : Err)
  /-- Error "failed to read response flag: %w" -/
  | readResponseFlag (cause : Err)
  /-- Error "failed to read response ID: %w" -/
  | readResponseID (cause : Err)
  /-- Error "failed to read unknown packet: %w" -/
  | readUnknown (cause : Err)
  /-- Error "failed to read packet: %w" -/
  | readPacket (cause : Err)
  deriving DecidableEq, Repr

/-- Outcome of reading from a byte stream: `ok v rest` is a returned value with
the bytes not yet consumed, `error e rest` a returned error with the bytes not
yet consumed, `panic` a Go run-time panic. -/
inductive Result (α : Type) where
  | ok (v : α) (rest : List Byte)
  | error (e : Err) (rest : List Byte)
  | panic
  deriving DecidableEq, Repr

/-- The outcome is a returned error (the function returned, with `err != nil`). -/
def Result.isError {α : Type} : Result α → Bool
  | .error _ _ => true
  | _ => false

/-- The outcome is a returned value (`err == nil`). -/
def Result.isOk {α : Type} : Result α → Bool
  | .ok _ _ => true
  | _ => false

/-! ## Integer conversions and `encoding/binary` -/

/-- Go conversion `uint16(v)`. -/
def uint16 (v : Int) : Nat := (v % 2 ^ 16).toNat

/-- Go conversion `uint32(v)`. -/
def uint32 (v : Int) : Nat := (v % 2 ^ 32).toNat

/-- Go conversion `uint64(v)`. -/
def uint64 (v : Int) : Nat := (v % 2 ^ 64).toNat

/-- Go conversion `int32(v)`: two's complement wrap into `[-2^31, 2^31)`. -/
def int32 (v : Int) : Int := (v + 2 ^ 31) % 2 ^ 32 - 2 ^ 31

/-- Go conversion `int64(v)`: two's complement wrap into `[-2^63, 2^63)`. -/
def int64 (v : Int) : Int := (v + 2 ^ 63) % 2 ^ 64 - 2 ^ 63

/-- Go `binary.BigEndian.PutUint16(b, v)`: `b[0] = byte(v >> 8); b[1] = byte(v)`. -/
def PutUint16 (v : Nat) : List Byte := [byte (v / 2 ^ 8), byte v]

/-- Go `binary.BigEndian.PutUint32(b, v)`:
`b[0] = byte(v >> 24); b[1] = byte(v >> 16); b[2] = byte(v >> 8); b[3] = byte(v)`. -/
def PutUint32 (v : Nat) : List Byte :=
  [byte (v / 2 ^ 24), byte (v / 2 ^ 16), byte (v / 2 ^ 8), byte v]

/-- Go `binary.BigEndian.PutUint64(b, v)`. -/
def PutUint64 (v : Nat) : List Byte :=
  [byte (v / 2 ^ 56), byte (v / 2 ^ 48), byte (v / 2 ^ 40), byte (v / 2 ^ 32),
   byte (v / 2 ^ 24), byte (v / 2 ^ 16), byte (v / 2 ^ 8), byte v]

/-- Go `binary.BigEndian.Uint16(b)`: `uint16(b[1]) | uint16(b[0])<<8`, for the
two-byte slices it is called with. -/
def Uint16 : List Byte → Nat
  | [b0, b1] => b1.val + b0.val * 2 ^ 8
  | _ => 0

/-- Go `binary.BigEndian.Uint32(b)`:
`uint32(b[3]) | uint32(b[2])<<8 | uint32(b[1])<<16 | uint32(b[0])<<24`, for the
four-byte slices it is called with. -/
def Uint32 : List Byte → Nat
  | [b0, b1, b2, b3] => b3.val + b2.val * 2 ^ 8 + b1.val * 2 ^ 16 + b0.val * 2 ^ 24
  | _ => 0

/-- Go `binary.BigEndian.Uint64(b)`, for the eight-byte slices it is called with. -/
def Uint64 : List Byte → Nat
  | [b0, b1, b2, b3, b4, b5, b6, b7] =>
      b7.val + b6.val * 2 ^ 8 + b5.val * 2 ^ 16 + b4.val * 2 ^ 24 +
      b3.val * 2 ^ 32 + b2.val * 2 ^ 40 + b1.val * 2 ^ 48 + b0.val * 2 ^ 56
  | _ => 0

/-- Go `io.ReadFull(r, buf)` with `len(buf) = n` on a stream that ends where the
list ends: `n` bytes when the stream holds that many (none are needed for
`n = 0`); otherwise the stream is drained and the error is `io.EOF` when no
byte was read, `io.ErrUnexpectedEOF` when some were. -/
def ioReadFull (n : Nat) (r : List Byte) : Result (List Byte) :=
  if n ≤ r.length then .ok (r.take n) (r.drop n)
  else if r.length = 0 then .error .EOF []
  else .error .ErrUnexpectedEOF []

/-- Go `binary.Read(r, binary.BigEndian, &v)` for `v uint16`. -/
def binaryReadUint16 (r : List Byte) : Result Nat :=
  match ioReadFull 2 r with
  | .ok bs rest => .ok (Uint16 bs) rest
  | .error e rest => .error e rest
  | .panic => .panic

/-- Go `binary.Read(r, binary.BigEndian, &v)` for `v uint32`. -/
def binaryReadUint32 (r : List Byte) : Result Nat :=
  match ioReadFull 4 r with
  | .ok bs rest => .ok (Uint32 bs) rest
  | .error e rest => .error e rest
  | .panic => .panic

/-- Go `binary.Read(r, binary.BigEndian, &v)` for `v int32`: `int32(Uint32(bs))`. -/
def binaryReadInt32 (r : List Byte) : Result Int :=
  match ioReadFull 4 r with
  | .ok bs rest => .ok (int32 (Uint32 bs)) rest
  | .error e rest => .error e rest
  | .panic => .panic

/-- Go `binary.Read(r, binary.BigEndian, &v)` for `v int64`: `int64(Uint64(bs))`. -/
def binaryReadInt64 (r : List Byte) : Result Int :=
  match ioReadFull 8 r with
  | .ok bs rest => .ok (int64 (Uint64 bs)) rest
  | .error e rest => .error e rest
  | .panic => .panic

/-- Go `(*bytes.Reader).ReadByte`: the next byte, `(0, io.EOF)` at the end. -/
def bytesReaderReadByte (r : List Byte) : Result Byte :=
  match r with
  | [] => .error .EOF []
  | b :: rest => .ok b rest

/-! ## `util/io.go` -/

namespace util

/-- Go `WriteInt32`: `binary.Write(w, binary.BigEndian, v)` for `v int32`, that is
`PutUint32(bs, uint32(v))`. -/
def WriteInt32 (w : List Byte) (v : Int) : List Byte := w ++ PutUint32 (uint32 v)

/-- Go `ReadInt32`. -/
def ReadInt32 (r : List Byte) : Result Int := binaryReadInt32 r

/-- Go `WriteInt64`: `PutUint64(bs, uint64(v))`. -/
def WriteInt64 (w : List Byte) (v : Int) : List Byte := w ++ PutUint64 (uint64 v)

/-- Go `ReadInt64`. -/
def ReadInt64 (r : List Byte) : Result Int := binaryReadInt64 r

/-- Go `WriteString`: the length `int32(len(data))` big-endian, then the bytes. -/
def WriteString (w : List Byte) (s : List Byte) : List Byte :=
  let data := s
  let w := w ++ PutUint32 (uint32 (int32 data.length))
  w ++ data

/-- Go `ReadString`: `binary.Read` of the `int32` length, `make([]byte, length)`
(a run-time panic for a negative length), `io.ReadFull`. -/
def ReadString (r : List Byte) : Result (List Byte) :=
  match binaryReadInt32 r with
  | .error e rest => .error e rest
  | .panic => .panic
  | .ok length r =>
    if length < 0 then .panic
    else
      match ioReadFull length.toNat r with
      | .error e rest => .error e rest
      | .panic => .panic
      | .ok data rest => .ok data rest

/-- Go `WriteByte`: a `*bytes.Buffer` is an `io.ByteWriter`. -/
def WriteByte (w : List Byte) (v : Byte) : List Byte := w ++ [v]

/-- Go `ReadByte`: every reader the program passes is a `*bytes.Reader`, an
`io.ByteReader`, so the call is `br.ReadByte()`. -/
def ReadByte (r : List Byte) : Result Byte := bytesReaderReadByte r

/-- Go `WriteBool`. -/
def WriteBool (w : List Byte) (v : Bool) : List Byte :=
  if v then WriteByte w 1 else WriteByte w 0

/-- Go `ReadBool`: `b != 0` with the error of `ReadByte`. -/
def ReadBool (r : List Byte) : Result Bool :=
  match ReadByte r with
  | .ok b rest => .ok (b != 0) rest
  | .error e rest => .error e rest
  | .panic => .panic

/-- Go `WriteBytes`. -/
def WriteBytes (w : List Byte) (data : List Byte) : List Byte :=
  let w := WriteInt32 w (int32 data.length)
  w ++ data

/-- Go `ReadBytes`: `make([]byte, length)` panics for a negative length. -/
def ReadBytes (r : List Byte) : Result (List Byte) :=
  match ReadInt32 r with
  | .error e rest => .error e rest
  | .panic => .panic
  | .ok length r =>
    if length < 0 then .panic
    else
      match ioReadFull length.toNat r with
      | .error e rest => .error e rest
      | .panic => .panic
      | .ok data rest => .ok data rest

/-- The loop `for i := int32(0); i < length; i++ { v, err := read(r); ... arr[i] = v }`
of the array readers, for `n` remaining iterations; `acc` holds the elements
stored so far. -/
def readLoop {α : Type} (read : List Byte → Result α) : Nat → List α → List Byte → Result (List α)
  | 0, acc, r => .ok acc r
  | n + 1, acc, r =>
    match read r with
    | .error e rest => .error e rest
    | .panic => .panic
    | .ok v rest => readLoop read n (acc ++ [v]) rest

/-- Go `ReadStringArray`: `make([]string, length)` panics for a negative length. -/
def ReadStringArray (r : List Byte) : Result (List (List Byte)) :=
  match ReadInt32 r with
  | .error e rest => .error e rest
  | .panic => .panic
  | .ok length r =>
    if length < 0 then .panic
    else readLoop ReadString length.toNat [] r

/-- Go `ReadInt32Array`: `make([]int32, length)` panics for a negative length. -/
def ReadInt32Array (r : List Byte) : Result (List Int) :=
  match ReadInt32 r with
  | .error e rest => .error e rest
  | .panic => .panic
  | .ok length r =>
    if length < 0 then .panic
    else readLoop ReadInt32 length.toNat [] r

/-- Go `ReadInt64Array`: `make([]int64, length)` panics for a negative length. -/
def ReadInt64Array (r : List Byte) : Result (List Int) :=
  match ReadInt32 r with
  | .error e rest => .error e rest
  | .panic => .panic
  | .ok length r =>
    if length < 0 then .panic
    else readLoop ReadInt64 length.toNat [] r

end util

/-! ## `protocol/types/handshake_data.go` -/

/-- Go `types.HandshakeData`. -/
structure HandshakeData where
  ClientName : List Byte := []
  Password : List Byte := []
  Software : Int := 0
  Protocol : Int := 0
  deriving DecidableEq, Repr

/-- Go `(*HandshakeData).Read`: Software, ClientName, Password, Protocol, each
assigned to the receiver as it is read; the first failing read is returned. -/
def HandshakeData.Read (d : HandshakeData) (r : List Byte) : Result HandshakeData :=
  match util.ReadInt32 r with
  | .error e rest => .error e rest
  | .panic => .panic
  | .ok v r =>
    let d := { d with Software := v }
    match util.ReadString r with
    | .error e rest => .error e rest
    | .panic => .panic
    | .ok v r =>
      let d := { d with ClientName := v }
      match util.ReadString r with
      | .error e rest => .error e rest
      | .panic => .panic
      | .ok v r =>
        let d := { d with Password := v }
        match util.ReadInt32 r with
        | .error e rest => .error e rest
        | .panic => .panic
        | .ok v r =>
          let d := { d with Protocol := v }
          .ok d r

/-- Go `(*HandshakeData).Write`. -/
def HandshakeData.Write (d : HandshakeData) (w : List Byte) : List Byte :=
  let w := util.WriteInt32 w d.Software
  let w := util.WriteString w d.ClientName
  let w := util.WriteString w d.Password
  let w := util.WriteInt32 w d.Protocol
  w

/-! ## `protocol/*.go` -/

def IDUnknown : Nat := 0x00
def IDHandshake : Nat := 0x01
def IDServerHandshake : Nat := 0x02
def IDDisconnect : Nat := 0x03
def IDPing : Nat := 0x04
def IDPong : Nat := 0x05
def IDReconnect : Nat := 0x06
def IDForward : Nat := 0x07
def IDServerInfoRequest : Nat := 0x08
def IDServerInfoResponse : Nat := 0x09
def IDServerTransfer : Nat := 0x0a
def IDPlayerPingRequest : Nat := 0x0b
def IDPlayerPingResponse : Nat := 0x0c
def IDServerManage : Nat := 0x0d

/-- The implementations of the interface `protocol.Packet`. -/
inductive Packet where
  | Handshake (Data : HandshakeData)
  | ServerHandshake (Success : Bool)
  | Disconnect (Reason : List Byte)
  | Ping (PingTime : Int)
  | Pong (PingTime : Int)
  | ServerTransfer (PlayerName : List Byte) (TargetServer : List Byte)
  | Unknown (PacketID : Nat) (Payload : List Byte)
  deriving DecidableEq, Repr

/-- The method `ID()` of each packet type. -/
def Packet.ID : Packet → Nat
  | .Handshake _ => IDHandshake
  | .ServerHandshake _ => IDServerHandshake
  | .Disconnect _ => IDDisconnect
  | .Ping _ => IDPing
  | .Pong _ => IDPong
  | .ServerTransfer _ _ => IDServerTransfer
  | .Unknown _ _ => IDUnknown

/-- The method `Write(w)` of each packet type. -/
def Packet.Write : Packet → List Byte → List Byte
  | .Handshake Data, w => Data.Write w
  | .ServerHandshake Success, w => util.WriteBool w Success
  | .Disconnect Reason, w => util.WriteString w Reason
  | .Ping PingTime, w => util.WriteInt64 w PingTime
  | .Pong PingTime, w => util.WriteInt64 w PingTime
  | .ServerTransfer PlayerName TargetServer, w =>
    let w := util.WriteString w PlayerName
    util.WriteString w TargetServer
  | .Unknown _ Payload, w => w ++ Payload

/-- The method `Read(r)` of each packet type, as the receiver after a
successful read. `(*Unknown).Read` is `io.ReadAll`, which takes every byte left
and does not fail on a `*bytes.Reader`. -/
def Packet.Read : Packet → List Byte → Result Packet
  | .Handshake Data, r =>
    match Data.Read r with
    | .ok d rest => .ok (.Handshake d) rest
    | .error e rest => .error e rest
    | .panic => .panic
  | .ServerHandshake _, r =>
    match util.ReadBool r with
    | .ok v rest => .ok (.ServerHandshake v) rest
    | .error e rest => .error e rest
    | .panic => .panic
  | .Disconnect _, r =>
    match util.ReadString r with
    | .ok reason rest => .ok (.Disconnect reason) rest
    | .error e rest => .error e rest
    | .panic => .panic
  | .Ping _, r =>
    match util.ReadInt64 r with
    | .ok v rest => .ok (.Ping v) rest
    | .error e rest => .error e rest
    | .panic => .panic
  | .Pong _, r =>
    match util.ReadInt64 r with
    | .ok v rest => .ok (.Pong v) rest
    | .error e rest => .error e rest
    | .panic => .panic
  | .ServerTransfer _ _, r =>
    match util.ReadString r with
    | .error e rest => .error e rest
    | .panic => .panic
    | .ok PlayerName r =>
      match util.ReadString r with
      | .error e rest => .error e rest
      | .panic => .panic
      | .ok TargetServer rest => .ok (.ServerTransfer PlayerName TargetServer) rest
  | .Unknown PacketID _, r => .ok (.Unknown PacketID r) []

/-- The registry `protocol.Pool`: for a registered ID, the packet its
constructor returns (the zero value of the packet type). -/
def Pool (id : Nat) : Option Packet :=
  if id = IDHandshake then some (.Handshake {})
  else if id = IDServerHandshake then some (.ServerHandshake false)
  else if id = IDDisconnect then some (.Disconnect [])
  else if id = IDPing then some (.Ping 0)
  else if id = IDPong then some (.Pong 0)
  else if id = IDServerTransfer then some (.ServerTransfer [] [])
  else none

/-- Go `protocol.Wrapper`. -/
structure Wrapper where
  P : Packet
  Response : Bool := false
  ResponseID : Nat := 0
  deriving DecidableEq, Repr

/-! ## `server/conn.go`: framing -/

def StarGateMagic : Nat := 0x0a20

/-- Go `ReadPacket`, lines 371-421: parsing of the payload held in `payloadData`
through the `*bytes.Reader` `payloadBuf`. -/
def ReadPacket.parsePayload (payloadData : List Byte) : Result Wrapper :=
  let payloadBuf := payloadData
  match bytesReaderReadByte payloadBuf with
  | .error e rest => .error (.readPacketID e) rest
  | .panic => .panic
  | .ok packetID payloadBuf =>
    match bytesReaderReadByte payloadBuf with
    | .error e rest => .error (.readResponseFlag e) rest
    | .panic => .panic
    | .ok responseByte payloadBuf =>
      let Response := responseByte != 0
      let readResponseID : Result Nat :=
        if Response then
          match ioReadFull 4 payloadBuf with
          | .error e rest => .error (.readResponseID e) rest
          | .panic => .panic
          | .ok responseIDBytes rest => .ok (Uint32 responseIDBytes) rest
        else .ok 0 payloadBuf
      match readResponseID with
      | .error e rest => .error e rest
      | .panic => .panic
      | .ok ResponseID payloadBuf =>
        match Pool packetID.val with
        | none =>
          match Packet.Read (.Unknown packetID.val []) payloadBuf with
          | .error e rest => .error (.readUnknown e) rest
          | .panic => .panic
          | .ok unknownPacket rest =>
            .ok { P := unknownPacket, Response := Response, ResponseID := ResponseID } rest
        | some packet =>
          match Packet.Read packet payloadBuf with
          | .error e rest => .error (.readPacket e) rest
          | .panic => .panic
          | .ok packet rest =>
            .ok { P := packet, Response := Response, ResponseID := ResponseID } rest

/-- Go `(*Conn).ReadPacket` on the stream `bufReader`. The bytes left in the
result are those left in `bufReader`; the payload is parsed from its own
reader. -/
def ReadPacket (bufReader : List Byte) : Result Wrapper :=
  match binaryReadUint16 bufReader with
  | .error e rest => .error (.readMagic e) rest
  | .panic => .panic
  | .ok magic bufReader =>
    if magic ≠ StarGateMagic then .error (.invalidMagic magic) bufReader
    else
      match binaryReadUint32 bufReader with
      | .error e rest => .error (.readLength e) rest
      | .panic => .panic
      | .ok length bufReader =>
        if length = 0 ∨ length > 1024 * 1024 then .error (.invalidLength length) bufReader
        else
          match ioReadFull length bufReader with
          | .error e rest => .error (.readPayload e) rest
          | .panic => .panic
          | .ok payloadData bufReader =>
            match ReadPacket.parsePayload payloadData with
            | .error e _ => .error e bufReader
            | .panic => .panic
            | .ok wrapper _ => .ok wrapper bufReader

/-! ## `server/conn.go`: connection state and `onTick` -/

def StateAuthenticating : Nat := 0
def StateConnected : Nat := 1
def StateDisconnected : Nat := 2

/-- Go `PingInterval = 30 * time.Second`, a `time.Duration` in nanoseconds. -/
def PingInterval : Int := 30 * 1000000000

/-- Go `PingTimeout = 5 * time.Second`, a `time.Duration` in nanoseconds. -/
def PingTimeout : Int := 5 * 1000000000

/-- Go `server.Listener`, reduced to its live set: the keys of the map
`connections`, each `*Conn` named by the number `Conn.id`; `close` says whether
the channel `close` has been closed, `listenerClosed` whether `Close` was called
on the accept socket `listener`. -/
structure Listener where
  connections : List Nat := []
  close : Bool := false
  listenerClosed : Bool := false
  deriving DecidableEq, Repr

/-- Go `(*Listener).removeConnection`: `delete(l.connections, c)`. -/
def Listener.removeConnection (l : Listener) (c : Nat) : Listener :=
  { l with connections := l.connections.filter (fun k => k ≠ c) }

/-- Go `server.Conn`. A `time.Time` is its number of nanoseconds since the Unix
epoch. `closed` says whether the channel `closed` has been closed,
`pingTimeoutChan` how many signals the channel (capacity 1) holds, `listener`
whether the field is non-nil, `h` the attached handler as the function from a
wrapper to whether `Handle` returns an error. The embedded `net.Conn` is `sent`,
the bytes written to the socket so far, and `connClosed`, whether `Close` was
called on it. `id` names the pointer in the listener's map. Two fields record
what the connection hands to other parties: `handled`, the wrappers passed to
`h.Handle`, in order, and `spawned`, the reasons of the goroutines started by
`handlePacket` that call `DisconnectAndClose(reason)` after their sleep. -/
structure Conn where
  id : Nat := 0
  Name : List Byte := []
  queuedPackets : List Wrapper := []
  state : Nat := StateAuthenticating
  closed : Bool := false
  handshakeData : Option HandshakeData := none
  password : List Byte := []
  lastPingTime : Int := 0
  lastPongTime : Int := 0
  pingPending : Bool := false
  pingTimeoutChan : Nat := 0
  h : Option (Wrapper → Bool) := none
  listener : Bool := false
  sent : List Byte := []
  connClosed : Bool := false
  handled : List Wrapper := []
  spawned : List (List Byte) := []

/-- What one call of `onTick` takes from its environment: whether the socket
write `c.Write` returns an error, the value of `time.Now()` in `onTick`, and
the value of `time.Now()` in `sendPing`. -/
structure TickEnv where
  writeErr : Bool := false
  now : Int := 0
  sendPingNow : Int := 0
  deriving DecidableEq, Repr

/-- Go `(*Conn).QueuePacket`. -/
def Conn.QueuePacket (c : Conn) (w : Wrapper) : Conn :=
  { c with queuedPackets := c.queuedPackets ++ [w] }

/-- Go `(*Conn).closeConn`: nothing when `closed` is already closed; otherwise it
closes `closed`, sets the state, removes the connection from the listener when
there is one, and closes the socket. -/
def Conn.closeConn (c : Conn) (l : Listener) : Conn × Listener :=
  if c.closed then (c, l)
  else
    let c := { c with closed := true }
    let c := { c with state := StateDisconnected }
    let l := if c.listener then l.removeConnection c.id else l
    let c := { c with connClosed := true }
    (c, l)

/-- Go `(*Conn).sendPing`, with `now` the value of its `time.Now()`;
`now.UnixMilli()` is the number of whole milliseconds. -/
def Conn.sendPing (c : Conn) (now : Int) : Conn :=
  let c := { c with lastPingTime := now }
  let c := { c with pingPending := true }
  c.QueuePacket { P := .Ping (now / 1000000) }

/-- Go `onTick`, lines 158-176: the payload buffer built for the popped wrapper. -/
def onTick.payloadBuf (wrapper : Wrapper) : List Byte :=
  let payloadBuf : List Byte := []
  let payloadBuf := payloadBuf ++ [byte wrapper.P.ID]
  let payloadBuf :=
    if wrapper.Response then
      let payloadBuf := payloadBuf ++ [1]
      let responseIDBytes := PutUint32 (wrapper.ResponseID % 2 ^ 32)
      payloadBuf ++ responseIDBytes
    else
      payloadBuf ++ [0]
  wrapper.P.Write payloadBuf

/-- Go `onTick`, lines 178-195: the frame buffer built around the payload: the
magic as `uint16`, the length `uint32(payloadBuf.Len())`, the payload. -/
def onTick.finalBuf (wrapper : Wrapper) : List Byte :=
  let payloadBuf := onTick.payloadBuf wrapper
  let finalBuf : List Byte := []
  let finalBuf := finalBuf ++ PutUint16 (uint16 StarGateMagic)
  let finalBuf := finalBuf ++ PutUint32 (uint32 payloadBuf.length)
  finalBuf ++ payloadBuf

/-- Go `onTick`, lines 204-219: the keepalive step. The send on `pingTimeoutChan`
is non-blocking: it is dropped when the channel is full. -/
def onTick.keepalive (c : Conn) (env : TickEnv) : Conn :=
  if c.state = StateConnected then
    let now := env.now
    if c.pingPending then
      if now - c.lastPingTime ≥ PingTimeout then
        if c.pingTimeoutChan < 1 then { c with pingTimeoutChan := c.pingTimeoutChan + 1 } else c
      else c
    else
      if now - c.lastPongTime ≥ PingInterval then c.sendPing env.sendPingNow
      else c
  else c

/-- Go `(*Conn).onTick`. Writes to the two `bytes.Buffer`s do not fail, so of the
early returns only the one after a failed socket write can be taken. -/
def Conn.onTick (c : Conn) (l : Listener) (env : TickEnv) : Conn × Listener :=
  match c.queuedPackets with
  | wrapper :: tail =>
    let c := { c with queuedPackets := tail }
    let finalBuf := onTick.finalBuf wrapper
    if env.writeErr then c.closeConn l
    else
      let c := { c with sent := c.sent ++ finalBuf }
      (onTick.keepalive c env, l)
  | [] => (onTick.keepalive c env, l)

/-! ## `server/conn.go`: `handlePacket`, `DisconnectAndClose`; `server/server.go` -/

/-- The string "Invalid password". -/
def reasonInvalidPassword : List Byte :=
  [73, 110, 118, 97, 108, 105, 100, 32, 112, 97, 115, 115, 119, 111, 114, 100]

/-- The string "Ping timeout". -/
def reasonPingTimeout : List Byte :=
  [80, 105, 110, 103, 32, 116, 105, 109, 101, 111, 117, 116]

/-- The string "StarGate server shutdown". -/
def reasonServerShutdown : List Byte :=
  [83, 116, 97, 114, 71, 97, 116, 101, 32, 115, 101, 114, 118, 101, 114, 32, 115, 104, 117, 116, 100, 111, 119, 110]

/-- Go `(*Conn).handlePacket`, with `now` the value of `time.Now()` in the Pong
case. A type assertion `wrapper.P.(*protocol.T)` follows a test of
`wrapper.P.ID()` that only `T` passes, so it does not fail. The handler is the
embedder's: it is given the wrapper and its error is logged; it is recorded in
`handled`. The goroutine of the failed handshake is recorded in `spawned`; it
runs later, on its own. -/
def Conn.handlePacket (c : Conn) (l : Listener) (wrapper : Wrapper) (now : Int) :
    Conn × Listener :=
  if c.state = StateAuthenticating then
    if wrapper.P.ID = IDHandshake then
      match wrapper.P with
      | .Handshake Data =>
        let c := { c with handshakeData := some Data }
        let success := decide (Data.Password = c.password)
        let c := c.QueuePacket { P := .ServerHandshake success }
        if success then
          let c := { c with state := StateConnected }
          let c := { c with Name := Data.ClientName }
          (c, l)
        else
          ({ c with spawned := c.spawned ++ [reasonInvalidPassword] }, l)
      | _ => (c, l)
    else (c, l)
  else if c.state = StateConnected then
    let c := if c.h.isSome then { c with handled := c.handled ++ [wrapper] } else c
    if wrapper.P.ID = IDDisconnect then c.closeConn l
    else if wrapper.P.ID = IDPing then
      match wrapper.P with
      | .Ping PingTime => (c.QueuePacket { P := .Pong PingTime }, l)
      | _ => (c, l)
    else if wrapper.P.ID = IDPong then
      let c := { c with pingPending := false }
      let c := { c with lastPongTime := now }
      (c, l)
    else if wrapper.P.ID = IDUnknown then (c, l)
    else (c, l)
  else (c, l)

/-- The loop `for len(c.queuedPackets) > 0 { c.onTick() }` of
`DisconnectAndClose`. Each call of `onTick` takes the next element of `envs`,
what the environment answers to that call; `none` when `envs` is used up while
packets are still queued. -/
def Conn.drain : List TickEnv → Conn → Listener → Option (Conn × Listener)
  | [], c, l => if c.queuedPackets.length > 0 then none else some (c, l)
  | env :: envs, c, l =>
    if c.queuedPackets.length > 0 then
      Conn.drain envs (c.onTick l env).1 (c.onTick l env).2
    else some (c, l)

/-- Go `(*Conn).DisconnectAndClose`, with `envs` the answers of the environment
to the calls of `onTick` in the flush loop. -/
def Conn.DisconnectAndClose (c : Conn) (l : Listener) (reason : List Byte)
    (envs : List TickEnv) : Option (Conn × Listener) :=
  if c.closed then some (c, l)
  else
    let c := c.QueuePacket { P := .Disconnect reason, Response := false }
    match c.drain envs l with
    | none => none
    | some (c, l) => some (c.closeConn l)

/-- The listener together with the connections behind the pointers. -/
structure World where
  listener : Listener := {}
  conns : Nat → Conn := fun k => { id := k }

/-- The loop `for _, conn := range conns { conn.DisconnectAndClose(...) }` of
`(*Listener).Close`; `envs k` holds the answers of the environment to the calls
of `onTick` on the connection `k`. -/
def Listener.closeLoop (envs : Nat → List TickEnv) : List Nat → World → Option World
  | [], w => some w
  | k :: conns, w =>
    match (w.conns k).DisconnectAndClose w.listener reasonServerShutdown (envs k) with
    | none => none
    | some (c, l) =>
      Listener.closeLoop envs conns
        { listener := l, conns := fun j => if j = k then c else w.conns j }

/-- Outcome of `(*Listener).Close`: it returned, it ended in a run-time panic,
or the answers of the environment were used up before it ended. -/
inductive CloseOutcome where
  | returned (w : World)
  | panic
  | starved

/-- Go `(*Listener).Close`: close the accept socket, copy the keys of the live
set, disconnect each of them in turn, close the channel `close` (a run-time
panic when that channel is closed already). -/
def Listener.Close (w : World) (envs : Nat → List TickEnv) : CloseOutcome :=
  let w := { w with listener := { w.listener with listenerClosed := true } }
  let conns := w.listener.connections
  match Listener.closeLoop envs conns w with
  | none => .starved
  | some w =>
    if w.listener.close then .panic
    else .returned { w with listener := { w.listener with close := true } }

/-- The frames of a list of wrappers, one after the other. -/
def frames : List Wrapper → List Byte
  | [] => []
  | w :: ws => onTick.finalBuf w ++ frames ws

/-- Go `newConn`, with `now` the value of `time.Now()`: the fields of a new
connection for the pointer `id`. -/
def newConn (id : Nat) (password : List Byte) (listener : Bool) (now : Int) : Conn :=
  { id := id, Name := [], state := StateAuthenticating, listener := listener,
    queuedPackets := [], closed := false, password := password, lastPongTime := now,
    pingTimeoutChan := 0 }

/-- The LENGTH field of a frame: the big-endian value of its bytes 2 to 5. -/
def frameLength (frame : List Byte) : Nat := Uint32 ((frame.drop 2).take 4)

/-- A bound on the number of `onTick` calls that empty the queue: the queued
packets, and one more for the Ping that the keepalive step can still append
(auxiliary, for lemmas). -/
def drainBound (c : Conn) : Nat :=
  c.queuedPackets.length + (if c.state = StateConnected ∧ c.pingPending = false then 1 else 0)

/-- What the close path may have done between two states of a connection and
of its listener: the pointer and the listener field stay, a Disconnected state
stays, and either nothing was closed, or the connection was open and has been
closed and removed from its listener (auxiliary, for lemmas). -/
def Follows (c : Conn) (l : Listener) (c1 : Conn) (l1 : Listener) : Prop :=
  c1.id = c.id ∧ c1.listener = c.listener ∧
  (c.state = StateDisconnected → c1.state = StateDisconnected) ∧
  ((c1.closed = c.closed ∧ l1 = l ∧ c1.connClosed = c.connClosed) ∨
   (c.closed = false ∧ c1.closed = true ∧ c1.state = StateDisconnected ∧
     c1.connClosed = true ∧ l1 = if c.listener then l.removeConnection c.id else l))

/-- A connection that went through the close path: closed, Disconnected, its
socket closed, nothing queued (auxiliary, for lemmas). -/
def Conn.Done (c : Conn) : Prop :=
  c.closed = true ∧ c.state = StateDisconnected ∧ c.connClosed = true ∧ c.queuedPackets = []

/-- What the loop of `Listener.Close` needs of the connection behind the key
`k`: the key is its pointer, its listener field is set, and it is either open,
with the environment answering every `onTick` of its flush, or done and absent
from the live set (auxiliary, for lemmas). -/
def World.Ready (w : World) (envs : Nat → List TickEnv) (k : Nat) : Prop :=
  (w.conns k).id = k ∧ (w.conns k).listener = true ∧
  (((w.conns k).closed = false ∧ (w.conns k).queuedPackets.length + 2 ≤ (envs k).length) ∨
   ((w.conns k).Done ∧ k ∉ w.listener.connections))

/-- A reason of 1048576 zero bytes, for `DisconnectAndClose` or a queued
Disconnect. -/
def oversizedReason : List Byte := List.replicate 1048576 0

/-! ## Reachable states, the flush loop counted -/

/-- Go `(*Conn).Handler`. -/
def Conn.Handler (c : Conn) (h : Wrapper → Bool) : Conn := { c with h := some h }

/-- The number of `onTick` calls made by the flush loop of `DisconnectAndClose`
(the loop of `Conn.drain`, counting its iterations); `none` when `envs` is used
up while packets are still queued. -/
def Conn.drainTicks : List TickEnv → Conn → Listener → Option Nat
  | [], c, _ => if c.queuedPackets.length > 0 then none else some 0
  | env :: envs, c, l =>
    if c.queuedPackets.length > 0 then
      (Conn.drainTicks envs (c.onTick l env).1 (c.onTick l env).2).map (fun n => n + 1)
    else some 0

/-- The states a connection made by `newConn id password listener` can be in:
those reached from the new connection by calls of `Handler`, `handlePacket`,
`onTick`, `QueuePacket`, `DisconnectAndClose` and `closeConn`, with any
arguments, any state of the listener and any answers of the environment. -/
inductive Reachable (id : Nat) (password : List Byte) (listener : Bool) : Conn → Prop where
  | init (now : Int) : Reachable id password listener (newConn id password listener now)
  | setHandler (c : Conn) (h : Wrapper → Bool) :
      Reachable id password listener c → Reachable id password listener (c.Handler h)
  | packet (c : Conn) (l : Listener) (w : Wrapper) (now : Int) :
      Reachable id password listener c →
      Reachable id password listener (c.handlePacket l w now).1
  | tick (c : Conn) (l : Listener) (env : TickEnv) :
      Reachable id password listener c → Reachable id password listener (c.onTick l env).1
  | queue (c : Conn) (w : Wrapper) :
      Reachable id password listener c → Reachable id password listener (c.QueuePacket w)
  | disconnect (c : Conn) (l : Listener) (reason : List Byte) (envs : List TickEnv)
      (r : Conn × Listener) :
      Reachable id password listener c → c.DisconnectAndClose l reason envs = some r →
      Reachable id password listener r.1
  | close (c : Conn) (l : Listener) :
      Reachable id password listener c → Reachable id password listener (c.closeConn l).1

/-- The authentication fields are kept between two states of a connection:
handshake data, password and name are the same, and the state is the same or
Disconnected (auxiliary, for lemmas). -/
def AuthKept (c c1 : Conn) : Prop :=
  c1.handshakeData = c.handshakeData ∧ c1.password = c.password ∧ c1.Name = c.Name ∧
  (c1.state = c.state ∨ c1.state = StateDisconnected)

/-- The authentication invariant: a Connected connection holds handshake data
whose password is the configured one and whose client name is its name. -/
def AuthInv (c : Conn) : Prop :=
  c.state = StateConnected →
    ∃ d, c.handshakeData = some d ∧ d.Password = c.password ∧ c.Name = d.ClientName

/-- Go `(*Conn).HandshakeData`. -/
def Conn.HandshakeData (c : Conn) : Option StarGate.HandshakeData := c.handshakeData

/-! ## Predicates used by the statements -/

/-- The value is one an `int32` variable can hold. -/
def isInt32 (v : Int) : Prop := -2 ^ 31 ≤ v ∧ v < 2 ^ 31

/-- The value is one an `int64` variable can hold. -/
def isInt64 (v : Int) : Prop := -2 ^ 63 ≤ v ∧ v < 2 ^ 63

instance (v : Int) : Decidable (isInt32 v) := by unfold isInt32; infer_instance
instance (v : Int) : Decidable (isInt64 v) := by unfold isInt64; infer_instance

/-- The packet is a value of its Go type: each `int32` and `int64` field is in
the range of its type, an `Unknown.PacketID` in that of `uint64`. -/
def Packet.Typed : Packet → Prop
  | .Handshake Data => isInt32 Data.Software ∧ isInt32 Data.Protocol
  | .ServerHandshake _ => True
  | .Disconnect _ => True
  | .Ping PingTime => isInt64 PingTime
  | .Pong PingTime => isInt64 PingTime
  | .ServerTransfer _ _ => True
  | .Unknown PacketID _ => PacketID < 2 ^ 64

/-- Every string field of the packet has fewer than `2^31` bytes. -/
def Packet.ShortStrings : Packet → Prop
  | .Handshake Data => Data.ClientName.length < 2 ^ 31 ∧ Data.Password.length < 2 ^ 31
  | .ServerHandshake _ => True
  | .Disconnect Reason => Reason.length < 2 ^ 31
  | .Ping _ => True
  | .Pong _ => True
  | .ServerTransfer PlayerName TargetServer =>
    PlayerName.length < 2 ^ 31 ∧ TargetServer.length < 2 ^ 31
  | .Unknown _ _ => True

/-- The packet is of a registered variant: its ID is a key of `Pool` (this
excludes `Unknown`, whose ID is `IDUnknown`). -/
def Packet.Registered (p : Packet) : Prop := (Pool p.ID).isSome = true

instance (p : Packet) : Decidable p.Typed := by cases p <;> unfold Packet.Typed <;> infer_instance
instance (p : Packet) : Decidable p.ShortStrings := by
  cases p <;> unfold Packet.ShortStrings <;> infer_instance
instance (p : Packet) : Decidable p.Registered := by unfold Packet.Registered; infer_instance

/-- The end of `ReadPacket`, from line 371 on, as a function of the payload read
off the stream and of the bytes left in `bufReader` (auxiliary, for stating
lemmas about `ReadPacket`). -/
def afterPayload (payloadData bufReader : List Byte) : Result Wrapper :=
  match ReadPacket.parsePayload payloadData with
  | .error e _ => .error e bufReader
  | .panic => .panic
  | .ok wrapper _ => .ok wrapper bufReader

/-- Lines 399-421 of `ReadPacket` as a function of the header fields already
read and of the bytes left in `payloadBuf` (auxiliary, for stating lemmas about
`ReadPacket.parsePayload`). -/
def decodeBody (packetID : Nat) (Response : Bool) (ResponseID : Nat) (payloadBuf : List Byte) :
    Result Wrapper :=
  match Pool packetID with
  | none =>
    match Packet.Read (.Unknown packetID []) payloadBuf with
    | .error e rest => .error (.readUnknown e) rest
    | .panic => .panic
    | .ok unknownPacket rest =>
      .ok { P := unknownPacket, Response := Response, ResponseID := ResponseID } rest
  | some packet =>
    match Packet.Read packet payloadBuf with
    | .error e rest => .error (.readPacket e) rest
    | .panic => .panic
    | .ok packet rest =>
      .ok { P := packet, Response := Response, ResponseID := ResponseID } rest

/-- Sequencing of two reads: the second runs on the bytes the first left; an
error or a panic of the first is the outcome (auxiliary, for lemmas). -/
def Result.bind {α β : Type} (x : Result α) (f : α → List Byte → Result β) : Result β :=
  match x with
  | .error e rest => .error e rest
  | .panic => .panic
  | .ok v rest => f v rest

/-- A read that succeeds on a stream either behaves in the same way on a
shorter stream (same value, the missing bytes missing from what is left) or
returns an error there (auxiliary, for lemmas). -/
def TruncSafe {α : Type} (R : List Byte → Result α) : Prop :=
  ∀ (pre suf : List Byte) (v : α) (rest : List Byte), R (pre ++ suf) = .ok v rest →
    (∃ rest', R pre = .ok v rest' ∧ rest = rest' ++ suf) ∨ (∃ e r, R pre = .error e r)

/-- A valid body for the packet type of the receiver `q`: bytes that `q.Read`
decodes, with none left. -/
def ValidBody (q : Packet) (body : List Byte) : Prop := ∃ p, q.Read body = .ok p []

/-- The value of a byte string read as a big-endian unsigned integer (the
reading of the wire contract, independent of `encoding/binary`). -/
def beValue (bs : List Byte) : Nat := bs.foldl (fun acc b => acc * 256 + b.val) 0

/-- The wire contract's big-endian form of an integer on `n` bytes, most
significant byte first, two's complement for a negative integer: the bytes of
`v / 256` on `n - 1` bytes, then the byte `v mod 256`. -/
def specBigEndian : Nat → Int → List Byte
  | 0, _ => []
  | n + 1, v => specBigEndian n (v / 256) ++ [byte (v % 256).toNat]

/-- The wire contract's string: the byte count as an `int32`, then the bytes. -/
def specString (s : List Byte) : List Byte := specBigEndian 4 s.length ++ s

/-- The wire contract's body layout of each packet variant (section 6 of the
specification); an `Unknown` packet is its captured bytes. -/
def specBody : Packet → List Byte
  | .Handshake Data =>
    specBigEndian 4 Data.Software ++ specString Data.ClientName ++ specString Data.Password ++
      specBigEndian 4 Data.Protocol
  | .ServerHandshake Success => [if Success then 1 else 0]
  | .Disconnect Reason => specString Reason
  | .Ping PingTime => specBigEndian 8 PingTime
  | .Pong PingTime => specBigEndian 8 PingTime
  | .ServerTransfer PlayerName TargetServer => specString PlayerName ++ specString TargetServer
  | .Unknown _ Payload => Payload

/-! ## Lemmas: integers and primitive reads -/

theorem byte_val (v : Nat) : (byte v).val = v % 256 := rfl

theorem Uint32_PutUint32 (v : Nat) (h : v < 2 ^ 32) : Uint32 (PutUint32 v) = v := by
  simp only [PutUint32, Uint32, byte_val]
  omega

theorem PutUint32_Uint32 (b0 b1 b2 b3 : Byte) :
    PutUint32 (Uint32 [b0, b1, b2, b3]) = [b0, b1, b2, b3] := by
  simp only [PutUint32, Uint32]
  have e0 : byte ((b3.val + b2.val * 2 ^ 8 + b1.val * 2 ^ 16 + b0.val * 2 ^ 24) / 2 ^ 24) = b0 := by
    apply Fin.ext; simp only [byte_val]; omega
  have e1 : byte ((b3.val + b2.val * 2 ^ 8 + b1.val * 2 ^ 16 + b0.val * 2 ^ 24) / 2 ^ 16) = b1 := by
    apply Fin.ext; simp only [byte_val]; omega
  have e2 : byte ((b3.val + b2.val * 2 ^ 8 + b1.val * 2 ^ 16 + b0.val * 2 ^ 24) / 2 ^ 8) = b2 := by
    apply Fin.ext; simp only [byte_val]; omega
  have e3 : byte (b3.val + b2.val * 2 ^ 8 + b1.val * 2 ^ 16 + b0.val * 2 ^ 24) = b3 := by
    apply Fin.ext; simp only [byte_val]; omega
  rw [e0, e1, e2, e3]

theorem Uint32_lt (bs : List Byte) : Uint32 bs < 2 ^ 32 := by
  unfold Uint32
  split
  · omega
  · decide

theorem Uint64_PutUint64 (v : Nat) (h : v < 2 ^ 64) : Uint64 (PutUint64 v) = v := by
  simp only [PutUint64, Uint64, byte_val]
  omega

theorem int32_uint32 (v : Int) (h : -2 ^ 31 ≤ v ∧ v < 2 ^ 31) : int32 (uint32 v) = v := by
  unfold int32 uint32
  omega

theorem int64_uint64 (v : Int) (h : -2 ^ 63 ≤ v ∧ v < 2 ^ 63) : int64 (uint64 v) = v := by
  unfold int64 uint64
  omega

theorem uint32_lt (v : Int) : uint32 v < 2 ^ 32 := by
  unfold uint32
  omega
theorem uint64_lt (v : Int) : uint64 v < 2 ^ 64 := by
  unfold uint64
  omega

theorem ioReadFull_append (xs ys : List Byte) : ioReadFull xs.length (xs ++ ys) = .ok xs ys := by
  simp [ioReadFull]

theorem ioReadFull_append_of (n : Nat) (xs ys : List Byte) (h : xs.length = n) :
    ioReadFull n (xs ++ ys) = .ok xs ys := by
  subst h; exact ioReadFull_append xs ys

theorem ioReadFull_short (n : Nat) (r : List Byte) (h : r.length < n) :
    ∃ e, ioReadFull n r = .error e [] := by
  unfold ioReadFull
  rw [if_neg (by omega)]
  split
  · exact ⟨_, rfl⟩
  · exact ⟨_, rfl⟩

theorem PutUint32_length (v : Nat) : (PutUint32 v).length = 4 := rfl
theorem PutUint64_length (v : Nat) : (PutUint64 v).length = 8 := rfl

theorem binaryReadInt32_put (v : Int) (h : -2 ^ 31 ≤ v ∧ v < 2 ^ 31) (rest : List Byte) :
    binaryReadInt32 (PutUint32 (uint32 v) ++ rest) = .ok v rest := by
  unfold binaryReadInt32
  rw [ioReadFull_append_of 4 _ _ (PutUint32_length _)]
  simp only [Uint32_PutUint32 _ (uint32_lt v), int32_uint32 v h]

theorem binaryReadInt64_put (v : Int) (h : -2 ^ 63 ≤ v ∧ v < 2 ^ 63) (rest : List Byte) :
    binaryReadInt64 (PutUint64 (uint64 v) ++ rest) = .ok v rest := by
  unfold binaryReadInt64
  rw [ioReadFull_append_of 8 _ _ (PutUint64_length _)]
  simp only [Uint64_PutUint64 _ (uint64_lt v), int64_uint64 v h]

theorem binaryReadUint32_put (v : Nat) (h : v < 2 ^ 32) (rest : List Byte) :
    binaryReadUint32 (PutUint32 v ++ rest) = .ok v rest := by
  unfold binaryReadUint32
  rw [ioReadFull_append_of 4 _ _ (PutUint32_length _)]
  simp only [Uint32_PutUint32 _ h]

theorem int32_length (n : Nat) (h : n < 2 ^ 31) : int32 (n : Int) = (n : Int) := by
  unfold int32
  omega

theorem ReadString_WriteString (s rest : List Byte) (h : s.length < 2 ^ 31) :
    util.ReadString (util.WriteString [] s ++ rest) = .ok s rest := by
  unfold util.ReadString util.WriteString
  simp only [List.nil_append, List.append_assoc]
  rw [int32_length _ h, binaryReadInt32_put _ (by omega)]
  simp only
  rw [if_neg (by omega), Int.toNat_ofNat, ioReadFull_append]

theorem WriteString_eq (w s : List Byte) : util.WriteString w s = w ++ util.WriteString [] s := by
  simp [util.WriteString]
theorem WriteInt32_eq (w : List Byte) (v : Int) : util.WriteInt32 w v = w ++ util.WriteInt32 [] v := by
  simp [util.WriteInt32]
theorem WriteInt64_eq (w : List Byte) (v : Int) : util.WriteInt64 w v = w ++ util.WriteInt64 [] v := by
  simp [util.WriteInt64]
theorem WriteBool_eq (w : List Byte) (v : Bool) : util.WriteBool w v = w ++ util.WriteBool [] v := by
  cases v <;> simp [util.WriteBool, util.WriteByte]

theorem ReadInt32_WriteInt32 (v : Int) (h : -2 ^ 31 ≤ v ∧ v < 2 ^ 31) (rest : List Byte) :
    util.ReadInt32 (util.WriteInt32 [] v ++ rest) = .ok v rest := by
  simp only [util.ReadInt32, util.WriteInt32, List.nil_append]
  exact binaryReadInt32_put v h rest

theorem ReadInt64_WriteInt64 (v : Int) (h : -2 ^ 63 ≤ v ∧ v < 2 ^ 63) (rest : List Byte) :
    util.ReadInt64 (util.WriteInt64 [] v ++ rest) = .ok v rest := by
  simp only [util.ReadInt64, util.WriteInt64, List.nil_append]
  exact binaryReadInt64_put v h rest

theorem ReadBool_WriteBool (v : Bool) (rest : List Byte) :
    util.ReadBool (util.WriteBool [] v ++ rest) = .ok v rest := by
  cases v <;> simp [util.ReadBool, util.WriteBool, util.WriteByte, util.ReadByte, bytesReaderReadByte]

theorem HandshakeData_Read_Write (d q : HandshakeData) (rest : List Byte)
    (h1 : isInt32 d.Software) (h2 : isInt32 d.Protocol)
    (h3 : d.ClientName.length < 2 ^ 31) (h4 : d.Password.length < 2 ^ 31) :
    q.Read (d.Write [] ++ rest) = .ok d rest := by
  unfold HandshakeData.Write HandshakeData.Read
  simp only
  rw [WriteInt32_eq (util.WriteString _ _), WriteString_eq (util.WriteString _ _),
    WriteString_eq (util.WriteInt32 _ _)]
  simp only [List.append_assoc]
  rw [ReadInt32_WriteInt32 _ h1]
  simp only
  rw [ReadString_WriteString _ _ h3]
  simp only
  rw [ReadString_WriteString _ _ h4]
  simp only
  rw [ReadInt32_WriteInt32 _ h2]

theorem Packet_Read_Write (p q : Packet) (rest : List Byte) (hreg : p.Registered)
    (hq : q.ID = p.ID) (ht : p.Typed) (hs : p.ShortStrings) :
    q.Read (p.Write [] ++ rest) = .ok p rest := by
  cases p <;> cases q <;>
    first
    | (exfalso; revert hq; simp only [Packet.ID]; decide)
    | (exfalso; revert hreg; simp only [Packet.Registered, Packet.ID]; decide)
    | skip
  · rename_i d q
    simp only [Packet.Read, Packet.Write]
    rw [HandshakeData_Read_Write d q rest ht.1 ht.2 hs.1 hs.2]
  · simp only [Packet.Read, Packet.Write]
    rw [ReadBool_WriteBool]
  · simp only [Packet.Read, Packet.Write]
    rw [ReadString_WriteString _ _ hs]
  · simp only [Packet.Read, Packet.Write]
    rw [ReadInt64_WriteInt64 _ ht]
  · simp only [Packet.Read, Packet.Write]
    rw [ReadInt64_WriteInt64 _ ht]
  · simp only [Packet.Read, Packet.Write]
    rw [WriteString_eq (util.WriteString _ _)]
    simp only [List.append_assoc]
    rw [ReadString_WriteString _ _ hs.1]
    simp only
    rw [ReadString_WriteString _ _ hs.2]

theorem HandshakeData_Write_eq (d : HandshakeData) (w : List Byte) : d.Write w = w ++ d.Write [] := by
  simp [HandshakeData.Write, util.WriteInt32, util.WriteString]

theorem Packet_Write_eq (p : Packet) (w : List Byte) : p.Write w = w ++ p.Write [] := by
  cases p with
  | Handshake d => exact HandshakeData_Write_eq d w
  | ServerHandshake s => exact WriteBool_eq w s
  | Disconnect r => exact WriteString_eq w r
  | Ping t => exact WriteInt64_eq w t
  | Pong t => exact WriteInt64_eq w t
  | ServerTransfer a b => simp [Packet.Write, util.WriteString]
  | Unknown i b => simp [Packet.Write]

theorem payloadBuf_eq (w : Wrapper) :
    onTick.payloadBuf w =
      byte w.P.ID :: (if w.Response then (1 : Byte) :: (PutUint32 (w.ResponseID % 2 ^ 32) ++ w.P.Write [])
        else (0 : Byte) :: w.P.Write []) := by
  unfold onTick.payloadBuf
  simp only [List.nil_append]
  rw [Packet_Write_eq]
  cases w.Response <;> simp

theorem finalBuf_eq (w : Wrapper) :
    onTick.finalBuf w =
      (0x0a : Byte) :: (0x20 : Byte) ::
        (PutUint32 ((onTick.payloadBuf w).length % 2 ^ 32) ++ onTick.payloadBuf w) := by
  unfold onTick.finalBuf
  have h1 : PutUint16 (uint16 StarGateMagic) = [(0x0a : Byte), (0x20 : Byte)] := by decide
  have h2 : uint32 ((onTick.payloadBuf w).length : Int) = (onTick.payloadBuf w).length % 2 ^ 32 := by
    unfold uint32; omega
  simp only [h1, h2, List.nil_append, List.cons_append]

theorem onTick_sent (c : Conn) (l : Listener) (env : TickEnv) (w : Wrapper) (tail : List Wrapper)
    (hq : c.queuedPackets = w :: tail) (hw : env.writeErr = false) :
    (c.onTick l env).1.sent = c.sent ++ onTick.finalBuf w := by
  have hk : ∀ (c : Conn), (onTick.keepalive c env).sent = c.sent := by
    intro c
    unfold onTick.keepalive Conn.sendPing Conn.QueuePacket
    dsimp only
    split_ifs <;> rfl
  unfold Conn.onTick
  rw [hq]
  simp only [hw, Bool.false_eq_true, if_false, hk]

theorem ReadPacket_header (l0 l1 l2 l3 : Byte) (stream : List Byte) :
    ReadPacket ((0x0a : Byte) :: (0x20 : Byte) :: l0 :: l1 :: l2 :: l3 :: stream) =
      if Uint32 [l0, l1, l2, l3] = 0 ∨ Uint32 [l0, l1, l2, l3] > 1024 * 1024 then
        .error (.invalidLength (Uint32 [l0, l1, l2, l3])) stream
      else
        match ioReadFull (Uint32 [l0, l1, l2, l3]) stream with
        | .error e rest => .error (.readPayload e) rest
        | .panic => .panic
        | .ok payloadData bufReader => afterPayload payloadData bufReader := by
  have h1 : binaryReadUint16 ((0x0a : Byte) :: (0x20 : Byte) :: l0 :: l1 :: l2 :: l3 :: stream)
      = .ok StarGateMagic (l0 :: l1 :: l2 :: l3 :: stream) := by
    simp only [binaryReadUint16, ioReadFull, List.length_cons, Nat.le_add_left, if_true,
      List.take_succ_cons, List.take_zero, List.drop_succ_cons, List.drop_zero]
    rfl
  have h2 : binaryReadUint32 (l0 :: l1 :: l2 :: l3 :: stream)
      = .ok (Uint32 [l0, l1, l2, l3]) stream := by
    simp [binaryReadUint32, ioReadFull]
  unfold ReadPacket
  rw [h1]
  simp only [ne_eq, not_true_eq_false, if_false]
  rw [h2]
  simp only [afterPayload]

theorem ReadPacket_badMagic (b0 b1 : Byte) (stream : List Byte)
    (h : Uint16 [b0, b1] ≠ StarGateMagic) :
    ReadPacket (b0 :: b1 :: stream) = .error (.invalidMagic (Uint16 [b0, b1])) stream := by
  have h1 : binaryReadUint16 (b0 :: b1 :: stream) = .ok (Uint16 [b0, b1]) stream := by
    simp [binaryReadUint16, ioReadFull]
  unfold ReadPacket
  rw [h1]
  simp only [ne_eq, h, not_false_eq_true, if_true]

theorem ReadPacket_frame (payload rest : List Byte) (h0 : 0 < payload.length)
    (h1 : payload.length ≤ 1048576) :
    ReadPacket ((0x0a : Byte) :: (0x20 : Byte) :: (PutUint32 (payload.length % 2 ^ 32) ++ (payload ++ rest)))
      = afterPayload payload rest := by
  have hm : payload.length % 2 ^ 32 = payload.length := Nat.mod_eq_of_lt (by omega)
  have hp : PutUint32 (payload.length % 2 ^ 32) =
      [byte (payload.length / 2 ^ 24), byte (payload.length / 2 ^ 16),
        byte (payload.length / 2 ^ 8), byte payload.length] := by rw [hm]; rfl
  rw [hp]
  simp only [List.cons_append, List.nil_append]
  rw [ReadPacket_header]
  have hu : Uint32 [byte (payload.length / 2 ^ 24), byte (payload.length / 2 ^ 16),
        byte (payload.length / 2 ^ 8), byte payload.length] = payload.length :=
    Uint32_PutUint32 _ (by omega)
  rw [hu, if_neg (by omega), ioReadFull_append]

theorem parsePayload_flag0 (id : Byte) (tail : List Byte) :
    ReadPacket.parsePayload (id :: (0 : Byte) :: tail) = decodeBody id.val false 0 tail := by
  simp only [ReadPacket.parsePayload, util.ReadByte, bytesReaderReadByte, decodeBody]
  rfl

theorem parsePayload_flag1 (id flag r0 r1 r2 r3 : Byte) (body : List Byte) (hf : flag ≠ 0) :
    ReadPacket.parsePayload (id :: flag :: r0 :: r1 :: r2 :: r3 :: body)
      = decodeBody id.val true (Uint32 [r0, r1, r2, r3]) body := by
  have h4 : ioReadFull 4 (r0 :: r1 :: r2 :: r3 :: body) = .ok [r0, r1, r2, r3] body := by
    simp [ioReadFull]
  have hb : (flag != 0) = true := by simpa using hf
  simp only [ReadPacket.parsePayload, util.ReadByte, bytesReaderReadByte, decodeBody, hb, if_true, h4]

theorem parsePayload_flag1_short (id flag : Byte) (tail : List Byte) (hf : flag ≠ 0)
    (hl : tail.length < 4) :
    ∃ e, ReadPacket.parsePayload (id :: flag :: tail) = .error (.readResponseID e) [] := by
  obtain ⟨e, he⟩ := ioReadFull_short 4 tail hl
  have hb : (flag != 0) = true := by simpa using hf
  exact ⟨e, by simp only [ReadPacket.parsePayload, util.ReadByte, bytesReaderReadByte, hb, if_true, he]⟩

theorem Pool_some_ID (id : Nat) (q : Packet) (h : Pool id = some q) : q.ID = id ∧ id < 256 := by
  unfold Pool at h
  split_ifs at h with h1 h2 h3 h4 h5 h6 <;>
    (injection h with h; subst h; subst_vars; exact ⟨rfl, by decide⟩)

theorem Registered_pool (p : Packet) (h : p.Registered) :
    ∃ q, Pool p.ID = some q ∧ q.ID = p.ID ∧ p.ID < 256 := by
  unfold Packet.Registered at h
  obtain ⟨q, hq⟩ := Option.isSome_iff_exists.mp h
  exact ⟨q, hq, Pool_some_ID _ _ hq⟩

theorem decodeBody_Write (w : Wrapper) (hreg : w.P.Registered) (ht : w.P.Typed)
    (hs : w.P.ShortStrings) :
    decodeBody w.P.ID w.Response w.ResponseID (w.P.Write []) = .ok w [] := by
  obtain ⟨q, hq, hid, _⟩ := Registered_pool _ hreg
  have hr := Packet_Read_Write w.P q [] hreg hid ht hs
  rw [List.append_nil] at hr
  simp only [decodeBody, hq, hr]

theorem WriteString_length (s : List Byte) : (util.WriteString [] s).length = 4 + s.length := by
  simp [util.WriteString, PutUint32]; omega

theorem ShortStrings_of_length (p : Packet) (h : (p.Write []).length ≤ 1048576) :
    p.ShortStrings := by
  cases p with
  | Handshake d =>
    simp only [Packet.Write, HandshakeData.Write, util.WriteInt32, util.WriteString,
      List.length_append, List.nil_append, PutUint32_length] at h
    exact ⟨by omega, by omega⟩
  | ServerHandshake s => trivial
  | Disconnect r =>
    simp only [Packet.Write, WriteString_length] at h
    show r.length < 2 ^ 31
    omega
  | Ping t => trivial
  | Pong t => trivial
  | ServerTransfer a b =>
    simp only [Packet.Write, util.WriteString,
      List.length_append, List.nil_append, PutUint32_length] at h
    exact ⟨by omega, by omega⟩
  | Unknown i b => trivial

theorem payloadBuf_length (w : Wrapper) :
    (onTick.payloadBuf w).length = 2 + (if w.Response then 4 else 0) + (w.P.Write []).length := by
  rw [payloadBuf_eq]
  cases w.Response <;> simp [PutUint32_length] <;> omega

theorem parsePayload_payloadBuf (w : Wrapper) (hreg : w.P.Registered) (ht : w.P.Typed)
    (hs : w.P.ShortStrings)
    (hid : if w.Response = true then w.ResponseID < 2 ^ 32 else w.ResponseID = 0) :
    ReadPacket.parsePayload (onTick.payloadBuf w) = .ok w [] := by
  obtain ⟨q, hq, hqid, hlt⟩ := Registered_pool _ hreg
  have hbv : (byte w.P.ID).val = w.P.ID := Nat.mod_eq_of_lt hlt
  have hd := decodeBody_Write w hreg ht hs
  rw [payloadBuf_eq]
  cases hR : w.Response with
  | false =>
    rw [hR] at hid hd
    simp only [Bool.false_eq_true, if_false] at hid ⊢
    rw [parsePayload_flag0, hbv, ← hid]
    exact hd
  | true =>
    rw [hR] at hid hd
    simp only [if_true] at hid ⊢
    have hm : w.ResponseID % 2 ^ 32 = w.ResponseID := Nat.mod_eq_of_lt hid
    rw [hm]
    show ReadPacket.parsePayload (byte w.P.ID :: 1 :: byte (w.ResponseID / 2 ^ 24) ::
      byte (w.ResponseID / 2 ^ 16) :: byte (w.ResponseID / 2 ^ 8) :: byte w.ResponseID ::
      w.P.Write []) = _
    rw [parsePayload_flag1 _ _ _ _ _ _ _ (by decide), hbv]
    have hu : Uint32 [byte (w.ResponseID / 2 ^ 24), byte (w.ResponseID / 2 ^ 16),
        byte (w.ResponseID / 2 ^ 8), byte w.ResponseID] = w.ResponseID :=
      Uint32_PutUint32 _ hid
    rw [hu]
    exact hd

theorem ReadPacket_finalBuf (w : Wrapper) (rest : List Byte) (hreg : w.P.Registered)
    (ht : w.P.Typed)
    (hid : if w.Response = true then w.ResponseID < 2 ^ 32 else w.ResponseID = 0)
    (hlen : (onTick.payloadBuf w).length ≤ 1048576) :
    ReadPacket (onTick.finalBuf w ++ rest) = .ok w rest := by
  have hl := payloadBuf_length w
  have hs : w.P.ShortStrings := ShortStrings_of_length _ (by omega)
  rw [finalBuf_eq]
  simp only [List.cons_append, List.append_assoc]
  rw [ReadPacket_frame _ _ (by omega) hlen]
  simp only [afterPayload, parsePayload_payloadBuf w hreg ht hs hid]

/-! ## Lemmas: `ReadPacket`, truncation, layouts -/

theorem Uint16_magic (b0 b1 : Byte) (h : Uint16 [b0, b1] = StarGateMagic) :
    b0 = (0x0a : Byte) ∧ b1 = (0x20 : Byte) := by
  simp only [Uint16, StarGateMagic] at h
  have e0 : ((0x0a : Byte) : Nat) = 10 := rfl
  have e1 : ((0x20 : Byte) : Nat) = 32 := rfl
  constructor
  · apply Fin.ext; rw [e0]; omega
  · apply Fin.ext; rw [e1]; omega

theorem ioReadFull_ok_inv (n : Nat) (r data rest : List Byte) (h : ioReadFull n r = .ok data rest) :
    r = data ++ rest ∧ data.length = n := by
  unfold ioReadFull at h
  split_ifs at h with h1
  injection h with hd hr
  subst hd hr
  exact ⟨(List.take_append_drop n r).symm, List.length_take_of_le h1⟩

theorem binaryReadUint16_ok_inv (f rest : List Byte) (v : Nat)
    (h : binaryReadUint16 f = .ok v rest) :
    ∃ b0 b1 : Byte, f = b0 :: b1 :: rest ∧ v = Uint16 [b0, b1] := by
  unfold binaryReadUint16 at h
  cases hio : ioReadFull 2 f with
  | error e r => rw [hio] at h; exact absurd h (by simp)
  | panic => rw [hio] at h; exact absurd h (by simp)
  | ok bs r =>
    rw [hio] at h
    simp only [Result.ok.injEq] at h
    obtain ⟨hv, rfl⟩ := h
    obtain ⟨hf, hl⟩ := ioReadFull_ok_inv _ _ _ _ hio
    match bs, hl with
    | [b0, b1], _ => exact ⟨b0, b1, hf, hv.symm⟩

theorem binaryReadUint32_ok_inv (f rest : List Byte) (v : Nat)
    (h : binaryReadUint32 f = .ok v rest) :
    ∃ b0 b1 b2 b3 : Byte, f = b0 :: b1 :: b2 :: b3 :: rest ∧ v = Uint32 [b0, b1, b2, b3] := by
  unfold binaryReadUint32 at h
  cases hio : ioReadFull 4 f with
  | error e r => rw [hio] at h; exact absurd h (by simp)
  | panic => rw [hio] at h; exact absurd h (by simp)
  | ok bs r =>
    rw [hio] at h
    simp only [Result.ok.injEq] at h
    obtain ⟨hv, rfl⟩ := h
    obtain ⟨hf, hl⟩ := ioReadFull_ok_inv _ _ _ _ hio
    match bs, hl with
    | [b0, b1, b2, b3], _ => exact ⟨b0, b1, b2, b3, hf, hv.symm⟩

theorem ReadPacket_ok_inv (f rest : List Byte) (w : Wrapper) (h : ReadPacket f = .ok w rest) :
    ∃ (l0 l1 l2 l3 : Byte) (payload r : List Byte),
      f = (0x0a : Byte) :: (0x20 : Byte) :: l0 :: l1 :: l2 :: l3 :: (payload ++ rest) ∧
      Uint32 [l0, l1, l2, l3] = payload.length ∧ 0 < payload.length ∧
      payload.length ≤ 1048576 ∧ ReadPacket.parsePayload payload = .ok w r := by
  unfold ReadPacket at h
  cases h16 : binaryReadUint16 f with
  | error e r => rw [h16] at h; exact absurd h (by simp)
  | panic => rw [h16] at h; exact absurd h (by simp)
  | ok magic r1 =>
    rw [h16] at h
    simp only at h
    split_ifs at h with hm
    cases h32 : binaryReadUint32 r1 with
    | error e r => rw [h32] at h; exact absurd h (by simp)
    | panic => rw [h32] at h; exact absurd h (by simp)
    | ok length r2 =>
      rw [h32] at h
      simp only at h
      split_ifs at h with hlen
      cases hio : ioReadFull length r2 with
      | error e r => rw [hio] at h; exact absurd h (by simp)
      | panic => rw [hio] at h; exact absurd h (by simp)
      | ok payload r3 =>
        rw [hio] at h
        simp only at h
        cases hp : ReadPacket.parsePayload payload with
        | error e r => rw [hp] at h; exact absurd h (by simp)
        | panic => rw [hp] at h; exact absurd h (by simp)
        | ok w1 r =>
          rw [hp] at h
          simp only [Result.ok.injEq] at h
          obtain ⟨hw, hr⟩ := h
          obtain ⟨b0, b1, hf, hmv⟩ := binaryReadUint16_ok_inv _ _ _ h16
          obtain ⟨l0, l1, l2, l3, hf2, hlv⟩ := binaryReadUint32_ok_inv _ _ _ h32
          obtain ⟨hs, hl⟩ := ioReadFull_ok_inv _ _ _ _ hio
          have hmagic : Uint16 [b0, b1] = StarGateMagic := by
            rw [← hmv]; exact not_not.mp hm
          obtain ⟨hb0, hb1⟩ := Uint16_magic b0 b1 hmagic
          refine ⟨l0, l1, l2, l3, payload, r, ?_, ?_, ?_, ?_, ?_⟩
          · rw [hf, hf2, hs, hb0, hb1, hr]
          · rw [← hlv, hl]
          · omega
          · omega
          · rw [hp, hw]

theorem decodeBody_none (id : Nat) (Response : Bool) (ResponseID : Nat) (body : List Byte)
    (h : Pool id = none) :
    decodeBody id Response ResponseID body =
      .ok { P := .Unknown id body, Response := Response, ResponseID := ResponseID } [] := by
  simp only [decodeBody, h, Packet.Read]

/-- The payload of a frame with an unregistered packet ID, taken apart. -/
theorem parsePayload_unknown_inv (payload r : List Byte) (w : Wrapper) (id : Byte)
    (hid : payload[0]? = some id) (hpool : Pool id.val = none)
    (h : ReadPacket.parsePayload payload = .ok w r) :
    ∃ (flag : Byte) (rid body : List Byte),
      payload = id :: flag :: (rid ++ body) ∧
      (if flag = 0 then rid = [] else rid.length = 4) ∧
      w = { P := .Unknown id.val body, Response := (flag != 0),
            ResponseID := if flag = 0 then 0 else Uint32 rid } := by
  match payload, hid, h with
  | [_], _, h => exact absurd h (by simp [ReadPacket.parsePayload, util.ReadByte, bytesReaderReadByte])
  | i :: flag :: tail, hid, h =>
    simp only [List.getElem?_cons_zero, Option.some.injEq] at hid
    subst hid
    by_cases hf : flag = 0
    · subst hf
      rw [parsePayload_flag0, decodeBody_none _ _ _ _ hpool] at h
      simp only [Result.ok.injEq] at h
      exact ⟨0, [], tail, rfl, by simp, by simp [← h.1]⟩
    · match tail, h with
      | [], h =>
        obtain ⟨e, he⟩ := parsePayload_flag1_short i flag [] hf (by simp)
        rw [he] at h; exact absurd h (by simp)
      | [_], h =>
        obtain ⟨e, he⟩ := parsePayload_flag1_short i flag [_] hf (by simp)
        rw [he] at h; exact absurd h (by simp)
      | [_, _], h =>
        obtain ⟨e, he⟩ := parsePayload_flag1_short i flag [_, _] hf (by simp)
        rw [he] at h; exact absurd h (by simp)
      | [_, _, _], h =>
        obtain ⟨e, he⟩ := parsePayload_flag1_short i flag [_, _, _] hf (by simp)
        rw [he] at h; exact absurd h (by simp)
      | r0 :: r1 :: r2 :: r3 :: body, h =>
        rw [parsePayload_flag1 _ _ _ _ _ _ _ hf, decodeBody_none _ _ _ _ hpool] at h
        simp only [Result.ok.injEq] at h
        refine ⟨flag, [r0, r1, r2, r3], body, rfl, by simp [hf], ?_⟩
        rw [← h.1]
        simp [hf]

theorem finalBuf_unknown (l0 l1 l2 l3 id flag : Byte) (rid body : List Byte)
    (hrid : if flag = 0 then rid = [] else rid.length = 4)
    (hlen : Uint32 [l0, l1, l2, l3] = (id :: flag :: (rid ++ body)).length) :
    onTick.finalBuf
        { P := .Unknown id.val body, Response := (flag != 0),
          ResponseID := if flag = 0 then 0 else Uint32 rid } =
      (0x0a : Byte) :: (0x20 : Byte) :: l0 :: l1 :: l2 :: l3 :: (0 : Byte) ::
        (if flag = 0 then (0 : Byte) else (1 : Byte)) :: (rid ++ body) := by
  have hput : ∀ n, Uint32 [l0, l1, l2, l3] = n → PutUint32 (n % 2 ^ 32) = [l0, l1, l2, l3] := by
    intro n hn
    rw [← hn, Nat.mod_eq_of_lt (Uint32_lt _), PutUint32_Uint32]
  rw [finalBuf_eq, payloadBuf_eq]
  by_cases hf : flag = 0
  · subst hf
    simp only [if_true] at hrid
    subst hrid
    simp only [bne_self_eq_false, Bool.false_eq_true, if_false, if_true, List.nil_append,
      Packet.Write, Packet.ID, List.length_cons] at hlen ⊢
    rw [hput _ hlen]
    rfl
  · simp only [hf, if_false] at hrid
    have hb : (flag != 0) = true := by simpa using hf
    match rid, hrid with
    | [r0, r1, r2, r3], _ =>
      simp only [hb, hf, if_true, if_false, Packet.Write, Packet.ID, List.nil_append,
        Nat.mod_eq_of_lt (Uint32_lt _), PutUint32_Uint32, List.length_cons, List.length_append,
        List.cons_append] at hlen ⊢
      rw [hput _ hlen]
      rfl

theorem parsePayload_unknown (id flag : Byte) (rid body : List Byte)
    (hpool : Pool id.val = none)
    (hrid : if flag = 0 then rid = [] else rid.length = 4) :
    ReadPacket.parsePayload (id :: flag :: (rid ++ body)) =
      .ok { P := .Unknown id.val body, Response := (flag != 0),
            ResponseID := if flag = 0 then 0 else Uint32 rid } [] := by
  by_cases hf : flag = 0
  · subst hf
    simp only [if_true] at hrid
    subst hrid
    rw [List.nil_append, parsePayload_flag0, decodeBody_none _ _ _ _ hpool]
    rfl
  · simp only [hf, if_false] at hrid
    match rid, hrid with
    | [r0, r1, r2, r3], _ =>
      have hb : (flag != 0) = true := by simpa using hf
      show ReadPacket.parsePayload (id :: flag :: r0 :: r1 :: r2 :: r3 :: body) = _
      rw [parsePayload_flag1 _ _ _ _ _ _ _ hf, decodeBody_none _ _ _ _ hpool, hb, if_neg hf]

theorem ReadPacket_stream (l0 l1 l2 l3 : Byte) (payload rest : List Byte)
    (hlen : Uint32 [l0, l1, l2, l3] = payload.length) (hpos : 0 < payload.length)
    (hmax : payload.length ≤ 1048576) :
    ReadPacket ((0x0a : Byte) :: (0x20 : Byte) :: l0 :: l1 :: l2 :: l3 :: (payload ++ rest)) =
      afterPayload payload rest := by
  rw [ReadPacket_header, hlen, if_neg (by omega), ioReadFull_append]

theorem afterPayload_not_invalidLength (payload bufReader r : List Byte) (n : Nat) :
    afterPayload payload bufReader ≠ .error (.invalidLength n) r := by
  intro h
  unfold afterPayload at h
  cases hp : ReadPacket.parsePayload payload with
  | panic => rw [hp] at h; exact absurd h (by simp)
  | ok w r1 => rw [hp] at h; exact absurd h (by simp)
  | error e r1 =>
    rw [hp] at h
    simp only [Result.error.injEq] at h
    obtain ⟨he, _⟩ := h
    subst he
    unfold ReadPacket.parsePayload at hp
    simp only at hp
    repeat' split at hp
    all_goals first
      | (simp at hp; done)
      | (rename_i heq
         simp only [Result.error.injEq] at hp
         obtain ⟨h1, _⟩ := hp
         subst h1
         repeat' split at heq
         all_goals (simp at heq))

theorem truncSafe_bind {α β : Type} {R : List Byte → Result α}
    {F : α → List Byte → Result β} (hR : TruncSafe R) (hF : ∀ v, TruncSafe (F v)) :
    TruncSafe (fun r => (R r).bind F) := by
  intro pre suf v rest h
  simp only at h
  cases hfull : R (pre ++ suf) with
  | error e r => rw [hfull] at h; exact absurd h (by simp [Result.bind])
  | panic => rw [hfull] at h; exact absurd h (by simp [Result.bind])
  | ok v1 r1 =>
    rw [hfull] at h
    simp only [Result.bind] at h
    rcases hR pre suf v1 r1 hfull with ⟨r1', h1, hr1⟩ | ⟨e, r, h1⟩
    · subst hr1
      rcases hF v1 r1' suf v rest h with ⟨rest', h2, hrest⟩ | ⟨e, r, h2⟩
      · exact Or.inl ⟨rest', by simp only [h1, Result.bind, h2], hrest⟩
      · exact Or.inr ⟨e, r, by simp only [h1, Result.bind, h2]⟩
    · exact Or.inr ⟨e, r, by simp only [h1, Result.bind]⟩

theorem truncSafe_ret {α β : Type} (g : α → β) :
    ∀ v, TruncSafe (fun r => (Result.ok (g v) r : Result β)) := by
  intro v pre suf v' rest h
  simp only [Result.ok.injEq] at h
  exact Or.inl ⟨pre, by rw [h.1], h.2.symm⟩

theorem truncSafe_ioReadFull (n : Nat) : TruncSafe (ioReadFull n) := by
  intro pre suf v rest h
  by_cases hn : n ≤ pre.length
  · left
    unfold ioReadFull at h ⊢
    rw [if_pos (by rw [List.length_append]; omega)] at h
    rw [if_pos hn]
    simp only [Result.ok.injEq] at h
    obtain ⟨hv, hr⟩ := h
    refine ⟨pre.drop n, ?_, ?_⟩
    · rw [← hv, List.take_append_of_le_length hn]
    · rw [← hr, List.drop_append_of_le_length hn]
  · right
    obtain ⟨e, he⟩ := ioReadFull_short n pre (by omega)
    exact ⟨e, [], he⟩

theorem truncSafe_ReadByte : TruncSafe util.ReadByte := by
  intro pre suf v rest h
  cases pre with
  | nil => exact Or.inr ⟨_, _, rfl⟩
  | cons b t =>
    simp only [util.ReadByte, bytesReaderReadByte, List.cons_append, Result.ok.injEq] at h
    exact Or.inl ⟨t, by simp only [util.ReadByte, bytesReaderReadByte, h.1], h.2.symm⟩

theorem binaryReadInt32_bind (r : List Byte) :
    binaryReadInt32 r = (ioReadFull 4 r).bind (fun bs rest => .ok (int32 (Uint32 bs)) rest) := by
  unfold binaryReadInt32 Result.bind
  cases ioReadFull 4 r <;> rfl

theorem binaryReadInt64_bind (r : List Byte) :
    binaryReadInt64 r = (ioReadFull 8 r).bind (fun bs rest => .ok (int64 (Uint64 bs)) rest) := by
  unfold binaryReadInt64 Result.bind
  cases ioReadFull 8 r <;> rfl

theorem truncSafe_ReadInt32 : TruncSafe util.ReadInt32 := by
  have h : util.ReadInt32 = fun r => (ioReadFull 4 r).bind (fun bs rest => .ok (int32 (Uint32 bs)) rest) :=
    funext binaryReadInt32_bind
  rw [h]
  exact truncSafe_bind (truncSafe_ioReadFull 4) (truncSafe_ret _)

theorem truncSafe_ReadInt64 : TruncSafe util.ReadInt64 := by
  have h : util.ReadInt64 = fun r => (ioReadFull 8 r).bind (fun bs rest => .ok (int64 (Uint64 bs)) rest) :=
    funext binaryReadInt64_bind
  rw [h]
  exact truncSafe_bind (truncSafe_ioReadFull 8) (truncSafe_ret _)

theorem truncSafe_ReadBool : TruncSafe util.ReadBool := by
  have h : util.ReadBool = fun r => (util.ReadByte r).bind (fun b rest => .ok (b != 0) rest) := by
    funext r
    unfold util.ReadBool Result.bind
    cases util.ReadByte r <;> rfl
  rw [h]
  exact truncSafe_bind truncSafe_ReadByte (truncSafe_ret _)

theorem truncSafe_guard {α : Type} (c : Prop) [Decidable c] {R : List Byte → Result α}
    (hR : TruncSafe R) : TruncSafe (fun r => if c then Result.panic else R r) := by
  intro pre suf v rest h
  by_cases hc : c
  · simp only [hc, if_true] at h
    exact absurd h (by simp)
  · simp only [hc, if_false] at h ⊢
    exact hR pre suf v rest h

theorem truncSafe_ReadString : TruncSafe util.ReadString := by
  have h : util.ReadString = fun r => (util.ReadInt32 r).bind
      (fun length r => if length < 0 then Result.panic else
        (ioReadFull length.toNat r).bind (fun data rest => .ok data rest)) := by
    funext r
    unfold util.ReadString util.ReadInt32 Result.bind
    cases binaryReadInt32 r with
    | error e rest => rfl
    | panic => rfl
    | ok length r1 =>
      simp only
      split
      · rfl
      · cases ioReadFull length.toNat r1 <;> rfl
  rw [h]
  refine truncSafe_bind truncSafe_ReadInt32 (fun length => ?_)
  exact truncSafe_guard _ (truncSafe_bind (truncSafe_ioReadFull _) (truncSafe_ret id))

theorem truncSafe_HandshakeData_Read (d : HandshakeData) : TruncSafe d.Read := by
  have h : d.Read = fun r => (util.ReadInt32 r).bind (fun v1 r =>
      (util.ReadString r).bind (fun v2 r => (util.ReadString r).bind (fun v3 r =>
        (util.ReadInt32 r).bind (fun v4 r =>
          .ok { ClientName := v2, Password := v3, Software := v1, Protocol := v4 } r)))) := by
    funext r
    simp only [HandshakeData.Read, Result.bind]
    cases util.ReadInt32 r with
    | error e r1 => rfl
    | panic => rfl
    | ok v1 r1 =>
      simp only
      cases util.ReadString r1 with
      | error e r2 => rfl
      | panic => rfl
      | ok v2 r2 =>
        simp only
        cases util.ReadString r2 with
        | error e r3 => rfl
        | panic => rfl
        | ok v3 r3 =>
          simp only
          cases util.ReadInt32 r3 <;> rfl
  rw [h]
  refine truncSafe_bind truncSafe_ReadInt32 (fun v1 => ?_)
  refine truncSafe_bind truncSafe_ReadString (fun v2 => ?_)
  refine truncSafe_bind truncSafe_ReadString (fun v3 => ?_)
  exact truncSafe_bind truncSafe_ReadInt32
    (truncSafe_ret (fun v4 => ({ ClientName := v2, Password := v3, Software := v1, Protocol := v4 } : HandshakeData)))

theorem truncSafe_Packet_Read (q : Packet) (hq : q.ID ≠ IDUnknown) : TruncSafe q.Read := by
  cases q with
  | Handshake d =>
    have h : (Packet.Handshake d).Read = fun r => (d.Read r).bind (fun v r => .ok (.Handshake v) r) := by
      funext r; simp only [Packet.Read, Result.bind]; cases d.Read r <;> rfl
    rw [h]
    exact truncSafe_bind (truncSafe_HandshakeData_Read d) (truncSafe_ret _)
  | ServerHandshake s =>
    have h : (Packet.ServerHandshake s).Read =
        fun r => (util.ReadBool r).bind (fun v r => .ok (.ServerHandshake v) r) := by
      funext r; simp only [Packet.Read, Result.bind]; cases util.ReadBool r <;> rfl
    rw [h]
    exact truncSafe_bind truncSafe_ReadBool (truncSafe_ret _)
  | Disconnect s =>
    have h : (Packet.Disconnect s).Read =
        fun r => (util.ReadString r).bind (fun v r => .ok (.Disconnect v) r) := by
      funext r; simp only [Packet.Read, Result.bind]; cases util.ReadString r <;> rfl
    rw [h]
    exact truncSafe_bind truncSafe_ReadString (truncSafe_ret _)
  | Ping t =>
    have h : (Packet.Ping t).Read =
        fun r => (util.ReadInt64 r).bind (fun v r => .ok (.Ping v) r) := by
      funext r; simp only [Packet.Read, Result.bind]; cases util.ReadInt64 r <;> rfl
    rw [h]
    exact truncSafe_bind truncSafe_ReadInt64 (truncSafe_ret _)
  | Pong t =>
    have h : (Packet.Pong t).Read =
        fun r => (util.ReadInt64 r).bind (fun v r => .ok (.Pong v) r) := by
      funext r; simp only [Packet.Read, Result.bind]; cases util.ReadInt64 r <;> rfl
    rw [h]
    exact truncSafe_bind truncSafe_ReadInt64 (truncSafe_ret _)
  | ServerTransfer a b =>
    have h : (Packet.ServerTransfer a b).Read =
        fun r => (util.ReadString r).bind (fun v1 r =>
          (util.ReadString r).bind (fun v2 r => .ok (.ServerTransfer v1 v2) r)) := by
      funext r
      simp only [Packet.Read, Result.bind]
      cases util.ReadString r with
      | error e r1 => rfl
      | panic => rfl
      | ok v1 r1 =>
        simp only
        cases util.ReadString r1 <;> rfl
    rw [h]
    refine truncSafe_bind truncSafe_ReadString (fun v1 => ?_)
    exact truncSafe_bind truncSafe_ReadString (truncSafe_ret _)
  | Unknown i b => exact absurd rfl hq


theorem Pool_some_ne_unknown (id : Nat) (q : Packet) (h : Pool id = some q) : q.ID ≠ IDUnknown := by
  intro h0
  obtain ⟨h1, _⟩ := Pool_some_ID id q h
  rw [h0] at h1
  rw [← h1] at h
  have hn : Pool IDUnknown = none := by decide
  rw [hn] at h
  exact absurd h (by simp)

theorem Read_truncated (q : Packet) (hq : q.ID ≠ IDUnknown) (pre suffix : List Byte)
    (hs : suffix ≠ []) (hv : ValidBody q (pre ++ suffix)) :
    ∃ e r, q.Read pre = .error e r := by
  obtain ⟨p, hp⟩ := hv
  rcases truncSafe_Packet_Read q hq pre suffix p [] hp with ⟨rest', _, hrest⟩ | h
  · exact absurd (List.append_eq_nil.mp hrest.symm).2 hs
  · exact h

theorem decodeBody_error (id : Nat) (q : Packet) (Response : Bool) (ResponseID : Nat)
    (body r : List Byte) (e : Err) (hpool : Pool id = some q) (h : q.Read body = .error e r) :
    decodeBody id Response ResponseID body = .error (.readPacket e) r := by
  simp only [decodeBody, hpool, h]

theorem PutUint32_spec (v : Int) : PutUint32 (uint32 v) = specBigEndian 4 v := by
  simp only [specBigEndian, PutUint32, List.nil_append, List.cons_append, uint32]
  have e0 : byte ((v % 2 ^ 32).toNat / 2 ^ 24) = byte (v / 256 / 256 / 256 % 256).toNat := by
    apply Fin.ext; simp only [byte_val]; omega
  have e1 : byte ((v % 2 ^ 32).toNat / 2 ^ 16) = byte (v / 256 / 256 % 256).toNat := by
    apply Fin.ext; simp only [byte_val]; omega
  have e2 : byte ((v % 2 ^ 32).toNat / 2 ^ 8) = byte (v / 256 % 256).toNat := by
    apply Fin.ext; simp only [byte_val]; omega
  have e3 : byte ((v % 2 ^ 32).toNat) = byte (v % 256).toNat := by
    apply Fin.ext; simp only [byte_val]; omega
  rw [e0, e1, e2, e3]

theorem PutUint64_spec (v : Int) : PutUint64 (uint64 v) = specBigEndian 8 v := by
  simp only [specBigEndian, PutUint64, List.nil_append, List.cons_append, uint64]
  have e0 : byte ((v % 2 ^ 64).toNat / 2 ^ 56) =
      byte (v / 256 / 256 / 256 / 256 / 256 / 256 / 256 % 256).toNat := by
    apply Fin.ext; simp only [byte_val]; omega
  have e1 : byte ((v % 2 ^ 64).toNat / 2 ^ 48) =
      byte (v / 256 / 256 / 256 / 256 / 256 / 256 % 256).toNat := by
    apply Fin.ext; simp only [byte_val]; omega
  have e2 : byte ((v % 2 ^ 64).toNat / 2 ^ 40) =
      byte (v / 256 / 256 / 256 / 256 / 256 % 256).toNat := by
    apply Fin.ext; simp only [byte_val]; omega
  have e3 : byte ((v % 2 ^ 64).toNat / 2 ^ 32) = byte (v / 256 / 256 / 256 / 256 % 256).toNat := by
    apply Fin.ext; simp only [byte_val]; omega
  have e4 : byte ((v % 2 ^ 64).toNat / 2 ^ 24) = byte (v / 256 / 256 / 256 % 256).toNat := by
    apply Fin.ext; simp only [byte_val]; omega
  have e5 : byte ((v % 2 ^ 64).toNat / 2 ^ 16) = byte (v / 256 / 256 % 256).toNat := by
    apply Fin.ext; simp only [byte_val]; omega
  have e6 : byte ((v % 2 ^ 64).toNat / 2 ^ 8) = byte (v / 256 % 256).toNat := by
    apply Fin.ext; simp only [byte_val]; omega
  have e7 : byte ((v % 2 ^ 64).toNat) = byte (v % 256).toNat := by
    apply Fin.ext; simp only [byte_val]; omega
  rw [e0, e1, e2, e3, e4, e5, e6, e7]

theorem uint32_int32 (v : Int) : uint32 (int32 v) = uint32 v := by
  unfold uint32 int32
  omega

theorem WriteString_spec (w s : List Byte) : util.WriteString w s = w ++ specString s := by
  simp only [util.WriteString, specString, uint32_int32, PutUint32_spec, List.append_assoc]

theorem WriteInt32_spec (w : List Byte) (v : Int) : util.WriteInt32 w v = w ++ specBigEndian 4 v := by
  simp only [util.WriteInt32, PutUint32_spec]

theorem WriteInt64_spec (w : List Byte) (v : Int) : util.WriteInt64 w v = w ++ specBigEndian 8 v := by
  simp only [util.WriteInt64, PutUint64_spec]

theorem beValue_PutUint32 (v : Nat) : beValue (PutUint32 v) = v % 2 ^ 32 := by
  simp only [beValue, PutUint32, List.foldl, byte_val]
  omega

theorem ReadInt32_cons (b0 b1 b2 b3 : Byte) (rest : List Byte) :
    util.ReadInt32 (b0 :: b1 :: b2 :: b3 :: rest) = .ok (int32 (Uint32 [b0, b1, b2, b3])) rest := by
  simp [util.ReadInt32, binaryReadInt32, ioReadFull]

/-- On every input whose four-byte length prefix is negative as an `int32`, each
length-prefixed read of the codec ends in a run-time panic. -/
theorem negative_length_panics (b0 b1 b2 b3 : Byte) (rest : List Byte)
    (h : int32 (Uint32 [b0, b1, b2, b3]) < 0) :
    util.ReadString (b0 :: b1 :: b2 :: b3 :: rest) = .panic ∧
    util.ReadBytes (b0 :: b1 :: b2 :: b3 :: rest) = .panic ∧
    util.ReadStringArray (b0 :: b1 :: b2 :: b3 :: rest) = .panic ∧
    util.ReadInt32Array (b0 :: b1 :: b2 :: b3 :: rest) = .panic ∧
    util.ReadInt64Array (b0 :: b1 :: b2 :: b3 :: rest) = .panic := by
  have hr := ReadInt32_cons b0 b1 b2 b3 rest
  have hb : binaryReadInt32 (b0 :: b1 :: b2 :: b3 :: rest) =
      .ok (int32 (Uint32 [b0, b1, b2, b3])) rest := hr
  refine ⟨?_, ?_, ?_, ?_, ?_⟩
  · simp only [util.ReadString, hb, h, if_true]
  · simp only [util.ReadBytes, hr, h, if_true]
  · simp only [util.ReadStringArray, hr, h, if_true]
  · simp only [util.ReadInt32Array, hr, h, if_true]
  · simp only [util.ReadInt64Array, hr, h, if_true]

theorem beValue_append_singleton (bs : List Byte) (b : Byte) :
    beValue (bs ++ [b]) = beValue bs * 256 + b.val := by
  simp [beValue, List.foldl_append]

/-- The layout `specBigEndian n v` has `n` bytes and, read as a big-endian
unsigned integer, is `v` modulo `256^n`. -/
theorem specBigEndian_value (n : Nat) (v : Int) :
    (specBigEndian n v).length = n ∧ (beValue (specBigEndian n v) : Int) = v % 256 ^ n := by
  induction n generalizing v with
  | zero => exact ⟨rfl, by simp [specBigEndian, beValue, Int.emod_one]⟩
  | succ n ih =>
    obtain ⟨hl, hv⟩ := ih (v / 256)
    refine ⟨by simp [specBigEndian, hl], ?_⟩
    rw [specBigEndian, beValue_append_singleton]
    push_cast
    rw [hv, byte_val]
    have h256 : (0 : Int) < 256 ^ n := by positivity
    have e1 : (((v % 256).toNat % 256 : Nat) : Int) = v % 256 := by omega
    rw [e1, pow_succ, mul_comm ((256 : Int) ^ n) 256]
    generalize (256 : Int) ^ n = M at h256 ⊢
    have hq := Int.emod_add_ediv (v / 256) M
    have hr := Int.emod_add_ediv v 256
    have hB0 := Int.emod_nonneg (v / 256) (ne_of_gt h256)
    have hB1 := Int.emod_lt_of_pos (v / 256) h256
    have hr0 := Int.emod_nonneg v (by decide : (256 : Int) ≠ 0)
    have hr1 := Int.emod_lt_of_pos v (by decide : (0 : Int) < 256)
    have key := (Int.ediv_emod_unique (a := v) (b := 256 * M) (q := v / 256 / M)
      (r := v / 256 % M * 256 + v % 256) (by omega)).mpr
      ⟨by linear_combination 256 * hq + hr, by omega, by omega⟩
    exact key.2.symm

/-! ## Lemmas: connection state machine, close path -/

theorem handlePacket_disconnected (c : Conn) (l : Listener) (w : Wrapper) (now : Int)
    (hd : c.state = StateDisconnected) : c.handlePacket l w now = (c, l) := by
  have h1 : ¬ (StateDisconnected = StateAuthenticating) := by decide
  have h2 : ¬ (StateDisconnected = StateConnected) := by decide
  unfold Conn.handlePacket
  simp only [hd, h1, h2, if_false]

theorem Conn_eta_pingTimeoutChan (c : Conn) : { c with pingTimeoutChan := c.pingTimeoutChan } = c := by
  cases c; rfl

theorem keepalive_cases (c : Conn) (env : TickEnv) :
    (∃ k, onTick.keepalive c env = { c with pingTimeoutChan := k }) ∨
    (c.state = StateConnected ∧ c.pingPending = false ∧
      onTick.keepalive c env = c.sendPing env.sendPingNow) := by
  have same : ∀ x : Conn, x = c → ∃ k, x = { c with pingTimeoutChan := k } :=
    fun x hx => ⟨c.pingTimeoutChan, by rw [hx]⟩
  unfold onTick.keepalive
  dsimp only
  split_ifs with hs hp ht h0 ht
  · exact Or.inl ⟨_, rfl⟩
  · exact Or.inl (same _ rfl)
  · exact Or.inl (same _ rfl)
  · exact Or.inr ⟨hs, by simpa using hp, rfl⟩
  · exact Or.inl (same _ rfl)
  · exact Or.inl (same _ rfl)

theorem frames_append (a b : List Wrapper) : frames (a ++ b) = frames a ++ frames b := by
  induction a with
  | nil => rfl
  | cons w ws ih =>
    show onTick.finalBuf w ++ frames (ws ++ b) = (onTick.finalBuf w ++ frames ws) ++ frames b
    rw [ih, List.append_assoc]

theorem onTick_cons (c : Conn) (l : Listener) (env : TickEnv) (w : Wrapper) (tail : List Wrapper)
    (hq : c.queuedPackets = w :: tail) :
    c.onTick l env =
      if env.writeErr then ({ c with queuedPackets := tail } : Conn).closeConn l
      else (onTick.keepalive { c with queuedPackets := tail, sent := c.sent ++ onTick.finalBuf w } env, l) := by
  unfold Conn.onTick
  rw [hq]

theorem Follows_refl (c : Conn) (l : Listener) : Follows c l c l :=
  ⟨rfl, rfl, fun h => h, Or.inl ⟨rfl, rfl, rfl⟩⟩

theorem Follows_trans {c c1 c2 : Conn} {l l1 l2 : Listener}
    (h1 : Follows c l c1 l1) (h2 : Follows c1 l1 c2 l2) : Follows c l c2 l2 := by
  obtain ⟨hid1, hl1, hs1, hc1⟩ := h1
  obtain ⟨hid2, hl2, hs2, hc2⟩ := h2
  refine ⟨hid2.trans hid1, hl2.trans hl1, fun h => hs2 (hs1 h), ?_⟩
  rcases hc1 with ⟨a1, a2, a3⟩ | ⟨a1, a2, a3, a5, a4⟩
  · rcases hc2 with ⟨b1, b2, b3⟩ | ⟨b1, b2, b3, b5, b4⟩
    · exact Or.inl ⟨b1.trans a1, b2.trans a2, b3.trans a3⟩
    · exact Or.inr ⟨a1 ▸ b1, b2, b3, b5, by rw [b4, a2, hl1, hid1]⟩
  · rcases hc2 with ⟨b1, b2, b3⟩ | ⟨b1, b2, b3, b5, b4⟩
    · exact Or.inr ⟨a1, b1.trans a2, hs2 a3, b3.trans a5, by rw [b2, a4]⟩
    · rw [a2] at b1; exact absurd b1 (by decide)

theorem Follows_closeConn (c : Conn) (l : Listener) :
    Follows c l (c.closeConn l).1 (c.closeConn l).2 := by
  unfold Conn.closeConn
  cases hc : c.closed with
  | true => simp only [if_true]; exact Follows_refl c l
  | false =>
    simp only [Bool.false_eq_true, if_false]
    exact ⟨rfl, rfl, fun _ => rfl, Or.inr ⟨hc, rfl, rfl, rfl, rfl⟩⟩

theorem Follows_of_fields (c c1 : Conn) (l : Listener) (h1 : c1.id = c.id)
    (h2 : c1.listener = c.listener) (h3 : c1.state = c.state) (h4 : c1.closed = c.closed)
    (h5 : c1.connClosed = c.connClosed) : Follows c l c1 l :=
  ⟨h1, h2, fun h => h3.trans h, Or.inl ⟨h4, rfl, h5⟩⟩

theorem keepalive_fields (c : Conn) (env : TickEnv) :
    (onTick.keepalive c env).id = c.id ∧ (onTick.keepalive c env).listener = c.listener ∧
    (onTick.keepalive c env).state = c.state ∧ (onTick.keepalive c env).closed = c.closed ∧
    (onTick.keepalive c env).connClosed = c.connClosed ∧
    (onTick.keepalive c env).sent = c.sent := by
  rcases keepalive_cases c env with ⟨k, hk⟩ | ⟨_, _, hk⟩ <;> rw [hk] <;>
    exact ⟨rfl, rfl, rfl, rfl, rfl, rfl⟩

theorem Follows_onTick (c : Conn) (l : Listener) (env : TickEnv) :
    Follows c l (c.onTick l env).1 (c.onTick l env).2 := by
  obtain ⟨k1, k2, k3, k4, k5, _⟩ := keepalive_fields c env
  cases hq : c.queuedPackets with
  | nil =>
    have : c.onTick l env = (onTick.keepalive c env, l) := by
      unfold Conn.onTick; rw [hq]
    rw [this]
    exact Follows_of_fields _ _ _ k1 k2 k3 k4 k5
  | cons w tail =>
    rw [onTick_cons c l env w tail hq]
    cases env.writeErr with
    | true =>
      simp only [if_true]
      exact Follows_trans (Follows_of_fields c { c with queuedPackets := tail } l rfl rfl rfl rfl rfl)
        (Follows_closeConn _ l)
    | false =>
      simp only [Bool.false_eq_true, if_false]
      obtain ⟨j1, j2, j3, j4, j5, _⟩ :=
        keepalive_fields { c with queuedPackets := tail, sent := c.sent ++ onTick.finalBuf w } env
      exact Follows_of_fields _ _ _ j1 j2 j3 j4 j5

theorem drainBound_keepalive (c : Conn) (env : TickEnv) :
    drainBound (onTick.keepalive c env) ≤ drainBound c := by
  rcases keepalive_cases c env with ⟨k, hk⟩ | ⟨hs, hp, hk⟩
  · rw [hk]; exact Nat.le_refl _
  · rw [hk]
    simp only [drainBound, Conn.sendPing, Conn.QueuePacket, hs, hp, List.length_append,
      List.length_singleton, and_self, if_true, Bool.true_eq_false, and_false, if_false]
    omega

theorem drainBound_onTick (c : Conn) (l : Listener) (env : TickEnv) (w : Wrapper)
    (tail : List Wrapper) (hq : c.queuedPackets = w :: tail) :
    drainBound (c.onTick l env).1 + 1 ≤ drainBound c := by
  rw [onTick_cons c l env w tail hq]
  have hc : drainBound c = tail.length + 1 +
      (if c.state = StateConnected ∧ c.pingPending = false then 1 else 0) := by
    simp only [drainBound, hq, List.length_cons]
  cases env.writeErr with
  | true =>
    simp only [if_true]
    have : drainBound (({ c with queuedPackets := tail } : Conn).closeConn l).1 ≤
        tail.length + (if c.state = StateConnected ∧ c.pingPending = false then 1 else 0) := by
      unfold Conn.closeConn
      cases c.closed with
      | true => simp only [if_true, drainBound]; exact Nat.le_refl _
      | false =>
        have hne : ¬ (StateDisconnected = StateConnected) := by decide
        simp only [Bool.false_eq_true, if_false, drainBound, hne, false_and]
        omega
    omega
  | false =>
    simp only [Bool.false_eq_true, if_false]
    have := drainBound_keepalive { c with queuedPackets := tail, sent := c.sent ++ onTick.finalBuf w } env
    have h2 : drainBound { c with queuedPackets := tail, sent := c.sent ++ onTick.finalBuf w } =
        tail.length + (if c.state = StateConnected ∧ c.pingPending = false then 1 else 0) := rfl
    omega

theorem drain_total (envs : List TickEnv) (c : Conn) (l : Listener)
    (hlen : drainBound c ≤ envs.length) :
    ∃ c1 l1, c.drain envs l = some (c1, l1) ∧ c1.queuedPackets = [] ∧ Follows c l c1 l1 := by
  induction envs generalizing c l with
  | nil =>
    have hq : c.queuedPackets = [] := by
      cases hq : c.queuedPackets with
      | nil => rfl
      | cons w tail =>
        simp only [drainBound, hq, List.length_cons, List.length_nil] at hlen
        omega
    exact ⟨c, l, by simp [Conn.drain, hq], hq, Follows_refl c l⟩
  | cons env envs ih =>
    cases hq : c.queuedPackets with
    | nil => exact ⟨c, l, by simp [Conn.drain, hq], hq, Follows_refl c l⟩
    | cons w tail =>
      have hb := drainBound_onTick c l env w tail hq
      obtain ⟨c1, l1, h1, h2, h3⟩ := ih (c.onTick l env).1 (c.onTick l env).2
        (by simp only [List.length_cons] at hlen; omega)
      refine ⟨c1, l1, ?_, h2, Follows_trans (Follows_onTick c l env) h3⟩
      simp only [Conn.drain, hq, List.length_cons, Nat.zero_lt_succ, if_true]
      exact h1

theorem drain_sent (envs : List TickEnv) (c : Conn) (l : Listener)
    (hw : ∀ e ∈ envs, e.writeErr = false) (hlen : drainBound c ≤ envs.length) :
    ∃ (c1 : Conn) (pings : List Wrapper), c.drain envs l = some (c1, l) ∧
      c1.queuedPackets = [] ∧ c1.sent = c.sent ++ frames (c.queuedPackets ++ pings) ∧
      (pings = [] ∨ ∃ t, pings = [{ P := .Ping t }]) ∧
      (pings ≠ [] → c.state = StateConnected ∧ c.pingPending = false) ∧
      c1.closed = c.closed ∧ c1.connClosed = c.connClosed ∧ c1.state = c.state ∧
      c1.listener = c.listener ∧ c1.id = c.id := by
  induction envs generalizing c with
  | nil =>
    have hq : c.queuedPackets = [] := by
      cases hq : c.queuedPackets with
      | nil => rfl
      | cons w tail =>
        simp only [drainBound, hq, List.length_cons, List.length_nil] at hlen
        omega
    exact ⟨c, [], by simp [Conn.drain, hq], hq, by simp [hq, frames], Or.inl rfl,
      fun h => absurd rfl h, rfl, rfl, rfl, rfl, rfl⟩
  | cons env envs ih =>
    cases hq : c.queuedPackets with
    | nil =>
      exact ⟨c, [], by simp [Conn.drain, hq], hq, by simp [frames], Or.inl rfl,
        fun h => absurd rfl h, rfl, rfl, rfl, rfl, rfl⟩
    | cons w tail =>
      have hb := drainBound_onTick c l env w tail hq
      have hwe : env.writeErr = false := hw env (List.mem_cons_self _ _)
      have hstep : c.onTick l env =
          (onTick.keepalive { c with queuedPackets := tail, sent := c.sent ++ onTick.finalBuf w } env, l) := by
        rw [onTick_cons c l env w tail hq, hwe]
        simp only [Bool.false_eq_true, if_false]
      have hdr : c.drain (env :: envs) l = (c.onTick l env).1.drain envs (c.onTick l env).2 := by
        simp only [Conn.drain, hq, List.length_cons, Nat.zero_lt_succ, if_true]
      rw [hdr]
      rw [hstep] at hb ⊢
      simp only at hb ⊢
      obtain ⟨c1, pings, h1, h2, h3, h4, h5, h6, h7, h8, h9, h10⟩ :=
        ih (onTick.keepalive { c with queuedPackets := tail, sent := c.sent ++ onTick.finalBuf w } env)
          (fun e he => hw e (List.mem_cons_of_mem _ he))
          (by simp only [List.length_cons] at hlen; omega)
      rcases keepalive_cases { c with queuedPackets := tail, sent := c.sent ++ onTick.finalBuf w } env
        with ⟨k, hk⟩ | ⟨hs, hp, hk⟩
      · rw [hk] at h3 h5 h6 h7 h8 h9 h10
        refine ⟨c1, pings, h1, h2, ?_, h4, h5, h6, h7, h8, h9, h10⟩
        rw [h3]
        simp only [List.cons_append, frames, List.append_assoc]
        rfl
      · rw [hk] at h3 h5 h6 h7 h8 h9 h10
        have hnil : pings = [] := by
          by_contra hne
          have := (h5 hne).2
          simp [Conn.sendPing, Conn.QueuePacket] at this
        subst hnil
        refine ⟨c1, [{ P := .Ping (env.sendPingNow / 1000000) }], h1, h2, ?_, Or.inr ⟨_, rfl⟩,
          fun _ => ⟨hs, hp⟩, h6, h7, h8, h9, h10⟩
        rw [h3]
        simp only [Conn.sendPing, Conn.QueuePacket, List.append_nil, List.cons_append, frames,
          List.append_assoc]
        rfl

theorem closeConn_closed (c : Conn) (l : Listener) :
    (c.closeConn l).1.closed = true ∧ (c.closeConn l).1.queuedPackets = c.queuedPackets ∧
    (c.closeConn l).1.sent = c.sent ∧
    (c.closed = false → (c.closeConn l).1.state = StateDisconnected ∧
      (c.closeConn l).1.connClosed = true) := by
  unfold Conn.closeConn
  cases hc : c.closed with
  | true => simp [hc]
  | false => simp

theorem closeConn_of_closed (c : Conn) (l : Listener) (hc : c.closed = true) :
    c.closeConn l = (c, l) := by
  unfold Conn.closeConn
  simp only [hc, if_true]

theorem drainBound_QueuePacket (c : Conn) (w : Wrapper) :
    drainBound (c.QueuePacket w) ≤ c.queuedPackets.length + 2 := by
  simp only [drainBound, Conn.QueuePacket, List.length_append, List.length_singleton]
  split <;> omega

theorem DisconnectAndClose_open (c : Conn) (l : Listener) (reason : List Byte)
    (envs : List TickEnv) (hopen : c.closed = false)
    (hlen : c.queuedPackets.length + 2 ≤ envs.length) :
    ∃ c1 l1, c.DisconnectAndClose l reason envs = some (c1, l1) ∧ c1.closed = true ∧
      c1.state = StateDisconnected ∧ c1.connClosed = true ∧ c1.queuedPackets = [] ∧
      c1.id = c.id ∧ c1.listener = c.listener ∧
      l1 = if c.listener then l.removeConnection c.id else l := by
  obtain ⟨mid, lm, hdr, hq, hid, hlis, _, hcl⟩ :=
    drain_total envs (c.QueuePacket { P := .Disconnect reason, Response := false }) l
      (Nat.le_trans (drainBound_QueuePacket c _) hlen)
  have hid' : mid.id = c.id := hid
  have hlis' : mid.listener = c.listener := hlis
  refine ⟨(mid.closeConn lm).1, (mid.closeConn lm).2, ?_, ?_⟩
  · simp only [Conn.DisconnectAndClose, hopen, Bool.false_eq_true, if_false, hdr]
  · rcases hcl with ⟨h1, h2, h3⟩ | ⟨h1, h2, h3, h4, h5⟩
    · have hmc : mid.closed = false := h1.trans hopen
      unfold Conn.closeConn
      simp only [hmc, Bool.false_eq_true, if_false, hq, hid', hlis', h2]
      exact ⟨trivial, trivial, trivial, trivial, trivial, trivial, trivial⟩
    · rw [closeConn_of_closed mid lm h2]
      exact ⟨h2, h3, h4, hq, hid', hlis', h5⟩

theorem DisconnectAndClose_closed (c : Conn) (l : Listener) (reason : List Byte)
    (envs : List TickEnv) (hc : c.closed = true) :
    c.DisconnectAndClose l reason envs = some (c, l) := by
  simp only [Conn.DisconnectAndClose, hc, if_true]

theorem drain_some (envs : List TickEnv) (c : Conn) (l : Listener) (r : Conn × Listener)
    (h : c.drain envs l = some r) : r.1.queuedPackets = [] ∧ Follows c l r.1 r.2 := by
  induction envs generalizing c l with
  | nil =>
    cases hq : c.queuedPackets with
    | nil =>
      simp only [Conn.drain, hq, List.length_nil, Nat.lt_irrefl, if_false, Option.some.injEq] at h
      subst h
      exact ⟨hq, Follows_refl c l⟩
    | cons w tail => simp [Conn.drain, hq] at h
  | cons env envs ih =>
    cases hq : c.queuedPackets with
    | nil =>
      simp only [Conn.drain, hq, List.length_nil, Nat.lt_irrefl, if_false, Option.some.injEq] at h
      subst h
      exact ⟨hq, Follows_refl c l⟩
    | cons w tail =>
      simp only [Conn.drain, hq, List.length_cons, Nat.zero_lt_succ, if_true] at h
      obtain ⟨h1, h2⟩ := ih _ _ h
      exact ⟨h1, Follows_trans (Follows_onTick c l env) h2⟩

theorem DisconnectAndClose_follows (c : Conn) (l : Listener) (reason : List Byte)
    (envs : List TickEnv) (r : Conn × Listener)
    (h : c.DisconnectAndClose l reason envs = some r) :
    Follows c l r.1 r.2 ∧ r.1.closed = true := by
  cases hc : c.closed with
  | true =>
    rw [DisconnectAndClose_closed c l reason envs hc] at h
    injection h with h
    subst h
    exact ⟨Follows_refl c l, hc⟩
  | false =>
    simp only [Conn.DisconnectAndClose, hc, Bool.false_eq_true, if_false] at h
    cases hd : (c.QueuePacket { P := .Disconnect reason, Response := false }).drain envs l with
    | none => rw [hd] at h; exact absurd h (by simp)
    | some mr =>
      rw [hd] at h
      obtain ⟨mid, lm⟩ := mr
      simp only [Option.some.injEq] at h
      subst h
      have hf := (drain_some envs _ l (mid, lm) hd).2
      exact ⟨Follows_trans (Follows_trans
        (Follows_of_fields c (c.QueuePacket { P := .Disconnect reason, Response := false }) l
          rfl rfl rfl rfl rfl) hf) (Follows_closeConn mid lm), (closeConn_closed mid lm).1⟩

theorem closeStep (w : World) (envs : Nat → List TickEnv) (k : Nat) (hr : w.Ready envs k) :
    ∃ c1 l1, (w.conns k).DisconnectAndClose w.listener reasonServerShutdown (envs k) =
        some (c1, l1) ∧
      c1.id = k ∧ c1.listener = true ∧ c1.Done ∧
      l1.connections = w.listener.connections.filter (fun j => j ≠ k) ∧
      l1.close = w.listener.close ∧ l1.listenerClosed = w.listener.listenerClosed := by
  obtain ⟨hid, hlis, hopen | ⟨hdone, hnot⟩⟩ := hr
  · obtain ⟨c1, l1, h, h1, h2, h3, h4, h5, h6, h7⟩ :=
      DisconnectAndClose_open (w.conns k) w.listener reasonServerShutdown (envs k) hopen.1 hopen.2
    rw [hlis, hid] at h7
    simp only [if_true] at h7
    refine ⟨c1, l1, h, h5.trans hid, h6.trans hlis, ⟨h1, h2, h3, h4⟩, ?_, ?_, ?_⟩ <;>
      rw [h7] <;> rfl
  · refine ⟨w.conns k, w.listener, DisconnectAndClose_closed _ _ _ _ hdone.1, hid, hlis, hdone,
      ?_, rfl, rfl⟩
    symm
    rw [List.filter_eq_self]
    intro a ha
    have : a ≠ k := fun h => hnot (h ▸ ha)
    simpa using this

theorem closeLoop_spec (envs : Nat → List TickEnv) (ks : List Nat) (w : World)
    (hinv : ∀ k ∈ ks, w.Ready envs k) :
    ∃ w1, Listener.closeLoop envs ks w = some w1 ∧
      w1.listener.connections = w.listener.connections.filter (fun j => j ∉ ks) ∧
      (∀ k ∈ ks, (w1.conns k).Done) ∧ (∀ j, j ∉ ks → w1.conns j = w.conns j) ∧
      w1.listener.close = w.listener.close ∧
      w1.listener.listenerClosed = w.listener.listenerClosed := by
  induction ks generalizing w with
  | nil =>
    refine ⟨w, rfl, ?_, fun k hk => absurd hk (List.not_mem_nil k), fun _ _ => rfl, rfl, rfl⟩
    simp
  | cons k ks ih =>
    obtain ⟨c1, l1, hdac, hid, hlis, hdone, hconn, hcl, hlc⟩ :=
      closeStep w envs k (hinv k (List.mem_cons_self _ _))
    have hnot : k ∉ l1.connections := by
      rw [hconn]; simp
    have hinv1 : ∀ j ∈ ks,
        World.Ready { listener := l1, conns := fun j => if j = k then c1 else w.conns j } envs j := by
      intro j hj
      by_cases hjk : j = k
      · subst hjk
        exact ⟨by simp [hid], by simp [hlis], Or.inr ⟨by simpa using hdone, hnot⟩⟩
      · obtain ⟨a1, a2, a3⟩ := hinv j (List.mem_cons_of_mem _ hj)
        refine ⟨by simpa [hjk] using a1, by simpa [hjk] using a2, ?_⟩
        rcases a3 with a3 | ⟨a3, a4⟩
        · exact Or.inl (by simpa [hjk] using a3)
        · refine Or.inr ⟨by simpa [hjk] using a3, ?_⟩
          show j ∉ l1.connections
          rw [hconn]
          intro hmem
          exact a4 (List.mem_filter.mp hmem).1
    obtain ⟨w1, h1, h2, h3, h4, h5, h6⟩ := ih _ hinv1
    refine ⟨w1, ?_, ?_, ?_, ?_, h5.trans hcl, h6.trans hlc⟩
    · simp only [Listener.closeLoop, hdac]
      exact h1
    · rw [h2]
      show l1.connections.filter _ = _
      rw [hconn, List.filter_filter]
      apply List.filter_congr
      intro x _
      simp only [List.mem_cons, not_or, ne_eq, decide_not, Bool.and_eq_true, Bool.not_eq_true',
        decide_eq_false_iff_not, Bool.decide_and]
      by_cases hx : x = k <;> by_cases hx2 : x ∈ ks <;> simp [hx, hx2]
    · intro j hj
      by_cases hjks : j ∈ ks
      · exact h3 j hjks
      · have hjk : j = k := by
          rcases List.mem_cons.mp hj with h | h
          · exact h
          · exact absurd h hjks
        rw [h4 j hjks]
        simp only [hjk, if_true]
        exact hdone
    · intro j hj
      have hjk : j ≠ k := fun h => hj (h ▸ List.mem_cons_self _ _)
      have hjks : j ∉ ks := fun h => hj (List.mem_cons_of_mem _ h)
      rw [h4 j hjks]
      simp only [hjk, if_false]

theorem frameLength_finalBuf (w : Wrapper) :
    frameLength (onTick.finalBuf w) = (onTick.payloadBuf w).length % 2 ^ 32 := by
  rw [finalBuf_eq]
  simp only [frameLength, PutUint32, List.drop_succ_cons, List.drop_zero, List.cons_append,
    List.nil_append, List.take_succ_cons, List.take_zero]
  exact Uint32_PutUint32 _ (Nat.mod_lt _ (by decide))


theorem payloadBuf_Disconnect_length (r : List Byte) :
    (onTick.payloadBuf { P := .Disconnect r }).length = 6 + r.length := by
  rw [payloadBuf_length]
  simp only [Packet.Write, WriteString_length, Bool.false_eq_true, if_false]
  omega

/-! ## Lemmas: authentication fields, ticks of the flush loop -/

theorem AuthKept_refl (c : Conn) : AuthKept c c := ⟨rfl, rfl, rfl, Or.inl rfl⟩

theorem AuthKept_trans {c c1 c2 : Conn} (h1 : AuthKept c c1) (h2 : AuthKept c1 c2) :
    AuthKept c c2 := by
  obtain ⟨a1, a2, a3, a4⟩ := h1
  obtain ⟨b1, b2, b3, b4⟩ := h2
  refine ⟨b1.trans a1, b2.trans a2, b3.trans a3, ?_⟩
  rcases b4 with b4 | b4
  · rcases a4 with a4 | a4
    · exact Or.inl (b4.trans a4)
    · exact Or.inr (b4.trans a4)
  · exact Or.inr b4

theorem AuthKept_closeConn (c : Conn) (l : Listener) : AuthKept c (c.closeConn l).1 := by
  unfold Conn.closeConn
  cases c.closed with
  | true => exact AuthKept_refl c
  | false => exact ⟨rfl, rfl, rfl, Or.inr rfl⟩

theorem AuthKept_keepalive (c : Conn) (env : TickEnv) : AuthKept c (onTick.keepalive c env) := by
  rcases keepalive_cases c env with ⟨k, hk⟩ | ⟨_, _, hk⟩ <;> rw [hk] <;>
    exact ⟨rfl, rfl, rfl, Or.inl rfl⟩

theorem AuthKept_onTick (c : Conn) (l : Listener) (env : TickEnv) :
    AuthKept c (c.onTick l env).1 := by
  cases hq : c.queuedPackets with
  | nil =>
    have : c.onTick l env = (onTick.keepalive c env, l) := by
      unfold Conn.onTick; rw [hq]
    rw [this]
    exact AuthKept_keepalive c env
  | cons w tail =>
    rw [onTick_cons c l env w tail hq]
    cases env.writeErr with
    | true =>
      simp only [if_true]
      have h0 : AuthKept c { c with queuedPackets := tail } := ⟨rfl, rfl, rfl, Or.inl rfl⟩
      exact AuthKept_trans h0 (AuthKept_closeConn _ l)
    | false =>
      simp only [Bool.false_eq_true, if_false]
      have h0 : AuthKept c
          { c with queuedPackets := tail, sent := c.sent ++ onTick.finalBuf w } :=
        ⟨rfl, rfl, rfl, Or.inl rfl⟩
      exact AuthKept_trans h0 (AuthKept_keepalive _ env)

theorem AuthKept_drain (envs : List TickEnv) (c : Conn) (l : Listener) (r : Conn × Listener)
    (h : c.drain envs l = some r) : AuthKept c r.1 := by
  induction envs generalizing c l with
  | nil =>
    cases hq : c.queuedPackets with
    | nil =>
      simp only [Conn.drain, hq, List.length_nil, Nat.lt_irrefl, if_false, Option.some.injEq] at h
      subst h
      exact AuthKept_refl c
    | cons w tail => simp [Conn.drain, hq] at h
  | cons env envs ih =>
    cases hq : c.queuedPackets with
    | nil =>
      simp only [Conn.drain, hq, List.length_nil, Nat.lt_irrefl, if_false, Option.some.injEq] at h
      subst h
      exact AuthKept_refl c
    | cons w tail =>
      simp only [Conn.drain, hq, List.length_cons, Nat.zero_lt_succ, if_true] at h
      exact AuthKept_trans (AuthKept_onTick c l env) (ih _ _ h)

theorem AuthKept_DisconnectAndClose (c : Conn) (l : Listener) (reason : List Byte)
    (envs : List TickEnv) (r : Conn × Listener)
    (h : c.DisconnectAndClose l reason envs = some r) : AuthKept c r.1 := by
  cases hc : c.closed with
  | true =>
    rw [DisconnectAndClose_closed c l reason envs hc] at h
    injection h with h
    subst h
    exact AuthKept_refl c
  | false =>
    simp only [Conn.DisconnectAndClose, hc, Bool.false_eq_true, if_false] at h
    cases hd : (c.QueuePacket { P := .Disconnect reason, Response := false }).drain envs l with
    | none => rw [hd] at h; exact absurd h (by simp)
    | some mr =>
      rw [hd] at h
      obtain ⟨mid, lm⟩ := mr
      simp only [Option.some.injEq] at h
      subst h
      have h0 : AuthKept c (c.QueuePacket { P := .Disconnect reason, Response := false }) :=
        ⟨rfl, rfl, rfl, Or.inl rfl⟩
      exact AuthKept_trans (AuthKept_trans h0 (AuthKept_drain envs _ l (mid, lm) hd))
        (AuthKept_closeConn mid lm)

theorem AuthInv_of_kept {c c1 : Conn} (hk : AuthKept c c1) (hi : AuthInv c) : AuthInv c1 := by
  obtain ⟨a1, a2, a3, a4⟩ := hk
  intro hs
  rcases a4 with a4 | a4
  · obtain ⟨d, h1, h2, h3⟩ := hi (a4 ▸ hs)
    exact ⟨d, a1.trans h1, h2.trans a2.symm, a3.trans h3⟩
  · rw [a4] at hs
    exact absurd hs (by decide)

theorem handlePacket_authenticating_other (c : Conn) (l : Listener) (w : Wrapper) (now : Int)
    (hs : c.state = StateAuthenticating) (hid : w.P.ID ≠ IDHandshake) :
    c.handlePacket l w now = (c, l) := by
  unfold Conn.handlePacket
  simp only [hs, hid, if_true, if_false]

theorem handlePacket_handshake (c : Conn) (l : Listener) (w : Wrapper) (d : HandshakeData)
    (now : Int) (hs : c.state = StateAuthenticating) (hp : w.P = .Handshake d) :
    (c.handlePacket l w now).1.handshakeData = some d ∧
    (c.handlePacket l w now).1.password = c.password ∧
    ((d.Password = c.password ∧ (c.handlePacket l w now).1.state = StateConnected ∧
        (c.handlePacket l w now).1.Name = d.ClientName) ∨
     (d.Password ≠ c.password ∧ (c.handlePacket l w now).1.state = StateAuthenticating ∧
        (c.handlePacket l w now).1.Name = c.Name ∧
        (c.handlePacket l w now).1.spawned = c.spawned ++ [reasonInvalidPassword])) := by
  have hid : (Packet.Handshake d).ID = IDHandshake := rfl
  unfold Conn.handlePacket
  simp only [hs, hp, hid, if_true, Conn.QueuePacket]
  by_cases hpw : d.Password = c.password
  · simp [hpw]
  · simp [hpw, hs]

theorem handlePacket_connected_body (c0 : Conn) (l : Listener) (w : Wrapper) (now : Int) :
    AuthKept c0
      (if w.P.ID = IDDisconnect then c0.closeConn l
       else if w.P.ID = IDPing then
         match w.P with
         | .Ping PingTime => (c0.QueuePacket { P := .Pong PingTime }, l)
         | _ => (c0, l)
       else if w.P.ID = IDPong then
         ({ c0 with pingPending := false, lastPongTime := now }, l)
       else if w.P.ID = IDUnknown then (c0, l)
       else (c0, l)).1 := by
  split_ifs
  · exact AuthKept_closeConn c0 l
  · split
    · exact ⟨rfl, rfl, rfl, Or.inl rfl⟩
    · exact AuthKept_refl c0
  · exact ⟨rfl, rfl, rfl, Or.inl rfl⟩
  · exact AuthKept_refl c0
  · exact AuthKept_refl c0

theorem handlePacket_connected_kept (c : Conn) (l : Listener) (w : Wrapper) (now : Int)
    (hs : c.state = StateConnected) : AuthKept c (c.handlePacket l w now).1 := by
  have h1 : ¬ (c.state = StateAuthenticating) := by rw [hs]; decide
  have hk : AuthKept c (if c.h.isSome = true then { c with handled := c.handled ++ [w] } else c) := by
    split
    · exact ⟨rfl, rfl, rfl, Or.inl rfl⟩
    · exact AuthKept_refl c
  have hb := handlePacket_connected_body
    (if c.h.isSome = true then { c with handled := c.handled ++ [w] } else c) l w now
  have he : c.handlePacket l w now =
      (if w.P.ID = IDDisconnect then
         (if c.h.isSome = true then { c with handled := c.handled ++ [w] } else c).closeConn l
       else if w.P.ID = IDPing then
         match w.P with
         | .Ping PingTime =>
           ((if c.h.isSome = true then { c with handled := c.handled ++ [w] } else c).QueuePacket
             { P := .Pong PingTime }, l)
         | _ => ((if c.h.isSome = true then { c with handled := c.handled ++ [w] } else c), l)
       else if w.P.ID = IDPong then
         ({ (if c.h.isSome = true then { c with handled := c.handled ++ [w] } else c) with
            pingPending := false, lastPongTime := now }, l)
       else if w.P.ID = IDUnknown then
         ((if c.h.isSome = true then { c with handled := c.handled ++ [w] } else c), l)
       else ((if c.h.isSome = true then { c with handled := c.handled ++ [w] } else c), l)) := by
    unfold Conn.handlePacket
    rw [if_neg h1, if_pos hs]
  rw [he]
  exact AuthKept_trans hk hb

theorem AuthInv_handlePacket (c : Conn) (l : Listener) (w : Wrapper) (now : Int)
    (hi : AuthInv c) : AuthInv (c.handlePacket l w now).1 ∧
      (c.handlePacket l w now).1.password = c.password := by
  by_cases hs : c.state = StateAuthenticating
  · by_cases hid : w.P.ID = IDHandshake
    · cases hp : w.P with
      | Handshake d =>
        obtain ⟨h1, h2, h3⟩ := handlePacket_handshake c l w d now hs hp
        refine ⟨fun hc => ?_, h2⟩
        rcases h3 with ⟨a1, _, a3⟩ | ⟨_, a2, _⟩
        · exact ⟨d, h1, a1.trans h2.symm, a3⟩
        · rw [a2] at hc; exact absurd hc (by decide)
      | ServerHandshake _ => rw [hp] at hid; simp [Packet.ID, IDHandshake, IDServerHandshake, IDDisconnect, IDPing, IDPong, IDServerTransfer, IDUnknown] at hid
      | Disconnect _ => rw [hp] at hid; simp [Packet.ID, IDHandshake, IDServerHandshake, IDDisconnect, IDPing, IDPong, IDServerTransfer, IDUnknown] at hid
      | Ping _ => rw [hp] at hid; simp [Packet.ID, IDHandshake, IDServerHandshake, IDDisconnect, IDPing, IDPong, IDServerTransfer, IDUnknown] at hid
      | Pong _ => rw [hp] at hid; simp [Packet.ID, IDHandshake, IDServerHandshake, IDDisconnect, IDPing, IDPong, IDServerTransfer, IDUnknown] at hid
      | ServerTransfer _ _ => rw [hp] at hid; simp [Packet.ID, IDHandshake, IDServerHandshake, IDDisconnect, IDPing, IDPong, IDServerTransfer, IDUnknown] at hid
      | Unknown _ _ => rw [hp] at hid; simp [Packet.ID, IDHandshake, IDServerHandshake, IDDisconnect, IDPing, IDPong, IDServerTransfer, IDUnknown] at hid
    · rw [handlePacket_authenticating_other c l w now hs hid]
      exact ⟨hi, rfl⟩
  · by_cases hc : c.state = StateConnected
    · have hk := handlePacket_connected_kept c l w now hc
      exact ⟨AuthInv_of_kept hk hi, hk.2.1⟩
    · have : c.handlePacket l w now = (c, l) := by
        unfold Conn.handlePacket
        simp only [hs, hc, if_false]
      rw [this]
      exact ⟨hi, rfl⟩

theorem Reachable_inv (id : Nat) (password : List Byte) (listener : Bool) (c : Conn)
    (hr : Reachable id password listener c) : AuthInv c ∧ c.password = password := by
  induction hr with
  | init now => exact ⟨fun h => absurd (show StateAuthenticating = StateConnected from h) (by decide), rfl⟩
  | setHandler c h _ ih =>
    exact ⟨AuthInv_of_kept (c := c) ⟨rfl, rfl, rfl, Or.inl rfl⟩ ih.1, ih.2⟩
  | packet c l w now _ ih =>
    obtain ⟨h1, h2⟩ := AuthInv_handlePacket c l w now ih.1
    exact ⟨h1, h2.trans ih.2⟩
  | tick c l env _ ih =>
    have hk := AuthKept_onTick c l env
    exact ⟨AuthInv_of_kept hk ih.1, hk.2.1.trans ih.2⟩
  | queue c w _ ih =>
    exact ⟨AuthInv_of_kept (c := c) ⟨rfl, rfl, rfl, Or.inl rfl⟩ ih.1, ih.2⟩
  | disconnect c l reason envs r _ h ih =>
    have hk := AuthKept_DisconnectAndClose c l reason envs r h
    exact ⟨AuthInv_of_kept hk ih.1, hk.2.1.trans ih.2⟩
  | close c l _ ih =>
    have hk := AuthKept_closeConn c l
    exact ⟨AuthInv_of_kept hk ih.1, hk.2.1.trans ih.2⟩

theorem drainTicks_total (envs : List TickEnv) (c : Conn) (l : Listener)
    (hlen : drainBound c ≤ envs.length) :
    ∃ n, c.drainTicks envs l = some n ∧ n ≤ drainBound c := by
  induction envs generalizing c l with
  | nil =>
    have hq : c.queuedPackets = [] := by
      cases hq : c.queuedPackets with
      | nil => rfl
      | cons w tail =>
        simp only [drainBound, hq, List.length_cons, List.length_nil] at hlen
        omega
    exact ⟨0, by simp [Conn.drainTicks, hq], Nat.zero_le _⟩
  | cons env envs ih =>
    cases hq : c.queuedPackets with
    | nil => exact ⟨0, by simp [Conn.drainTicks, hq], Nat.zero_le _⟩
    | cons w tail =>
      have hb := drainBound_onTick c l env w tail hq
      obtain ⟨n, h1, h2⟩ := ih (c.onTick l env).1 (c.onTick l env).2
        (by simp only [List.length_cons] at hlen; omega)
      refine ⟨n + 1, ?_, by omega⟩
      simp only [Conn.drainTicks, hq, List.length_cons, Nat.zero_lt_succ, if_true, h1,
        Option.map_some']

theorem onTick_queue (c : Conn) (l : Listener) (env : TickEnv) (w : Wrapper)
    (tail : List Wrapper) (hq : c.queuedPackets = w :: tail) :
    ((c.onTick l env).1.queuedPackets = tail ∧
      (c.onTick l env).1.pingPending = c.pingPending) ∨
    (c.state = StateConnected ∧ c.pingPending = false ∧ env.writeErr = false ∧
      (c.onTick l env).1.queuedPackets = tail ++ [{ P := .Ping (env.sendPingNow / 1000000) }] ∧
      (c.onTick l env).1.pingPending = true) := by
  rw [onTick_cons c l env w tail hq]
  cases hw : env.writeErr with
  | true =>
    left
    simp only [if_true]
    unfold Conn.closeConn
    split <;> exact ⟨rfl, rfl⟩
  | false =>
    simp only [Bool.false_eq_true, if_false]
    rcases keepalive_cases { c with queuedPackets := tail, sent := c.sent ++ onTick.finalBuf w } env
      with ⟨k, hk⟩ | ⟨hs, hp, hk⟩
    · left; rw [hk]; exact ⟨rfl, rfl⟩
    · right; rw [hk]; exact ⟨hs, hp, trivial, rfl, rfl⟩

theorem keepalive_no_signal (c : Conn) (env : TickEnv) (hp : c.pingPending = false) :
    (onTick.keepalive c env).pingTimeoutChan = c.pingTimeoutChan := by
  unfold onTick.keepalive
  dsimp only
  rw [hp]
  simp only [Bool.false_eq_true, if_false]
  split_ifs <;> rfl

theorem onTick_no_signal (c : Conn) (l : Listener) (env : TickEnv)
    (hp : c.pingPending = false) :
    (c.onTick l env).1.pingTimeoutChan = c.pingTimeoutChan := by
  cases hq : c.queuedPackets with
  | nil =>
    have : c.onTick l env = (onTick.keepalive c env, l) := by
      unfold Conn.onTick
      rw [hq]
    rw [this]
    exact keepalive_no_signal c env hp
  | cons w tail =>
    rw [onTick_cons c l env w tail hq]
    split
    · unfold Conn.closeConn
      split <;> rfl
    · exact keepalive_no_signal
        { c with queuedPackets := tail, sent := c.sent ++ onTick.finalBuf w } env hp

theorem handlePacket_pong (c : Conn) (l : Listener) (w : Wrapper) (t now : Int)
    (hs : c.state = StateConnected) (hw : w.P = .Pong t) :
    c.handlePacket l w now =
      ({ (if c.h.isSome = true then { c with handled := c.handled ++ [w] } else c) with
          pingPending := false, lastPongTime := now }, l) := by
  have h1 : ¬ (c.state = StateAuthenticating) := by rw [hs]; decide
  have hid : w.P.ID = IDPong := by rw [hw]; rfl
  have h2 : ¬ (w.P.ID = IDDisconnect) := by rw [hid]; decide
  have h3 : ¬ (w.P.ID = IDPing) := by rw [hid]; decide
  unfold Conn.handlePacket
  rw [if_neg h1, if_pos hs]
  simp only [if_neg h2, if_neg h3, if_pos hid]

/-- The frame `onTick` writes for a wrapper that `ReadPacket` decoded from a
frame `f` with an unregistered packet-ID byte: it is `f` with the packet-ID byte
replaced by `byte(w.P.ID())`, which is `IDUnknown`, and the flag byte replaced by
1 when `w.Response` and by 0 otherwise. -/
theorem onTick_unknown_frame (f : List Byte) (w : Wrapper) (id : Byte)
    (hdec : ReadPacket f = .ok w []) (hid : f[6]? = some id) (hpool : Pool id.val = none)
    (c : Conn) (l : Listener) (env : TickEnv) (tail : List Wrapper)
    (hq : c.queuedPackets = w :: tail) (hw : env.writeErr = false) :
    ∃ frame, (c.onTick l env).1.sent = c.sent ++ frame ∧
      frame = (f.set 6 (byte w.P.ID)).set 7 (if w.Response then 1 else 0) ∧
      w.P.ID = IDUnknown ∧
      (frame = f ↔ id = 0 ∧ (f[7]? = some 0 ∨ f[7]? = some 1)) := by
  refine ⟨onTick.finalBuf w, onTick_sent c l env w tail hq hw, ?_⟩
  obtain ⟨l0, l1, l2, l3, payload, r, hf, hlen, hpos, hmax, hp⟩ := ReadPacket_ok_inv f [] w hdec
  rw [List.append_nil] at hf
  have hid0 : payload[0]? = some id := by
    rw [hf] at hid
    simpa using hid
  obtain ⟨flag, rid, body, hpl, hrid, hwv⟩ := parsePayload_unknown_inv payload r w id hid0 hpool hp
  subst hpl
  have hfb := finalBuf_unknown l0 l1 l2 l3 id flag rid body hrid hlen
  rw [← hwv] at hfb
  have hR : w.Response = (flag != 0) := by rw [hwv]
  have hID : w.P.ID = IDUnknown := by rw [hwv]; rfl
  have hflag : (if w.Response = true then (1 : Byte) else 0) = if flag = 0 then (0 : Byte) else 1 := by
    rw [hR]
    by_cases h0 : flag = 0 <;> simp [h0]
  refine ⟨?_, hID, ?_⟩
  · rw [hfb, hf, hID, hflag]
    rfl
  · rw [hfb, hf]
    simp only [List.cons.injEq, true_and, and_true, List.getElem?_cons_succ,
      List.getElem?_cons_zero, Option.some.injEq]
    constructor
    · rintro ⟨h1, h2⟩
      refine ⟨h1.symm, ?_⟩
      by_cases h0 : flag = 0
      · exact Or.inl h0
      · rw [if_neg h0] at h2; exact Or.inr h2.symm
    · rintro ⟨h1, h2 | h2⟩
      · exact ⟨h1.symm, by rw [if_pos h2, h2]⟩
      · exact ⟨h1.symm, by rw [h2]; rfl⟩

/-! ## The claims -/

/-- C1. For every packet `p` of a registered variant whose `int32`/`int64`
fields are in the range of their type and whose strings have fewer than `2^31`
bytes, `Read`, on any receiver `q` of the same variant (such as the fresh packet
of the registry), applied to the bytes `Write` produces for `p`, succeeds,
yields `p`, and leaves no byte unread. -/
theorem packet_read_write_round_trip (p q : Packet) (hreg : p.Registered) (hq : q.ID = p.ID)
    (ht : p.Typed) (hs : p.ShortStrings) :
    q.Read (p.Write []) = .ok p [] := by
  have h := Packet_Read_Write p q [] hreg hq ht hs
  rwa [List.append_nil] at h

/-- C1, at a Handshake with the minimum and the maximum `int32` and an empty
string, read into the fresh packet of the registry. -/
theorem packet_read_write_round_trip_witness :
    Pool IDHandshake = some (.Handshake {}) ∧
    Packet.Read (.Handshake {})
        (Packet.Write (.Handshake { ClientName := [], Password := [112, 119],
                                    Software := -2147483648, Protocol := 2147483647 }) []) =
      .ok (.Handshake { ClientName := [], Password := [112, 119],
                        Software := -2147483648, Protocol := 2147483647 }) [] :=
  ⟨by decide,
    packet_read_write_round_trip
      (.Handshake { ClientName := [], Password := [112, 119],
                    Software := -2147483648, Protocol := 2147483647 })
      (.Handshake {}) (by decide) (by decide) (by decide) (by decide)⟩

/-- C2. Frame round trip: when the wrapper `w` at the head of the queue holds a
registered packet (a value of its Go type), has `ResponseID = 0` if `Response` is
false and `ResponseID < 2^32` if it is true, and its payload has at most 1048576
bytes, then `ReadPacket`, applied to a stream that starts with the frame `onTick`
writes for `w`, returns a wrapper equal to `w` and leaves exactly the bytes after
that frame. -/
theorem frame_round_trip (c : Conn) (l : Listener) (env : TickEnv) (w : Wrapper)
    (tail : List Wrapper) (rest : List Byte)
    (hq : c.queuedPackets = w :: tail) (hw : env.writeErr = false)
    (hreg : w.P.Registered) (ht : w.P.Typed)
    (hid : if w.Response = true then w.ResponseID < 2 ^ 32 else w.ResponseID = 0)
    (hlen : (onTick.payloadBuf w).length ≤ 1048576) :
    ∃ frame, (c.onTick l env).1.sent = c.sent ++ frame ∧
      ReadPacket (frame ++ rest) = .ok w rest :=
  ⟨onTick.finalBuf w, onTick_sent c l env w tail hq hw,
    ReadPacket_finalBuf w rest hreg ht hid hlen⟩

/-- C2, at a response wrapper holding a ServerTransfer packet, followed on the
stream by two more bytes. -/
theorem frame_round_trip_witness :
    ∃ frame,
      (Conn.onTick
          { queuedPackets := [{ P := .ServerTransfer [97] [98, 99], Response := true,
                                ResponseID := 4294967295 }] }
          {} {}).1.sent = [] ++ frame ∧
      ReadPacket (frame ++ [7, 7]) =
        .ok { P := .ServerTransfer [97] [98, 99], Response := true, ResponseID := 4294967295 }
          [7, 7] :=
  frame_round_trip
    { queuedPackets := [{ P := .ServerTransfer [97] [98, 99], Response := true,
                          ResponseID := 4294967295 }] }
    {} {} { P := .ServerTransfer [97] [98, 99], Response := true, ResponseID := 4294967295 }
    [] [7, 7] rfl rfl (by decide) (by decide) (by decide) (by decide)

/-- C3, the code at the failing input. The frame `0A 20 00 00 00 03 77 00 09`
carries the packet ID `0x77`, which is not in the registry; `ReadPacket` decodes
it into an `Unknown` whose `PacketID` is `0x77`. The `ID()` of that packet is
`IDUnknown`, not its `PacketID`, so the frame `onTick` writes for the decoded
wrapper is `0A 20 00 00 00 03 00 00 09`: the packet-ID byte of the frame is
lost. -/
theorem unknown_id_lost :
    Pool 0x77 = none ∧
    ReadPacket [0x0a, 0x20, 0, 0, 0, 3, 0x77, 0, 9] =
      .ok { P := .Unknown 0x77 [9], Response := false, ResponseID := 0 } [] ∧
    (Packet.Unknown 0x77 [9]).ID = IDUnknown ∧
    (Conn.onTick
        { queuedPackets := [{ P := .Unknown 0x77 [9], Response := false, ResponseID := 0 }] }
        {} {}).1.sent = [0x0a, 0x20, 0, 0, 0, 3, 0, 0, 9] ∧
    (Conn.onTick
        { queuedPackets := [{ P := .Unknown 0x77 [9], Response := false, ResponseID := 0 }] }
        {} {}).1.sent ≠ [0x0a, 0x20, 0, 0, 0, 3, 0x77, 0, 9] := by
  decide

/-- C4. For every stream that starts with a frame made of the magic `0x0A20`, a
LENGTH equal to the payload byte count and at most 1048576, a packet-ID byte that
is not a key of `Pool`, a flag byte, the 4 response-ID bytes when the flag byte is
non-zero (none otherwise) and `N ≥ 0` body bytes, `ReadPacket` succeeds, leaves
the bytes after the frame, and returns a wrapper whose packet is an `Unknown`
with `PacketID` that byte and `Payload` exactly the body bytes, `Response` set
when the flag byte is non-zero and `ResponseID` the big-endian value of the
response-ID bytes (0 when there are none). -/
theorem unknown_decode (l0 l1 l2 l3 id flag : Byte) (rid body rest : List Byte)
    (hpool : Pool id.val = none)
    (hrid : if flag = 0 then rid = [] else rid.length = 4)
    (hlen : Uint32 [l0, l1, l2, l3] = 2 + rid.length + body.length)
    (hmax : Uint32 [l0, l1, l2, l3] ≤ 1048576) :
    ReadPacket ((0x0a : Byte) :: (0x20 : Byte) :: l0 :: l1 :: l2 :: l3 ::
        (id :: flag :: (rid ++ body) ++ rest)) =
      .ok { P := .Unknown id.val body, Response := (flag != 0),
            ResponseID := if flag = 0 then 0 else Uint32 rid } rest := by
  have hl : (id :: flag :: (rid ++ body)).length = 2 + rid.length + body.length := by
    simp only [List.length_cons, List.length_append]; omega
  rw [ReadPacket_stream _ _ _ _ _ _ (by rw [hl]; exact hlen) (by rw [hl]; omega)
    (by rw [hl, ← hlen]; exact hmax)]
  simp only [afterPayload, parsePayload_unknown id flag rid body hpool hrid]

/-- C4, at a response frame with packet ID `0x77` and two body bytes, followed
on the stream by one more byte. -/
theorem unknown_decode_witness :
    Pool (0x77 : Byte).val = none ∧
    ReadPacket [0x0a, 0x20, 0, 0, 0, 8, 0x77, 1, 0, 0, 1, 2, 9, 8, 5] =
      .ok { P := .Unknown 0x77 [9, 8], Response := true, ResponseID := 258 } [5] :=
  ⟨by decide, unknown_decode 0 0 0 8 0x77 1 [0, 0, 1, 2] [9, 8] [5] (by decide) (by decide)
    (by decide) (by decide)⟩

/-- C5. On a stream that starts with the magic `0x0A20` and four LENGTH bytes:
when LENGTH (big-endian, unsigned) is 0 or greater than 1048576, `ReadPacket`
returns the invalid-length error and every byte after the LENGTH field is left
unread; every LENGTH that is negative as an `int32` is greater than 1048576;
when LENGTH is exactly 1048576, the result is never the invalid-length error:
`ReadPacket` goes on to read 1048576 payload bytes and returns what the payload
parse returns, or the payload read error when the stream is too short. -/
theorem length_bounds (l0 l1 l2 l3 : Byte) (stream : List Byte) :
    ((Uint32 [l0, l1, l2, l3] = 0 ∨ Uint32 [l0, l1, l2, l3] > 1048576) →
      ReadPacket ((0x0a : Byte) :: (0x20 : Byte) :: l0 :: l1 :: l2 :: l3 :: stream) =
        .error (.invalidLength (Uint32 [l0, l1, l2, l3])) stream) ∧
    (int32 (Uint32 [l0, l1, l2, l3]) < 0 → Uint32 [l0, l1, l2, l3] > 1048576) ∧
    (Uint32 [l0, l1, l2, l3] = 1048576 →
      (∀ n r, ReadPacket ((0x0a : Byte) :: (0x20 : Byte) :: l0 :: l1 :: l2 :: l3 :: stream) ≠
        .error (.invalidLength n) r) ∧
      ReadPacket ((0x0a : Byte) :: (0x20 : Byte) :: l0 :: l1 :: l2 :: l3 :: stream) =
        match ioReadFull 1048576 stream with
        | .error e rest => .error (.readPayload e) rest
        | .panic => .panic
        | .ok payloadData bufReader => afterPayload payloadData bufReader) := by
  refine ⟨?_, ?_, ?_⟩
  · intro h
    rw [ReadPacket_header, if_pos h]
  · intro h
    have := Uint32_lt [l0, l1, l2, l3]
    unfold int32 at h
    omega
  · intro h
    have heq : ReadPacket ((0x0a : Byte) :: (0x20 : Byte) :: l0 :: l1 :: l2 :: l3 :: stream) =
        match ioReadFull 1048576 stream with
        | .error e rest => .error (.readPayload e) rest
        | .panic => .panic
        | .ok payloadData bufReader => afterPayload payloadData bufReader := by
      rw [ReadPacket_header, h, if_neg (by omega)]
    refine ⟨?_, heq⟩
    intro n r
    rw [heq]
    cases ioReadFull 1048576 stream with
    | error e rest => simp
    | panic => simp
    | ok payloadData bufReader => exact afterPayload_not_invalidLength _ _ _ _

/-- C5, at LENGTH 1048577, at LENGTH 0, at LENGTH `0xFFFFFFFF` (-1 as an
`int32`), and at LENGTH 1048576 on a stream that ends after two payload bytes. -/
theorem length_bounds_witness :
    ReadPacket [0x0a, 0x20, 0, 0x10, 0, 1, 0x77, 0] = .error (.invalidLength 1048577) [0x77, 0] ∧
    ReadPacket [0x0a, 0x20, 0, 0, 0, 0, 0x77, 0] = .error (.invalidLength 0) [0x77, 0] ∧
    Uint32 [0xff, 0xff, 0xff, 0xff] > 1048576 ∧
    ReadPacket [0x0a, 0x20, 0, 0x10, 0, 0, 0x77, 0] ≠ .error (.invalidLength 1048576) [0x77, 0] :=
  ⟨(length_bounds 0 0x10 0 1 [0x77, 0]).1 (by decide),
    (length_bounds 0 0 0 0 [0x77, 0]).1 (by decide),
    (length_bounds 0xff 0xff 0xff 0xff []).2.1 (by decide),
    ((length_bounds 0 0x10 0 0 [0x77, 0]).2.2 (by decide)).1 _ _⟩

/-- C6. For every stream whose first two bytes, read as a big-endian `uint16`,
differ from `0x0A20`, `ReadPacket` returns the invalid-magic error and leaves
every byte after those two unread. -/
theorem magic_mismatch (b0 b1 : Byte) (stream : List Byte)
    (h : Uint16 [b0, b1] ≠ 0x0a20) :
    ReadPacket (b0 :: b1 :: stream) = .error (.invalidMagic (Uint16 [b0, b1])) stream :=
  ReadPacket_badMagic b0 b1 stream h

/-- C6, at the magic `0x0A21`. -/
theorem magic_mismatch_witness :
    Uint16 [0x0a, 0x21] ≠ 0x0a20 ∧
    ReadPacket [0x0a, 0x21, 0, 0, 0, 2, 4, 0] =
      .error (.invalidMagic 0x0a21) [0, 0, 0, 2, 4, 0] :=
  ⟨by decide, magic_mismatch 0x0a 0x21 [0, 0, 0, 2, 4, 0] (by decide)⟩

/-- C7, the code at the failing input. On the length prefix `FF FF FF FF` (-1
as an `int32`) each of the five length-prefixed reads ends in a run-time panic,
not in a returned error; and so does `ReadPacket` on a Disconnect frame whose
reason carries that prefix. -/
theorem negative_length_prefix_panics :
    int32 (Uint32 [0xff, 0xff, 0xff, 0xff]) = -1 ∧
    util.ReadString [0xff, 0xff, 0xff, 0xff] = .panic ∧
    util.ReadBytes [0xff, 0xff, 0xff, 0xff] = .panic ∧
    util.ReadStringArray [0xff, 0xff, 0xff, 0xff] = .panic ∧
    util.ReadInt32Array [0xff, 0xff, 0xff, 0xff] = .panic ∧
    util.ReadInt64Array [0xff, 0xff, 0xff, 0xff] = .panic ∧
    ReadPacket [0x0a, 0x20, 0, 0, 0, 6, 3, 0, 0xff, 0xff, 0xff, 0xff] = .panic := by
  decide

/-- C8. Truncated body: on a stream that starts with a frame made of the magic,
a LENGTH equal to the payload byte count and at most 1048576, a registered
packet-ID byte, a flag byte and the bytes `tail`, `ReadPacket` returns an error
(and leaves the bytes after the frame) when either the flag byte is non-zero and
`tail` has fewer than 4 bytes, or `tail` is the response ID (4 bytes when the flag
byte is non-zero, none otherwise) followed by a strict prefix of a valid body of
that packet type. -/
theorem truncated_body (l0 l1 l2 l3 id flag : Byte) (tail rest : List Byte) (q : Packet)
    (hpool : Pool id.val = some q)
    (hlen : Uint32 [l0, l1, l2, l3] = 2 + tail.length)
    (hmax : Uint32 [l0, l1, l2, l3] ≤ 1048576)
    (htrunc : (flag ≠ 0 ∧ tail.length < 4) ∨
      (∃ rid pre suffix, tail = rid ++ pre ∧ (if flag = 0 then rid = [] else rid.length = 4) ∧
        suffix ≠ [] ∧ ValidBody q (pre ++ suffix))) :
    ∃ e, ReadPacket ((0x0a : Byte) :: (0x20 : Byte) :: l0 :: l1 :: l2 :: l3 ::
        (id :: flag :: tail ++ rest)) = .error e rest := by
  have hl : (id :: flag :: tail).length = 2 + tail.length := by
    simp only [List.length_cons]; omega
  rw [ReadPacket_stream _ _ _ _ _ _ (by rw [hl]; exact hlen) (by rw [hl]; omega)
    (by rw [hl, ← hlen]; exact hmax)]
  rcases htrunc with ⟨hf, hshort⟩ | ⟨rid, pre, suffix, htail, hrid, hs, hv⟩
  · obtain ⟨e, he⟩ := parsePayload_flag1_short id flag tail hf hshort
    exact ⟨.readResponseID e, by simp only [afterPayload, he]⟩
  · obtain ⟨e, r, he⟩ := Read_truncated q (Pool_some_ne_unknown _ _ hpool) pre suffix hs hv
    subst htail
    by_cases hf : flag = 0
    · subst hf
      simp only [if_true] at hrid
      subst hrid
      refine ⟨.readPacket e, ?_⟩
      simp only [afterPayload, List.nil_append, parsePayload_flag0,
        decodeBody_error _ q _ _ _ r e hpool he]
    · simp only [hf, if_false] at hrid
      match rid, hrid with
      | [r0, r1, r2, r3], _ =>
        refine ⟨.readPacket e, ?_⟩
        simp only [afterPayload, List.cons_append, List.nil_append,
          parsePayload_flag1 _ _ _ _ _ _ _ hf, decodeBody_error _ q _ _ _ r e hpool he]

/-- C8, at a Disconnect frame whose reason announces two bytes and holds one. -/
theorem truncated_body_witness :
    ValidBody (.Disconnect []) ([0, 0, 0, 2, 65] ++ [66]) ∧
    ∃ e, ReadPacket [0x0a, 0x20, 0, 0, 0, 7, 3, 0, 0, 0, 0, 2, 65, 9, 9] = .error e [9, 9] :=
  ⟨⟨.Disconnect [65, 66], by decide⟩,
    truncated_body 0 0 0 7 3 0 [0, 0, 0, 2, 65] [9, 9] (.Disconnect []) (by decide) (by decide)
      (by decide)
      (Or.inr ⟨[], [0, 0, 0, 2, 65], [66], rfl, by decide, by decide, .Disconnect [65, 66],
        by decide⟩)⟩

/-- C9. When the wrapper `w` is at the head of the queue and the socket write
succeeds, the bytes `onTick` writes to the socket are `0x0A 0x20`, then four
bytes whose big-endian value is the payload byte count (mod `2^32`), then the
payload: the packet ID as one byte, the flag byte (1 if `w.Response`, else 0),
four bytes whose big-endian value is `w.ResponseID` mod `2^32` only when
`w.Response`, and the bytes `w.P.Write` produces. -/
theorem onTick_frame_layout (c : Conn) (l : Listener) (env : TickEnv) (w : Wrapper)
    (tail : List Wrapper) (hq : c.queuedPackets = w :: tail) (hw : env.writeErr = false) :
    ∃ (idByte : Byte) (len rid payload : List Byte),
      idByte.val = w.P.ID ∧
      rid.length = 4 ∧ beValue rid = w.ResponseID % 2 ^ 32 ∧
      payload = [idByte] ++ [if w.Response then 1 else 0] ++ (if w.Response then rid else []) ++
        w.P.Write [] ∧
      len.length = 4 ∧ beValue len = payload.length % 2 ^ 32 ∧
      (c.onTick l env).1.sent = c.sent ++ ([0x0a, 0x20] ++ len ++ payload) := by
  have hid : (byte w.P.ID).val = w.P.ID := by
    cases w.P <;> rfl
  refine ⟨byte w.P.ID, PutUint32 ((onTick.payloadBuf w).length % 2 ^ 32),
    PutUint32 (w.ResponseID % 2 ^ 32), onTick.payloadBuf w, hid, rfl, ?_, ?_, rfl, ?_, ?_⟩
  · rw [beValue_PutUint32, Nat.mod_mod]
  · rw [payloadBuf_eq]
    cases w.Response <;> simp
  · rw [beValue_PutUint32, Nat.mod_mod]
  · rw [onTick_sent c l env w tail hq hw, finalBuf_eq]
    simp

/-- C9, at a response wrapper holding a Pong, on a connection that has
already sent one byte. -/
theorem onTick_frame_layout_witness :
    ∃ (idByte : Byte) (len rid payload : List Byte),
      idByte.val = (Packet.Pong 258).ID ∧
      rid.length = 4 ∧ beValue rid = 4294967296 % 2 ^ 32 ∧
      payload = [idByte] ++ [if true then 1 else 0] ++ (if true then rid else []) ++
        (Packet.Pong 258).Write [] ∧
      len.length = 4 ∧ beValue len = payload.length % 2 ^ 32 ∧
      (Conn.onTick
          { queuedPackets := [{ P := .Pong 258, Response := true, ResponseID := 4294967296 }],
            sent := [1] }
          {} {}).1.sent = [1] ++ ([0x0a, 0x20] ++ len ++ payload) :=
  onTick_frame_layout
    { queuedPackets := [{ P := .Pong 258, Response := true, ResponseID := 4294967296 }],
      sent := [1] }
    {} {} { P := .Pong 258, Response := true, ResponseID := 4294967296 } [] rfl rfl

/-- C10. For every packet value, `Write` appends to the buffer exactly the body
layout of the wire contract (`specBody`): Handshake = Software, ClientName,
Password, Protocol in that order; ServerHandshake = one byte, 1 for true and 0
for false; Disconnect = Reason; Ping and Pong = PingTime on 8 bytes;
ServerTransfer = PlayerName, TargetServer; every integer big-endian, every string
as its byte count on 4 bytes (as an `int32`) followed by its bytes. -/
theorem write_body_layout (p : Packet) (w : List Byte) : p.Write w = w ++ specBody p := by
  cases p with
  | Handshake d =>
    simp only [Packet.Write, HandshakeData.Write, specBody, WriteString_spec, WriteInt32_spec,
      List.append_assoc]
  | ServerHandshake s => cases s <;> rfl
  | Disconnect r => simp only [Packet.Write, specBody, WriteString_spec]
  | Ping t => simp only [Packet.Write, specBody, WriteInt64_spec]
  | Pong t => simp only [Packet.Write, specBody, WriteInt64_spec]
  | ServerTransfer a b =>
    simp only [Packet.Write, specBody, WriteString_spec, List.append_assoc]
  | Unknown i b => rfl

/-- C11. For every connection in state Authenticating with configured password
`P` and every wrapper holding a Handshake `h`, `handlePacket` appends exactly one
wrapper to the outbound queue, a non-response `ServerHandshake{Success:
h.Password == P}`; when `h.Password == P` the state becomes Connected and `Name`
becomes `h.ClientName`; when `h.Password != P` the state stays Authenticating
and `Name` is unchanged. -/
theorem handshake_authenticating (c : Conn) (l : Listener) (w : Wrapper) (d : HandshakeData)
    (now : Int) (hs : c.state = StateAuthenticating) (hp : w.P = .Handshake d) :
    (c.handlePacket l w now).1.queuedPackets =
      c.queuedPackets ++ [{ P := .ServerHandshake (decide (d.Password = c.password)) }] ∧
    (d.Password = c.password →
      (c.handlePacket l w now).1.state = StateConnected ∧
      (c.handlePacket l w now).1.Name = d.ClientName) ∧
    (d.Password ≠ c.password →
      (c.handlePacket l w now).1.state = StateAuthenticating ∧
      (c.handlePacket l w now).1.Name = c.Name) := by
  have hid : (Packet.Handshake d).ID = IDHandshake := rfl
  unfold Conn.handlePacket
  simp only [hs, hp, hid, if_true, Conn.QueuePacket]
  by_cases hpw : d.Password = c.password
  · simp [hpw]
  · simp [hpw, hs]

/-- C11, at a new connection with password "pw" and a Handshake that carries
it, from the client "cl". -/
theorem handshake_authenticating_witness :
    ((newConn 1 [112, 119] true 0).handlePacket {}
        { P := .Handshake { ClientName := [99, 108], Password := [112, 119] } } 0).1.queuedPackets =
      (newConn 1 [112, 119] true 0).queuedPackets ++
        [{ P := .ServerHandshake (decide (([112, 119] : List Byte) = [112, 119])) }] ∧
    ((newConn 1 [112, 119] true 0).handlePacket {}
        { P := .Handshake { ClientName := [99, 108], Password := [112, 119] } } 0).1.state =
      StateConnected ∧
    ((newConn 1 [112, 119] true 0).handlePacket {}
        { P := .Handshake { ClientName := [99, 108], Password := [112, 119] } } 0).1.Name =
      [99, 108] :=
  ⟨(handshake_authenticating (newConn 1 [112, 119] true 0) {}
      { P := .Handshake { ClientName := [99, 108], Password := [112, 119] } }
      { ClientName := [99, 108], Password := [112, 119] } 0 rfl rfl).1,
   (handshake_authenticating (newConn 1 [112, 119] true 0) {}
      { P := .Handshake { ClientName := [99, 108], Password := [112, 119] } }
      { ClientName := [99, 108], Password := [112, 119] } 0 rfl rfl).2.1 rfl⟩

/-- C12, the code at the failing input. A new connection with password "p" is
given a Handshake with password "x": it stays Authenticating, with the delayed
`DisconnectAndClose("Invalid password")` started. It is then given a Handshake
with password "p": its state is Connected. -/
theorem wrong_password_then_connected :
    ((newConn 1 [112] true 0).handlePacket {}
        { P := .Handshake { Password := [120] } } 0).1.state = StateAuthenticating ∧
    ((newConn 1 [112] true 0).handlePacket {}
        { P := .Handshake { Password := [120] } } 0).1.spawned = [reasonInvalidPassword] ∧
    ((newConn 1 [112] true 0).handlePacket {}
        { P := .Handshake { Password := [120] } } 0).1.closed = false ∧
    ((((newConn 1 [112] true 0).handlePacket {}
        { P := .Handshake { Password := [120] } } 0).1).handlePacket {}
        { P := .Handshake { Password := [112] } } 0).1.state = StateConnected := by
  decide

/-- C14. For every open connection with queue `q` and every reason `X`, when
every socket write succeeds (and the environment answers every call of `onTick`
in the flush loop), `DisconnectAndClose(X)` returns; when the flush loop ends the
socket has been written the frames of the packets of `q` in queue order, then
the frame of `Disconnect{Reason: X}`, then at most the frame of one Ping that the
keepalive step queued during the flush, and the socket has not been closed in
the loop; `closeConn` runs then: on return the queue is empty, the state is
Disconnected, and the socket is closed. -/
theorem disconnect_and_close_order (c : Conn) (l : Listener) (reason : List Byte)
    (envs : List TickEnv) (hopen : c.closed = false)
    (hw : ∀ e ∈ envs, e.writeErr = false)
    (hlen : c.queuedPackets.length + 2 ≤ envs.length) :
    ∃ (mid : Conn) (pings : List Wrapper),
      (c.QueuePacket { P := .Disconnect reason, Response := false }).drain envs l =
        some (mid, l) ∧
      mid.sent = c.sent ++ frames c.queuedPackets ++
        onTick.finalBuf { P := .Disconnect reason, Response := false } ++ frames pings ∧
      (pings = [] ∨ ∃ t, pings = [{ P := .Ping t }]) ∧
      mid.closed = false ∧ mid.connClosed = c.connClosed ∧
      c.DisconnectAndClose l reason envs = some (mid.closeConn l) ∧
      (mid.closeConn l).1.sent = mid.sent ∧ (mid.closeConn l).1.connClosed = true ∧
      (mid.closeConn l).1.queuedPackets = [] ∧
      (mid.closeConn l).1.state = StateDisconnected := by
  obtain ⟨mid, pings, h1, h2, h3, h4, _, h6, h7, _, _, _⟩ :=
    drain_sent envs (c.QueuePacket { P := .Disconnect reason, Response := false }) l hw
      (Nat.le_trans (drainBound_QueuePacket c _) hlen)
  have hmc : mid.closed = false := h6.trans hopen
  obtain ⟨_, k2, k3, k4⟩ := closeConn_closed mid l
  refine ⟨mid, pings, h1, ?_, h4, hmc, h7, ?_, k3, (k4 hmc).2, k2.trans h2, (k4 hmc).1⟩
  · rw [h3]
    simp only [Conn.QueuePacket, frames_append, frames, List.append_nil, List.append_assoc]
    rfl
  · simp only [Conn.DisconnectAndClose, hopen, Bool.false_eq_true, if_false, h1]

/-- C14, at an authenticated connection with a Pong queued, due for a
keepalive Ping at the first tick of the flush: the bytes written are the frames
of the Pong, of the Disconnect and of that Ping. -/
theorem disconnect_and_close_order_witness :
    (∃ r,
      Conn.DisconnectAndClose
          { state := StateConnected, queuedPackets := [{ P := .Pong 5 }], lastPongTime := 0 }
          {} [88] [{ now := 30000000000, sendPingNow := 30000000000 }, {}, {}] = some r ∧
      r.1.state = StateDisconnected ∧ r.1.queuedPackets = [] ∧ r.1.connClosed = true) ∧
    (Conn.DisconnectAndClose
        { state := StateConnected, queuedPackets := [{ P := .Pong 5 }], lastPongTime := 0 }
        {} [88] [{ now := 30000000000, sendPingNow := 30000000000 }, {}, {}]).map
      (fun r => r.1.sent) =
    some (onTick.finalBuf { P := .Pong 5 } ++ onTick.finalBuf { P := .Disconnect [88] } ++
        onTick.finalBuf { P := .Ping 30000 }) :=
  ⟨by
    obtain ⟨mid, _, _, _, _, _, _, h6, _, h8, h9, h10⟩ :=
      disconnect_and_close_order
        { state := StateConnected, queuedPackets := [{ P := .Pong 5 }], lastPongTime := 0 }
        {} [88] [{ now := 30000000000, sendPingNow := 30000000000 }, {}, {}]
        rfl (by decide) (by decide)
    exact ⟨mid.closeConn {}, h6, h10, h9, h8⟩,
   by decide⟩

/-- C15. Idempotent close. On a connection whose `closed` channel is closed,
`closeConn` and `DisconnectAndClose(reason)` return with the connection and the
listener exactly as they were (nothing queued, nothing written, no removal from
the live set). `closeConn` leaves the connection closed, so a second `closeConn`
changes nothing; whenever `DisconnectAndClose` returns, the connection is closed,
so a second call (or a `closeConn`) changes nothing; and `DisconnectAndClose`
does return when the environment answers every call of `onTick`. -/
theorem close_idempotent (c : Conn) (l : Listener) :
    (c.closed = true →
      c.closeConn l = (c, l) ∧
      ∀ reason envs, c.DisconnectAndClose l reason envs = some (c, l)) ∧
    ((c.closeConn l).1.closeConn (c.closeConn l).2 = c.closeConn l ∧
      ∀ reason envs,
        (c.closeConn l).1.DisconnectAndClose (c.closeConn l).2 reason envs =
          some (c.closeConn l)) ∧
    (∀ reason envs r, c.DisconnectAndClose l reason envs = some r →
      r.1.closeConn r.2 = r ∧
      ∀ reason2 envs2, r.1.DisconnectAndClose r.2 reason2 envs2 = some r) ∧
    (∀ reason envs, c.queuedPackets.length + 2 ≤ envs.length →
      ∃ r, c.DisconnectAndClose l reason envs = some r) := by
  refine ⟨?_, ?_, ?_, ?_⟩
  · intro hc
    exact ⟨closeConn_of_closed c l hc, fun reason envs => DisconnectAndClose_closed c l reason envs hc⟩
  · have hcl := (closeConn_closed c l).1
    exact ⟨closeConn_of_closed _ _ hcl, fun reason envs => DisconnectAndClose_closed _ _ reason envs hcl⟩
  · intro reason envs r h
    have hcl := (DisconnectAndClose_follows c l reason envs r h).2
    exact ⟨closeConn_of_closed _ _ hcl, fun reason2 envs2 => DisconnectAndClose_closed _ _ reason2 envs2 hcl⟩
  · intro reason envs hlen
    cases hc : c.closed with
    | true => exact ⟨(c, l), DisconnectAndClose_closed c l reason envs hc⟩
    | false =>
      obtain ⟨c1, l1, h, _⟩ := DisconnectAndClose_open c l reason envs hc hlen
      exact ⟨(c1, l1), h⟩

/-- C15, at a closed connection that still holds a queued packet and whose
pointer is still in the live set of the listener. -/
theorem close_idempotent_witness :
    Conn.closeConn
        { id := 3, closed := true, state := StateDisconnected, listener := true,
          queuedPackets := [{ P := .Ping 1 }] }
        { connections := [3] } =
      ({ id := 3, closed := true, state := StateDisconnected, listener := true,
         queuedPackets := [{ P := .Ping 1 }] },
       { connections := [3] }) :=
  ((close_idempotent
      { id := 3, closed := true, state := StateDisconnected, listener := true,
        queuedPackets := [{ P := .Ping 1 }] }
      { connections := [3] }).1 rfl).1

/-- C16. Disconnected is absorbing. For every connection in state Disconnected:
`handlePacket` on any packet returns the connection and the listener exactly as
they were (queue, name, handshake data, ping fields, and the record of handler
calls included); `onTick`, `sendPing`, `QueuePacket`, `closeConn` leave the state
Disconnected, and so does `DisconnectAndClose` whenever it returns. -/
theorem disconnected_absorbing (c : Conn) (l : Listener) (hd : c.state = StateDisconnected) :
    (∀ w now, c.handlePacket l w now = (c, l)) ∧
    (∀ env, (c.onTick l env).1.state = StateDisconnected) ∧
    (∀ now, (c.sendPing now).state = StateDisconnected) ∧
    (∀ w, (c.QueuePacket w).state = StateDisconnected) ∧
    (∀ reason envs r, c.DisconnectAndClose l reason envs = some r →
      r.1.state = StateDisconnected) ∧
    (c.closeConn l).1.state = StateDisconnected :=
  ⟨fun w now => handlePacket_disconnected c l w now hd,
    fun env => (Follows_onTick c l env).2.2.1 hd,
    fun _ => hd,
    fun _ => hd,
    fun reason envs r h => (DisconnectAndClose_follows c l reason envs r h).1.2.2.1 hd,
    (Follows_closeConn c l).2.2.1 hd⟩

/-- C16, at a closed connection with a handler attached, given a Handshake
that carries its password. -/
theorem disconnected_absorbing_witness :
    ((Conn.handlePacket
        { state := StateDisconnected, closed := true, password := [1], h := some (fun _ => false) }
        {} { P := .Handshake { Password := [1] } } 0).1.state,
     (Conn.handlePacket
        { state := StateDisconnected, closed := true, password := [1], h := some (fun _ => false) }
        {} { P := .Handshake { Password := [1] } } 0).1.handled,
     (Conn.handlePacket
        { state := StateDisconnected, closed := true, password := [1], h := some (fun _ => false) }
        {} { P := .Handshake { Password := [1] } } 0).1.queuedPackets) =
      (StateDisconnected, [], []) := by
  rw [(disconnected_absorbing
    { state := StateDisconnected, closed := true, password := [1], h := some (fun _ => false) }
    {} rfl).1]

/-- C17. For every listener not yet closed whose live set holds open
connections that carry the listener in their `listener` field, in a sequential
execution in which the environment answers every call of `onTick`,
`Listener.Close()` returns and the live set is then empty: every connection that
was in it has gone through `DisconnectAndClose` and is closed, Disconnected, with
its socket closed and nothing queued; the connections outside the live set are
untouched. -/
theorem listener_close_empties (w : World) (envs : Nat → List TickEnv)
    (hcl : w.listener.close = false)
    (hwf : ∀ k ∈ w.listener.connections,
      (w.conns k).id = k ∧ (w.conns k).listener = true ∧ (w.conns k).closed = false)
    (henv : ∀ k ∈ w.listener.connections,
      (w.conns k).queuedPackets.length + 2 ≤ (envs k).length) :
    ∃ w1, Listener.Close w envs = .returned w1 ∧ w1.listener.connections = [] ∧
      w1.listener.close = true ∧ w1.listener.listenerClosed = true ∧
      (∀ k ∈ w.listener.connections,
        (w1.conns k).closed = true ∧ (w1.conns k).state = StateDisconnected ∧
        (w1.conns k).connClosed = true ∧ (w1.conns k).queuedPackets = []) ∧
      (∀ j, j ∉ w.listener.connections → w1.conns j = w.conns j) := by
  obtain ⟨w1, h1, h2, h3, h4, h5, h6⟩ :=
    closeLoop_spec envs w.listener.connections
      { w with listener := { w.listener with listenerClosed := true } }
      (fun k hk => ⟨(hwf k hk).1, (hwf k hk).2.1, Or.inl ⟨(hwf k hk).2.2, henv k hk⟩⟩)
  have h5b : w1.listener.close = false := h5.trans hcl
  refine ⟨{ w1 with listener := { w1.listener with close := true } }, ?_, ?_, rfl, h6, h3, h4⟩
  · simp only [Listener.Close, h1, h5b, Bool.false_eq_true, if_false]
  · show w1.listener.connections = []
    rw [h2]
    simp

/-- C17, at a listener with two connections, one of them holding a queued
packet. -/
theorem listener_close_empties_witness :
    ∃ w1,
      Listener.Close
          { listener := { connections := [1, 2] },
            conns := fun k =>
              if k = 1 then { id := 1, listener := true, queuedPackets := [{ P := .Ping 7 }] }
              else { id := k, listener := true } }
          (fun _ => [{}, {}, {}]) = .returned w1 ∧
      w1.listener.connections = [] ∧ (w1.conns 1).closed = true ∧ (w1.conns 2).closed = true := by
  obtain ⟨w1, h1, h2, _, _, h5, _⟩ :=
    listener_close_empties
      { listener := { connections := [1, 2] },
        conns := fun k =>
          if k = 1 then { id := 1, listener := true, queuedPackets := [{ P := .Ping 7 }] }
          else { id := k, listener := true } }
      (fun _ => [{}, {}, {}]) rfl (by decide) (by decide)
  exact ⟨w1, h1, h2, (h5 1 (by decide)).1, (h5 2 (by decide)).1⟩

/-- C18, refuted. A wrapper holding a Disconnect whose reason has 1048576 bytes
is queued; the frame `onTick` writes for it carries the LENGTH 1048582, above
`1<<20`. -/
theorem oversized_frame_counterexample :
    oversizedReason.length = 1048576 ∧
    frameLength
        (Conn.onTick { queuedPackets := [{ P := .Disconnect oversizedReason }] } {} {}).1.sent =
      1048582 ∧
    ¬ (1048582 ≤ 1 <<< 20) := by
  have hlen : oversizedReason.length = 1048576 := List.length_replicate _ _
  refine ⟨hlen, ?_, by decide⟩
  rw [onTick_sent _ {} {} { P := .Disconnect oversizedReason } [] rfl rfl]
  show frameLength ([] ++ onTick.finalBuf { P := .Disconnect oversizedReason }) = _
  rw [List.nil_append, frameLength_finalBuf, payloadBuf_Disconnect_length, hlen]
  decide

/-- C18, amended. When the wrapper `w` is at the head of the queue and the
socket write succeeds, the frame `onTick` writes carries a LENGTH field equal to
the payload byte count modulo `2^32`, the payload being 2 bytes, 4 more when
`w.Response`, and the bytes of `w.P.Write`. The LENGTH is within `(0, 1<<20]` when
the payload has at most 1048576 bytes, and above `1<<20` when the payload has more
than 1048576 and fewer than `2^32` bytes: `onTick` does not bound what it writes. -/
theorem onTick_frame_length (c : Conn) (l : Listener) (env : TickEnv) (w : Wrapper)
    (tail : List Wrapper) (hq : c.queuedPackets = w :: tail) (hw : env.writeErr = false) :
    ∃ frame, (c.onTick l env).1.sent = c.sent ++ frame ∧
      frameLength frame = (onTick.payloadBuf w).length % 2 ^ 32 ∧
      (onTick.payloadBuf w).length =
        2 + (if w.Response then 4 else 0) + (w.P.Write []).length ∧
      ((onTick.payloadBuf w).length ≤ 1048576 →
        0 < frameLength frame ∧ frameLength frame ≤ 1 <<< 20) ∧
      (1048576 < (onTick.payloadBuf w).length → (onTick.payloadBuf w).length < 2 ^ 32 →
        1 <<< 20 < frameLength frame) := by
  have hl := payloadBuf_length w
  have h20 : 1 <<< 20 = 1048576 := by decide
  refine ⟨onTick.finalBuf w, onTick_sent c l env w tail hq hw, frameLength_finalBuf w, hl, ?_, ?_⟩
  · intro h
    rw [frameLength_finalBuf, h20]
    omega
  · intro h1 h2
    rw [frameLength_finalBuf, h20]
    omega

/-- C18 amended, at a non-response wrapper holding a Ping. -/
theorem onTick_frame_length_witness :
    ∃ frame,
      (Conn.onTick { queuedPackets := [{ P := .Ping 1 }] } {} {}).1.sent = [] ++ frame ∧
      frameLength frame = (onTick.payloadBuf { P := .Ping 1 }).length % 2 ^ 32 ∧
      (onTick.payloadBuf { P := .Ping 1 }).length =
        2 + (if false then 4 else 0) + ((Packet.Ping 1).Write []).length ∧
      ((onTick.payloadBuf { P := .Ping 1 }).length ≤ 1048576 →
        0 < frameLength frame ∧ frameLength frame ≤ 1 <<< 20) ∧
      (1048576 < (onTick.payloadBuf { P := .Ping 1 }).length →
        (onTick.payloadBuf { P := .Ping 1 }).length < 2 ^ 32 → 1 <<< 20 < frameLength frame) :=
  onTick_frame_length { queuedPackets := [{ P := .Ping 1 }] } {} {} { P := .Ping 1 } [] rfl rfl

/-- C19. For every connection in state Connected and every wrapper holding a
Ping with timestamp `t`, `handlePacket` appends exactly one wrapper to the
outbound queue, a non-response `Pong{PingTime: t}`, and changes neither the state
nor the ping-tracking fields, nor the listener. -/
theorem ping_answered (c : Conn) (l : Listener) (w : Wrapper) (t : Int) (now : Int)
    (hs : c.state = StateConnected) (hp : w.P = .Ping t) :
    (c.handlePacket l w now).1.queuedPackets =
      c.queuedPackets ++ [{ P := .Pong t, Response := false, ResponseID := 0 }] ∧
    (c.handlePacket l w now).1.state = c.state ∧
    (c.handlePacket l w now).1.pingPending = c.pingPending ∧
    (c.handlePacket l w now).1.lastPingTime = c.lastPingTime ∧
    (c.handlePacket l w now).1.lastPongTime = c.lastPongTime ∧
    (c.handlePacket l w now).1.pingTimeoutChan = c.pingTimeoutChan ∧
    (c.handlePacket l w now).2 = l := by
  have hid : (Packet.Ping t).ID = IDPing := rfl
  have h1 : ¬ (StateConnected = StateAuthenticating) := by decide
  have h2 : ¬ (IDPing = IDDisconnect) := by decide
  unfold Conn.handlePacket
  simp only [hs, hid, hp, h1, h2, if_true, if_false, Conn.QueuePacket]
  split <;> simp [hs]

/-- C19, at a Connected connection with a handler attached and a ping of its
own pending, given a response wrapper holding a Ping. -/
theorem ping_answered_witness :
    (Conn.handlePacket
        { state := StateConnected, pingPending := true, lastPingTime := 4,
          h := some (fun _ => true) }
        {} { P := .Ping 77, Response := true, ResponseID := 9 } 5).1.queuedPackets =
      [] ++ [{ P := .Pong 77, Response := false, ResponseID := 0 }] :=
  (ping_answered
    { state := StateConnected, pingPending := true, lastPingTime := 4,
      h := some (fun _ => true) }
    {} { P := .Ping 77, Response := true, ResponseID := 9 } 77 5 rfl rfl).1

/-- C20, the code at the failing input. A new connection with password "p",
tracked by its listener, handles a Handshake with password "x". `handlePacket`
starts a goroutine of its own that calls `DisconnectAndClose("Invalid password")`
after its sleep, while the connection stays open and Authenticating with the
ServerHandshake still queued, so its tick task keeps running. That call, made
from the started goroutine and not from the tick task, queues the Disconnect,
calls `onTick` until the queue is empty and closes the connection: it writes
both frames, empties the queue, sets the state to Disconnected, closes the
socket and removes the connection from the listener. -/
theorem disconnect_off_tick_task :
    ((newConn 1 [112] true 0).handlePacket { connections := [1] }
        { P := .Handshake { Password := [120] } } 0).1.spawned = [reasonInvalidPassword] ∧
    ((newConn 1 [112] true 0).handlePacket { connections := [1] }
        { P := .Handshake { Password := [120] } } 0).1.closed = false ∧
    ((newConn 1 [112] true 0).handlePacket { connections := [1] }
        { P := .Handshake { Password := [120] } } 0).1.state = StateAuthenticating ∧
    ((newConn 1 [112] true 0).handlePacket { connections := [1] }
        { P := .Handshake { Password := [120] } } 0).1.queuedPackets.length = 1 ∧
    (Conn.DisconnectAndClose
        ((newConn 1 [112] true 0).handlePacket { connections := [1] }
          { P := .Handshake { Password := [120] } } 0).1
        { connections := [1] } reasonInvalidPassword [{}, {}, {}]).map
      (fun r => (r.1.queuedPackets.length, r.1.state, r.1.connClosed, r.1.sent,
        r.2.connections)) =
    some (0, StateDisconnected, true,
      onTick.finalBuf { P := .ServerHandshake false } ++
        onTick.finalBuf { P := .Disconnect reasonInvalidPassword },
      []) := by
  decide

/-- C21, counterexample. A Connected connection with a Pong queued whose last
Pong is 30 s old: the one `onTick` writes the frame of the queued Pong and also
queues a keepalive Ping with `pingPending` set; and with a Ping pending for 5 s,
the one `onTick` writes the frame and also raises the ping-timeout signal. Both
actions happen in the same tick. -/
theorem onTick_one_action_counterexample :
    ((Conn.onTick { state := StateConnected, queuedPackets := [{ P := .Pong 5 }] } {}
        { now := 30000000000, sendPingNow := 30000000000 }).1.sent =
        onTick.finalBuf { P := .Pong 5 } ∧
      (Conn.onTick { state := StateConnected, queuedPackets := [{ P := .Pong 5 }] } {}
        { now := 30000000000, sendPingNow := 30000000000 }).1.queuedPackets.length = 1 ∧
      (Conn.onTick { state := StateConnected, queuedPackets := [{ P := .Pong 5 }] } {}
        { now := 30000000000, sendPingNow := 30000000000 }).1.pingPending = true) ∧
    ((Conn.onTick { state := StateConnected, queuedPackets := [{ P := .Pong 5 }],
                    pingPending := true } {}
        { now := 5000000000, sendPingNow := 5000000000 }).1.sent =
        onTick.finalBuf { P := .Pong 5 } ∧
      (Conn.onTick { state := StateConnected, queuedPackets := [{ P := .Pong 5 }],
                     pingPending := true } {}
        { now := 5000000000, sendPingNow := 5000000000 }).1.pingTimeoutChan = 1) := by
  decide

/-- C21, amended. A single `onTick` runs its two blocks in sequence. With an
empty queue it only evaluates keepalive. With a packet queued it pops it and
writes its frame; when the socket write fails it closes the connection and
returns without evaluating keepalive; when the write succeeds it goes on to
evaluate keepalive in the same tick, on the state with the packet popped, so a
tick can both transmit a packet and queue a Ping (or raise the ping-timeout
signal). In a state other than Connected the keepalive step changes nothing. -/
theorem onTick_flush_then_keepalive (c : Conn) (l : Listener) (env : TickEnv) :
    (c.queuedPackets = [] → c.onTick l env = (onTick.keepalive c env, l)) ∧
    (∀ w tail, c.queuedPackets = w :: tail → env.writeErr = true →
      c.onTick l env = ({ c with queuedPackets := tail } : Conn).closeConn l) ∧
    (∀ w tail, c.queuedPackets = w :: tail → env.writeErr = false →
      c.onTick l env =
        (onTick.keepalive
          { c with queuedPackets := tail, sent := c.sent ++ onTick.finalBuf w } env, l)) ∧
    (∀ w tail, c.queuedPackets = w :: tail → env.writeErr = false →
      c.state = StateConnected → c.pingPending = false →
      env.now - c.lastPongTime ≥ PingInterval →
      (c.onTick l env).1.sent = c.sent ++ onTick.finalBuf w ∧
      (c.onTick l env).1.queuedPackets =
        tail ++ [{ P := .Ping (env.sendPingNow / 1000000) }] ∧
      (c.onTick l env).1.pingPending = true) ∧
    (∀ w tail, c.queuedPackets = w :: tail → env.writeErr = false →
      c.state = StateConnected → c.pingPending = true →
      env.now - c.lastPingTime ≥ PingTimeout → c.pingTimeoutChan = 0 →
      (c.onTick l env).1.sent = c.sent ++ onTick.finalBuf w ∧
      (c.onTick l env).1.queuedPackets = tail ∧
      (c.onTick l env).1.pingTimeoutChan = 1) ∧
    (c.state ≠ StateConnected → onTick.keepalive c env = c) := by
  refine ⟨?_, ?_, ?_, ?_, ?_, ?_⟩
  · intro hq
    unfold Conn.onTick
    rw [hq]
  · intro w tail hq hw
    rw [onTick_cons c l env w tail hq, if_pos hw]
  · intro w tail hq hw
    rw [onTick_cons c l env w tail hq, hw]
    rfl
  · intro w tail hq hw hs hp ht
    rw [onTick_cons c l env w tail hq, hw]
    simp only [Bool.false_eq_true, if_false, onTick.keepalive, hs, hp, ht, if_true,
      Conn.sendPing, Conn.QueuePacket, and_self]
  · intro w tail hq hw hs hp ht h0
    rw [onTick_cons c l env w tail hq, hw]
    simp only [Bool.false_eq_true, if_false, onTick.keepalive, hs, hp, ht, if_true, h0,
      Nat.lt_one_iff, Nat.zero_add, and_self]
  · intro hs
    simp only [onTick.keepalive, hs, if_false]

/-- C21 amended, at a Connected connection with a Pong queued whose last Pong
is 30 s old: the tick writes the Pong frame and queues the Ping. -/
theorem onTick_flush_then_keepalive_witness :
    (Conn.onTick { state := StateConnected, queuedPackets := [{ P := .Pong 5 }] } {}
        { now := 30000000000, sendPingNow := 30000000000 }).1.sent =
        [] ++ onTick.finalBuf { P := .Pong 5 } ∧
    (Conn.onTick { state := StateConnected, queuedPackets := [{ P := .Pong 5 }] } {}
        { now := 30000000000, sendPingNow := 30000000000 }).1.queuedPackets =
        [] ++ [{ P := .Ping (30000000000 / 1000000) }] ∧
    (Conn.onTick { state := StateConnected, queuedPackets := [{ P := .Pong 5 }] } {}
        { now := 30000000000, sendPingNow := 30000000000 }).1.pingPending = true :=
  (onTick_flush_then_keepalive
    { state := StateConnected, queuedPackets := [{ P := .Pong 5 }] } {}
    { now := 30000000000, sendPingNow := 30000000000 }).2.2.2.1
    { P := .Pong 5 } [] rfl rfl rfl rfl (by decide)

/-- C22, counterexample. A new connection configured with the password "p"
handles a Handshake whose password is "q": the handshake has not succeeded (the
state is still Authenticating, the delayed "Invalid password" disconnect is
started), yet `HandshakeData()` is not nil: it holds the data of the rejected
Handshake. -/
theorem handshake_data_nil_counterexample :
    Reachable 0 [112] false
      ((newConn 0 [112] false 0).handlePacket {}
        { P := .Handshake { Password := [113] } } 0).1 ∧
    ((newConn 0 [112] false 0).handlePacket {}
        { P := .Handshake { Password := [113] } } 0).1.HandshakeData =
      some { Password := [113] } ∧
    ((newConn 0 [112] false 0).handlePacket {}
        { P := .Handshake { Password := [113] } } 0).1.state = StateAuthenticating ∧
    ((newConn 0 [112] false 0).handlePacket {}
        { P := .Handshake { Password := [113] } } 0).1.spawned = [reasonInvalidPassword] :=
  ⟨Reachable.packet _ _ _ _ (Reachable.init 0), by decide, by decide, by decide⟩

/-- C22, amended. `HandshakeData()` is nil on a new connection. Handling a
Handshake in state Authenticating sets it to the data of that Handshake before
the password is compared, whether the password matches (the state becomes
Connected) or not (the state stays Authenticating, so a wrong-password Handshake
leaves it non-nil). No other step changes it: not `handlePacket` in another
state or with another packet, nor `onTick`, `QueuePacket`, `DisconnectAndClose`,
`closeConn` or `Handler`. -/
theorem handshake_data_steps (c : Conn) (l : Listener) :
    (∀ id password listener now, (newConn id password listener now).HandshakeData = none) ∧
    (∀ w d now, c.state = StateAuthenticating → w.P = .Handshake d →
      (c.handlePacket l w now).1.HandshakeData = some d ∧
      (d.Password = c.password → (c.handlePacket l w now).1.state = StateConnected) ∧
      (d.Password ≠ c.password → (c.handlePacket l w now).1.state = StateAuthenticating)) ∧
    (∀ w now, ¬ (c.state = StateAuthenticating ∧ w.P.ID = IDHandshake) →
      (c.handlePacket l w now).1.HandshakeData = c.HandshakeData) ∧
    (∀ env, (c.onTick l env).1.HandshakeData = c.HandshakeData) ∧
    (∀ w, (c.QueuePacket w).HandshakeData = c.HandshakeData) ∧
    (∀ reason envs r, c.DisconnectAndClose l reason envs = some r →
      r.1.HandshakeData = c.HandshakeData) ∧
    (c.closeConn l).1.HandshakeData = c.HandshakeData ∧
    (∀ h, (c.Handler h).HandshakeData = c.HandshakeData) := by
  refine ⟨fun _ _ _ _ => rfl, ?_, ?_, fun env => (AuthKept_onTick c l env).1, fun _ => rfl,
    fun reason envs r h => (AuthKept_DisconnectAndClose c l reason envs r h).1,
    (AuthKept_closeConn c l).1, fun _ => rfl⟩
  · intro w d now hs hp
    obtain ⟨h1, _, h3⟩ := handlePacket_handshake c l w d now hs hp
    refine ⟨h1, fun hpw => ?_, fun hpw => ?_⟩
    · rcases h3 with ⟨_, a2, _⟩ | ⟨a1, _⟩
      · exact a2
      · exact absurd hpw a1
    · rcases h3 with ⟨a1, _⟩ | ⟨_, a2, _⟩
      · exact absurd a1 hpw
      · exact a2
  · intro w now hn
    by_cases hs : c.state = StateAuthenticating
    · rw [handlePacket_authenticating_other c l w now hs (fun hid => hn ⟨hs, hid⟩)]
    · by_cases hc : c.state = StateConnected
      · exact (handlePacket_connected_kept c l w now hc).1
      · have : c.handlePacket l w now = (c, l) := by
          unfold Conn.handlePacket
          simp only [hs, hc, if_false]
        rw [this]

/-- C22 amended, at a new connection with password "p" handling a Handshake
with password "q": the data of the rejected Handshake is stored and the state
stays Authenticating. -/
theorem handshake_data_steps_witness :
    ((newConn 0 [112] false 0).handlePacket {}
        { P := .Handshake { Password := [113] } } 0).1.HandshakeData =
      some { Password := [113] } ∧
    ((newConn 0 [112] false 0).handlePacket {}
        { P := .Handshake { Password := [113] } } 0).1.state = StateAuthenticating :=
  ⟨((handshake_data_steps (newConn 0 [112] false 0) {}).2.1
      { P := .Handshake { Password := [113] } } { Password := [113] } 0 rfl rfl).1,
   ((handshake_data_steps (newConn 0 [112] false 0) {}).2.1
      { P := .Handshake { Password := [113] } } { Password := [113] } 0 rfl rfl).2.2
      (by decide)⟩

/-- C23. For every connection in state Authenticating and every packet whose
ID is not Handshake, `handlePacket` returns with the connection and the listener
exactly as they were: state, Name, queue, handshake data and ping fields are
unchanged, the handler has not been called, no disconnect has been started and
the connection has not been closed. -/
theorem authenticating_ignores_other (c : Conn) (l : Listener) (w : Wrapper) (now : Int)
    (hs : c.state = StateAuthenticating) (hid : w.P.ID ≠ IDHandshake) :
    c.handlePacket l w now = (c, l) :=
  handlePacket_authenticating_other c l w now hs hid

/-- C23, at a new connection with a handler set, receiving a Disconnect. -/
theorem authenticating_ignores_other_witness :
    Conn.handlePacket ((newConn 0 [112] true 0).Handler (fun _ => true))
        { connections := [0] } { P := .Disconnect [88] } 7 =
      ((newConn 0 [112] true 0).Handler (fun _ => true), { connections := [0] }) :=
  authenticating_ignores_other ((newConn 0 [112] true 0).Handler (fun _ => true))
    { connections := [0] } { P := .Disconnect [88] } 7 rfl (by decide)

/-- C24. For every connection in state Connected, in particular one with a
ping pending, handling a Pong with any timestamp at time `now` clears
`pingPending`, sets `lastPongTime` to `now`, leaves the state Connected and
raises no timeout signal; and the `onTick` that follows raises no ping-timeout
signal either, whatever `lastPingTime` is, whatever the clock reads and whether
or not the socket write of that tick succeeds. -/
theorem pong_clears_pending (c : Conn) (l : Listener) (w : Wrapper) (t now : Int)
    (hs : c.state = StateConnected) (hw : w.P = .Pong t) :
    (c.handlePacket l w now).1.pingPending = false ∧
    (c.handlePacket l w now).1.lastPongTime = now ∧
    (c.handlePacket l w now).1.state = StateConnected ∧
    (c.handlePacket l w now).1.pingTimeoutChan = c.pingTimeoutChan ∧
    ∀ l1 env, ((c.handlePacket l w now).1.onTick l1 env).1.pingTimeoutChan =
      c.pingTimeoutChan := by
  have he := handlePacket_pong c l w t now hs hw
  have h1 : (c.handlePacket l w now).1.pingPending = false := by rw [he]
  have h2 : (c.handlePacket l w now).1.pingTimeoutChan = c.pingTimeoutChan := by
    rw [he]
    show (if c.h.isSome = true then ({ c with handled := c.handled ++ [w] } : Conn)
      else c).pingTimeoutChan = c.pingTimeoutChan
    split <;> rfl
  have h3 : (c.handlePacket l w now).1.state = StateConnected := by
    rw [he]
    show (if c.h.isSome = true then ({ c with handled := c.handled ++ [w] } : Conn)
      else c).state = StateConnected
    split
    · exact hs
    · exact hs
  refine ⟨h1, by rw [he], h3, h2, fun l1 env => ?_⟩
  rw [onTick_no_signal _ l1 env h1, h2]

/-- C24, at a connection whose Ping has been pending for 100 s: after the Pong
the next tick raises no timeout signal. -/
theorem pong_clears_pending_witness :
    ((Conn.handlePacket
        { state := StateConnected, pingPending := true, lastPingTime := 0 } {}
        { P := .Pong 0 } 100000000000).1.onTick {}
        { now := 100000000000, sendPingNow := 100000000000 }).1.pingTimeoutChan = 0 :=
  (pong_clears_pending { state := StateConnected, pingPending := true, lastPingTime := 0 } {}
    { P := .Pong 0 } 0 100000000000 rfl rfl).2.2.2.2 {}
    { now := 100000000000, sendPingNow := 100000000000 }

/-- C25. Authentication invariant. In every state reachable from
`newConn(conn, password, listener)` by any sequence of `handlePacket`, `onTick`,
`QueuePacket`, `DisconnectAndClose`, `closeConn` and `Handler` steps, the
configured password is the one given to `newConn`, and if the state is Connected
then the handshake data is non-nil, its Password equals the configured password
and Name equals its ClientName. In particular a Handshake packet handled while
Connected changes neither Name, nor the handshake data, nor the state. -/
theorem authentication_invariant (id : Nat) (password : List Byte) (listener : Bool)
    (c : Conn) (hr : Reachable id password listener c) :
    c.password = password ∧
    (c.state = StateConnected →
      ∃ d, c.HandshakeData = some d ∧ d.Password = password ∧ c.Name = d.ClientName) ∧
    (c.state = StateConnected → ∀ l w d now, w.P = .Handshake d →
      (c.handlePacket l w now).1.Name = c.Name ∧
      (c.handlePacket l w now).1.HandshakeData = c.HandshakeData ∧
      (c.handlePacket l w now).1.state = StateConnected) := by
  obtain ⟨hi, hpw⟩ := Reachable_inv id password listener c hr
  refine ⟨hpw, fun hs => ?_, fun hs l w d now hp => ?_⟩
  · obtain ⟨d, h1, h2, h3⟩ := hi hs
    exact ⟨d, h1, h2.trans hpw, h3⟩
  · have hk := handlePacket_connected_kept c l w now hs
    refine ⟨hk.2.2.1, hk.1, ?_⟩
    have h1 : ¬ (c.state = StateAuthenticating) := by rw [hs]; decide
    have hid : w.P.ID = IDHandshake := by rw [hp]; rfl
    have h2 : ¬ (w.P.ID = IDDisconnect) := by rw [hid]; decide
    have h3 : ¬ (w.P.ID = IDPing) := by rw [hid]; decide
    have h4 : ¬ (w.P.ID = IDPong) := by rw [hid]; decide
    have h5 : ¬ (w.P.ID = IDUnknown) := by rw [hid]; decide
    unfold Conn.handlePacket
    rw [if_neg h1, if_pos hs]
    simp only [if_neg h2, if_neg h3, if_neg h4, if_neg h5]
    split
    · exact hs
    · exact hs

/-- C25, at the connection that has handled a Handshake with the right
password and then a tick: it is Connected, and its handshake data carries the
configured password and the name. -/
theorem authentication_invariant_witness :
    ∃ d, (Conn.onTick ((newConn 0 [112] false 0).handlePacket {}
            { P := .Handshake { Password := [112], ClientName := [99] } } 0).1 {} {}).1.HandshakeData
          = some d ∧
      d.Password = [112] ∧
      (Conn.onTick ((newConn 0 [112] false 0).handlePacket {}
            { P := .Handshake { Password := [112], ClientName := [99] } } 0).1 {} {}).1.Name
          = d.ClientName :=
  (authentication_invariant 0 [112] false _
    (Reachable.tick _ {} {} (Reachable.packet _ {}
      { P := .Handshake { Password := [112], ClientName := [99] } } 0 (Reachable.init 0)))).2.1
    (by decide)

/-- C26. The flush loop of `DisconnectAndClose` terminates for every
connection state, whether socket writes succeed or fail. Each `onTick` on a
non-empty queue removes the packet at its head, and either appends nothing and
leaves `pingPending` as it was, or (only when no ping was pending) appends one
Ping and sets `pingPending`; so once the environment answers (initial queue
length + 2) calls of `onTick`, the loop entered after queuing the Disconnect
ends, after at most (initial queue length + 2) iterations, with an empty queue,
and `DisconnectAndClose` returns. -/
theorem drain_terminates (c : Conn) (l : Listener) (reason : List Byte)
    (envs : List TickEnv) (hlen : c.queuedPackets.length + 2 ≤ envs.length) :
    (∃ n c1 l1,
      (c.QueuePacket { P := .Disconnect reason, Response := false }).drainTicks envs l =
        some n ∧
      n ≤ c.queuedPackets.length + 2 ∧
      (c.QueuePacket { P := .Disconnect reason, Response := false }).drain envs l =
        some (c1, l1) ∧
      c1.queuedPackets = []) ∧
    (∃ r, c.DisconnectAndClose l reason envs = some r) ∧
    (∀ (c0 : Conn) (l0 : Listener) (env : TickEnv) (w : Wrapper) (tail : List Wrapper),
      c0.queuedPackets = w :: tail →
      ((c0.onTick l0 env).1.queuedPackets = tail ∧
        (c0.onTick l0 env).1.pingPending = c0.pingPending) ∨
      (c0.pingPending = false ∧
        (c0.onTick l0 env).1.queuedPackets =
          tail ++ [{ P := .Ping (env.sendPingNow / 1000000) }] ∧
        (c0.onTick l0 env).1.pingPending = true)) := by
  have hb := Nat.le_trans
    (drainBound_QueuePacket c { P := .Disconnect reason, Response := false }) hlen
  obtain ⟨n, h1, h2⟩ := drainTicks_total envs
    (c.QueuePacket { P := .Disconnect reason, Response := false }) l hb
  obtain ⟨c1, l1, h3, h4, _⟩ := drain_total envs
    (c.QueuePacket { P := .Disconnect reason, Response := false }) l hb
  refine ⟨⟨n, c1, l1, h1, Nat.le_trans h2 (drainBound_QueuePacket c _), h3, h4⟩, ?_, ?_⟩
  · unfold Conn.DisconnectAndClose
    split
    · exact ⟨_, rfl⟩
    · simp only [h3]
      exact ⟨_, rfl⟩
  · intro c0 l0 env w tail hq
    rcases onTick_queue c0 l0 env w tail hq with h | ⟨_, hp, _, h5, h6⟩
    · exact Or.inl h
    · exact Or.inr ⟨hp, h5, h6⟩

/-- C26, at a Connected connection with a Pong queued whose first tick of the
flush fails to write: the loop still ends, within three iterations. -/
theorem drain_terminates_witness :
    ∃ n, Conn.drainTicks [{ writeErr := true }, {}, {}]
          (Conn.QueuePacket { state := StateConnected, queuedPackets := [{ P := .Pong 5 }] }
            { P := .Disconnect [88], Response := false }) {} = some n ∧
      n ≤ 3 := by
  obtain ⟨⟨n, _, _, h1, h2, _⟩, _⟩ :=
    drain_terminates { state := StateConnected, queuedPackets := [{ P := .Pong 5 }] } {} [88]
      [{ writeErr := true }, {}, {}] (by decide)
  exact ⟨n, h1, h2⟩

end StarGate
